import Mathlib

/-!
Shallow embedding of the constraint puzzle engine of the sudoku-web-game
repository: the generator (`SudokuEngine`, src/unnamed/part_000), the
validator (`SudokuValidator`, src/unnamed/part_001) and the hint engine
(`SudokuHints`, src/unnamed/part_000).

Modelling conventions:
* a JS `number[][]` grid is a `List (List Int)`; `0` denotes an empty cell;
* JS floating point values that are only stored and compared (fill
  percentages, completeness, confidence) are modelled as rationals;
* `Math.random`-driven shuffles are modelled by passing the shuffled list
  (or a shuffle function) as an explicit parameter;
* unbounded JS loops and recursion are modelled with an explicit fuel
  parameter; the functions below are only related to the source on runs
  where the fuel does not run out, and every theorem either supplies
  enough fuel or holds for all fuel values;
* a thrown JS exception is modelled with `Except String`; a function whose
  source wraps its body in `try/catch` is total and applies the catch
  handler to the `.error` case.  Accessing `grid[r]` for a missing row `r`
  and then indexing into it throws in JS; `readCell` mirrors this.
  Accessing a present but short row yields `undefined`, modelled as
  `none : Option Int`.
-/

namespace Sudoku

/-- Grid of cell values, row major; `0` is an empty cell (JS `number[][]`). -/
abbrev Grid := List (List Int)

/-- Grid geometry, one of the four entries of `this.gridConfigs` in the source. -/
structure GridConfig where
  size : Nat
  boxWidth : Nat
  boxHeight : Nat
  maxValue : Nat
deriving Repr, DecidableEq

/-- The `gridConfigs[4]` entry. -/
def config4 : GridConfig := ⟨4, 2, 2, 4⟩

/-- The `gridConfigs[6]` entry. -/
def config6 : GridConfig := ⟨6, 3, 2, 6⟩

/-- The `gridConfigs[9]` entry. -/
def config9 : GridConfig := ⟨9, 3, 3, 9⟩

/-- The `gridConfigs[16]` entry. -/
def config16 : GridConfig := ⟨16, 4, 4, 16⟩

/-- Lookup `this.gridConfigs[size]` (shared by all three classes); `none` is
the JS `undefined` for an unsupported size. -/
def gridConfigs (size : Nat) : Option GridConfig :=
  if size = 4 then some config4
  else if size = 6 then some config6
  else if size = 9 then some config9
  else if size = 16 then some config16
  else none

/-- Difficulty profile, an entry of `SudokuEngine.difficulties`. -/
structure DifficultyConfig where
  fillPercentage : ℚ
  symmetry : Bool
deriving Repr, DecidableEq

/-- The `difficulties.easy` entry (`fillPercentage: 0.6, symmetry: true`). -/
def easyDifficulty : DifficultyConfig := ⟨3/5, true⟩

/-- The `difficulties.medium` entry (`fillPercentage: 0.45, symmetry: true`). -/
def mediumDifficulty : DifficultyConfig := ⟨9/20, true⟩

/-- The `difficulties.hard` entry (`fillPercentage: 0.35, symmetry: false`). -/
def hardDifficulty : DifficultyConfig := ⟨7/20, false⟩

/-- The `difficulties.hardcore` entry (`fillPercentage: 0.25, symmetry: false`). -/
def hardcoreDifficulty : DifficultyConfig := ⟨1/4, false⟩

/-- Total cell read, used for the engine internals that the source only runs
on grids of the advertised dimensions: `grid[r][c]` with a default of `0`
outside the grid. -/
def cellD (g : Grid) (r c : Nat) : Int :=
  (g.getD r []).getD c 0

/-- Cell write `grid[r][c] = v`; a no-op outside the grid (the source never
writes outside the grid on the runs modelled here). -/
def setCell (g : Grid) (r c : Nat) (v : Int) : Grid :=
  match g[r]? with
  | none => g
  | some row => g.set r (row.set c v)

/-- Faithful cell read `grid[r][c]`: a missing row makes the JS expression
throw (`.error`), a missing column inside a present row yields `undefined`
(`none`). -/
def readCell (g : Grid) (r c : Nat) : Except String (Option Int) :=
  match g[r]? with
  | none => .error "TypeError: cannot index into undefined row"
  | some row => .ok row[c]?

/-- Row-major list of all cell coordinates of a grid of the given size. -/
def allCells (size : Nat) : List (Nat × Nat) :=
  (List.range size).flatMap (fun r => (List.range size).map (fun c => (r, c)))

/-- Grid has exactly `size` rows of length `size` (the dimension part of
`validateGridStructure`). -/
def gridDims (g : Grid) (size : Nat) : Prop :=
  g.length = size ∧ ∀ row ∈ g, row.length = size

instance (g : Grid) (size : Nat) : Decidable (gridDims g size) := by
  unfold gridDims; infer_instance

/-- Well-formed grid for a config: correct dimensions and every cell an
integer in `[0, maxValue]` (exactly the condition of
`SudokuValidator.validateGridStructure`; `Number.isInteger` is vacuous in
the integer model). -/
def wellFormed (g : Grid) (config : GridConfig) : Prop :=
  gridDims g config.size ∧
    ∀ r, r < config.size → ∀ c, c < config.size →
      0 ≤ cellD g r c ∧ cellD g r c ≤ (config.maxValue : Int)

instance (g : Grid) (config : GridConfig) : Decidable (wellFormed g config) := by
  unfold wellFormed; infer_instance

/-- Number of empty cells among the in-range coordinates. -/
def countEmpty (g : Grid) (size : Nat) : Nat :=
  ((allCells size).filter (fun p => cellD g p.1 p.2 = 0)).length

end Sudoku

namespace Sudoku

/-! ### SudokuEngine: placement check and solution counting -/

/-- Check whether the row of `(row, col)` already holds `value` elsewhere
(first loop of `SudokuEngine.isValidPlacement`). -/
def usedInRow (g : Grid) (row col : Nat) (value : Int) (config : GridConfig) : Bool :=
  (List.range config.size).any (fun c => c ≠ col && cellD g row c == value)

/-- Check whether the column of `(row, col)` already holds `value` elsewhere
(second loop of `SudokuEngine.isValidPlacement`). -/
def usedInCol (g : Grid) (row col : Nat) (value : Int) (config : GridConfig) : Bool :=
  (List.range config.size).any (fun r => r ≠ row && cellD g r col == value)

/-- The top-left corner of the box containing `(row, col)`:
`Math.floor(row / boxHeight) * boxHeight` and likewise for columns. -/
def boxCorner (row col : Nat) (config : GridConfig) : Nat × Nat :=
  (row / config.boxHeight * config.boxHeight, col / config.boxWidth * config.boxWidth)

/-- Cells of the box containing `(row, col)`, in the row-major order the
source loops over them. -/
def boxCells (row col : Nat) (config : GridConfig) : List (Nat × Nat) :=
  (List.range config.boxHeight).flatMap (fun i =>
    (List.range config.boxWidth).map (fun j =>
      ((boxCorner row col config).1 + i, (boxCorner row col config).2 + j)))

/-- Check whether the box of `(row, col)` already holds `value` at a cell
other than `(row, col)` (third loop of `SudokuEngine.isValidPlacement`). -/
def usedInBox (g : Grid) (row col : Nat) (value : Int) (config : GridConfig) : Bool :=
  (boxCells row col config).any (fun p => p ≠ (row, col) && cellD g p.1 p.2 == value)

/-- `SudokuEngine.isValidPlacement(grid, row, col, value, config)`: no equal
value elsewhere in the same row, column or box. -/
def isValidPlacement (g : Grid) (row col : Nat) (value : Int) (config : GridConfig) : Bool :=
  !(usedInRow g row col value config || usedInCol g row col value config ||
    usedInBox g row col value config)

/-- `findEmptyCell(grid, config)` (identical in `SudokuEngine` and
`SudokuValidator`): the first cell in row-major order holding `0`. -/
def findEmptyCell (g : Grid) (config : GridConfig) : Option (Nat × Nat) :=
  (allCells config.size).find? (fun p => cellD g p.1 p.2 = 0)

/-- The candidate values `1..maxValue` that the counting loops iterate over. -/
def candidateValues (config : GridConfig) : List Int :=
  (List.range config.maxValue).map (fun i => (i + 1 : Int))

/-- Value loop of `SudokuEngine.countSolutions`: try each candidate value at
the first empty cell `(row, col)`, calling the recursion `recur` and then
resetting the cell (`grid[row][col] = 0`); the engine version has no early
`break` in the loop.  Threads `solutions.length` and the in-place mutated
grid. -/
def engineCountVals (recur : Grid → Nat → Nat × Grid) (config : GridConfig)
    (row col : Nat) : List Int → Grid → Nat → Nat × Grid
  | [], g, acc => (acc, g)
  | v :: vs, g, acc =>
    if isValidPlacement g row col v config then
      let r1 := recur (setCell g row col v) acc
      engineCountVals recur config row col vs (setCell r1.2 row col 0) r1.1
    else
      engineCountVals recur config row col vs g acc

/-- `SudokuEngine.countSolutions(grid, config, solutions, maxSolutions)`,
with `acc` standing for `solutions.length`; returns immediately once the cap
is reached, records the grid when no empty cell remains, and otherwise
branches over the values `1..maxValue` at the first empty cell. -/
def engineCountSolutions (fuel : Nat) (g : Grid) (config : GridConfig)
    (acc maxSolutions : Nat) : Nat × Grid :=
  match fuel with
  | 0 => (acc, g)
  | fuel + 1 =>
    if maxSolutions ≤ acc then (acc, g)
    else
      match findEmptyCell g config with
      | none => (acc + 1, g)
      | some (row, col) =>
        engineCountVals
          (fun g1 acc1 => engineCountSolutions fuel g1 config acc1 maxSolutions)
          config row col (candidateValues config) g acc

/-- Fuel that always suffices for the solution counters: one unit per cell
plus one. -/
def solverFuel (config : GridConfig) : Nat :=
  config.size * config.size + 1

/-- `SudokuEngine.hasUniqueSolution(puzzle, config)`: run `countSolutions` on
a deep copy with a cap of `2` and test `solutions.length === 1`. -/
def hasUniqueSolution (puzzle : Grid) (config : GridConfig) : Bool :=
  (engineCountSolutions (solverFuel config) puzzle config 0 2).1 = 1

/-- Number of cells to clear:
`Math.floor(totalCells * (1 - difficultyConfig.fillPercentage))`.  With the
stored fill percentages the rational floor agrees with the JS double
computation on all four sizes. -/
def cellsToRemove (config : GridConfig) (difficultyConfig : DifficultyConfig) : Nat :=
  (⌊(config.size * config.size : ℚ) * (1 - difficultyConfig.fillPercentage)⌋).toNat

/-- Removal loop of `SudokuEngine.createPuzzleFromSolution`, iterating over
the shuffled cell positions with the running `removedCells` counter: stop
once the quota is met; tentatively clear the cell; if the puzzle still has a
unique solution keep the removal (clearing the 180-degree symmetric cell too
when the difficulty enforces symmetry, without re-checking uniqueness),
otherwise restore the cell. -/
def removeCellsLoop (config : GridConfig) (difficultyConfig : DifficultyConfig)
    (quota : Nat) : List (Nat × Nat) → Grid → Nat → Grid
  | [], g, _ => g
  | (row, col) :: rest, g, removed =>
    if quota ≤ removed then g
    else
      let originalValue := cellD g row col
      let g1 := setCell g row col 0
      if hasUniqueSolution g1 config then
        if difficultyConfig.symmetry then
          let symRow := config.size - 1 - row
          let symCol := config.size - 1 - col
          if cellD g1 symRow symCol ≠ 0 then
            removeCellsLoop config difficultyConfig quota rest
              (setCell g1 symRow symCol 0) (removed + 2)
          else
            removeCellsLoop config difficultyConfig quota rest g1 (removed + 1)
        else
          removeCellsLoop config difficultyConfig quota rest g1 (removed + 1)
      else
        removeCellsLoop config difficultyConfig quota rest (setCell g1 row col originalValue) removed

/-- `SudokuEngine.createPuzzleFromSolution(solution, config, difficultyConfig)`
with the outcome of `shuffleArray(cellPositions)` passed explicitly as
`order`. -/
def createPuzzleFromSolution (solution : Grid) (config : GridConfig)
    (difficultyConfig : DifficultyConfig) (order : List (Nat × Nat)) : Grid :=
  removeCellsLoop config difficultyConfig (cellsToRemove config difficultyConfig) order solution 0

/-- Removal loop of the worker `createPuzzleFromSolution` in
`SudokuEngine.getWorkerCode`: blindly zero the first `cellsToRemove` shuffled
positions, with no uniqueness check at all. -/
def workerRemoveLoop : Nat → List (Nat × Nat) → Grid → Grid
  | 0, _, g => g
  | _, [], g => g
  | n + 1, (row, col) :: rest, g => workerRemoveLoop n rest (setCell g row col 0)

/-- Worker-path `createPuzzleFromSolution(solution, config, difficultyConfig)`
from `getWorkerCode`, with the shuffled positions passed as `order`. -/
def workerCreatePuzzleFromSolution (solution : Grid) (config : GridConfig)
    (difficultyConfig : DifficultyConfig) (order : List (Nat × Nat)) : Grid :=
  workerRemoveLoop (cellsToRemove config difficultyConfig) order solution

end Sudoku

namespace Sudoku

/-! ### SudokuValidator -/

/-- Conflict object produced by `validateCellConstraints` and `validateMove`;
fields that a given conflict shape does not carry are `none`. -/
structure Conflict where
  type : String
  position : Nat × Nat
  conflictPosition : Option (Nat × Nat)
  value : Option Int
  message : String
deriving Repr, DecidableEq

/-- Message attached by `validateCellConstraints` to a conflict of the given
type. -/
def conflictMessage (ty : String) (row col : Nat) (value : Int) : String :=
  if ty = "row_conflict" then s!"Value {value} already exists in row {row + 1}"
  else if ty = "column_conflict" then s!"Value {value} already exists in column {col + 1}"
  else s!"Value {value} already exists in the box"

/-- Scan points of `validateCellConstraints`, in source order: the row loop
(skipping `c === col`), then the column loop (skipping `r === row`), then
the box loop (skipping the cell itself), each tagged with its conflict
type. -/
def vccPoints (row col : Nat) (config : GridConfig) : List ((Nat × Nat) × String) :=
  ((List.range config.size).filterMap (fun c =>
      if c ≠ col then some ((row, c), "row_conflict") else none)) ++
  ((List.range config.size).filterMap (fun r =>
      if r ≠ row then some ((r, col), "column_conflict") else none)) ++
  ((boxCells row col config).filterMap (fun p =>
      if p ≠ (row, col) then some (p, "box_conflict") else none))

/-- Conflict-collecting scan of `validateCellConstraints`: walk the scan
points, record a conflict whenever the cell holds `value`, and abort with
`true` when a missing row makes the JS access throw (the `catch` of the
source then appends a `validation_error` conflict to the partial list). -/
def vccScan (g : Grid) (pos : Nat × Nat) (value : Int) :
    List ((Nat × Nat) × String) → List Conflict → List Conflict × Bool
  | [], acc => (acc, false)
  | (p, ty) :: rest, acc =>
    match readCell g p.1 p.2 with
    | .error _ => (acc, true)
    | .ok cv =>
      if cv = some value then
        vccScan g pos value rest
          (acc ++ [⟨ty, pos, some p, some value, conflictMessage ty pos.1 pos.2 value⟩])
      else
        vccScan g pos value rest acc

/-- `SudokuValidator.validateCellConstraints(grid, row, col, value, config)`:
empty value is always valid; otherwise scan the row, column and box of the
cell, catching a thrown access into a trailing `validation_error` conflict. -/
def validateCellConstraints (g : Grid) (row col : Nat) (value : Int)
    (config : GridConfig) : List Conflict :=
  if value = 0 then []
  else
    let s := vccScan g (row, col) value (vccPoints row col config) []
    if s.2 then
      s.1 ++ [⟨"validation_error", (row, col), none, none,
        "TypeError: cannot index into undefined row"⟩]
    else s.1

/-- Insertion step of a JS `Set` built by successive `add` calls: keep the
first occurrence, preserve insertion order. -/
def insertUniq (l : List (Nat × Nat)) (p : Nat × Nat) : List (Nat × Nat) :=
  if p ∈ l then l else l ++ [p]

/-- `SudokuValidator.getAffectedCells(row, col, config)`: the other cells of
the row, then of the column, then of the box, deduplicated in insertion
order by the JS `Set`. -/
def getAffectedCells (row col : Nat) (config : GridConfig) : List (Nat × Nat) :=
  ((((List.range config.size).filterMap (fun c =>
        if c ≠ col then some (row, c) else none)) ++
    ((List.range config.size).filterMap (fun r =>
        if r ≠ row then some (r, col) else none)) ++
    ((boxCells row col config).filterMap (fun p =>
        if p ≠ (row, col) then some p else none))).foldl insertUniq [])

/-- `SudokuValidator.getValidValues(grid, row, col, size)`: values `1..maxValue`
whose `validateCellConstraints` conflict list is empty; an unsupported size
makes the body throw and the catch rethrow. -/
def getValidValuesE (g : Grid) (row col : Nat) (size : Nat) :
    Except String (List Int) :=
  match gridConfigs size with
  | none => .error "Failed to get valid values: cannot read maxValue of undefined"
  | some config =>
    .ok ((candidateValues config).filter
      (fun v => validateCellConstraints g row col v config = []))

/-- Suggestion object of `generateMoveSuggestions`; unused fields stay empty. -/
structure Suggestion where
  type : String
  message : String
  values : List Int
  positions : List (Nat × Nat)
deriving Repr, DecidableEq

/-- Filter `affectedCells.filter(([r, c]) => grid[r][c] === 0)`; a missing
row makes the JS access throw. -/
def filterEmptyE (g : Grid) : List (Nat × Nat) → Except String (List (Nat × Nat))
  | [] => .ok []
  | p :: rest => do
    let cv ← readCell g p.1 p.2
    let tail ← filterEmptyE g rest
    if cv = some 0 then .ok (p :: tail) else .ok tail

/-- `SudokuValidator.generateMoveSuggestions(grid, row, col, config)`: a
`valid_values` suggestion when some value is still legal, plus an
`affected_cells` suggestion when the move touches other empty cells. -/
def generateMoveSuggestionsE (g : Grid) (row col : Nat) (config : GridConfig) :
    Except String (List Suggestion) := do
  let validValues ← getValidValuesE g row col config.size
  let s1 : List Suggestion :=
    if validValues ≠ [] then
      [⟨"valid_values", s!"Valid values for this cell: {validValues}", validValues, []⟩]
    else []
  let affectedEmpty ← filterEmptyE g (getAffectedCells row col config)
  let s2 : List Suggestion :=
    if affectedEmpty ≠ [] then
      [⟨"affected_cells", s!"This move affects {affectedEmpty.length} other empty cells",
        [], affectedEmpty⟩]
    else []
  .ok (s1 ++ s2)

/-- Result object of `validateMove`. -/
structure MoveResult where
  isValid : Bool
  conflicts : List Conflict
  affectedCells : List (Nat × Nat)
  suggestions : List Suggestion
deriving Repr, DecidableEq

/-- Body of `SudokuValidator.validateMove(grid, row, col, value, size)`
inside its `try`: unsupported size throws; an out-of-range nonzero value
returns early with a single `invalid_value` conflict and empty
`affectedCells`; otherwise the cell constraints are checked, the affected
cells attached, and suggestions generated only for an invalid move. -/
def validateMoveE (g : Grid) (row col : Nat) (value : Int) (size : Nat) :
    Except String MoveResult :=
  match gridConfigs size with
  | none => .error s!"Unsupported grid size: {size}"
  | some config =>
    if value ≠ 0 ∧ (value < 1 ∨ (config.maxValue : Int) < value) then
      .ok ⟨false,
        [⟨"invalid_value", (row, col), none, some value,
          s!"Value must be between 1 and {config.maxValue}"⟩], [], []⟩
    else do
      let cellConflicts := validateCellConstraints g row col value config
      let valid := cellConflicts = []
      let affected := getAffectedCells row col config
      let suggestions ←
        if valid then pure [] else generateMoveSuggestionsE g row col config
      .ok ⟨valid, cellConflicts, affected, suggestions⟩

/-- `SudokuValidator.validateMove`: the `try` body with its `catch`, which
converts any thrown error into a structured invalid result with a single
`validation_error` conflict. -/
def validateMove (g : Grid) (row col : Nat) (value : Int) (size : Nat) :
    MoveResult :=
  match validateMoveE g row col value size with
  | .ok r => r
  | .error m => ⟨false, [⟨"validation_error", (row, col), none, none, m⟩], [], []⟩

/-- Duplicate-group object of `findRowConflicts` / `findColumnConflicts` /
`findBoxConflicts`; `value` is `none` when the duplicated entry is the JS
`undefined` read from a short row. -/
structure GroupConflict where
  type : String
  value : Option Int
  positions : List (Nat × Nat)
deriving Repr, DecidableEq

/-- Shared loop body of `findRowConflicts` / `findColumnConflicts` /
`findBoxConflicts` over the listed cells: `seen` maps each value to the
positions recorded at its first sighting; a repeat sighting emits a
conflict; a missing row aborts with `.error` (the JS access throws). -/
def findGroupConflictsGo (g : Grid) (ty : String) :
    List (Nat × Nat) → List (Option Int × List (Nat × Nat)) → List GroupConflict →
    Except String (List GroupConflict)
  | [], _, acc => .ok acc
  | p :: rest, seen, acc =>
    match readCell g p.1 p.2 with
    | .error e => .error e
    | .ok cv =>
      if cv = some 0 then findGroupConflictsGo g ty rest seen acc
      else
        match seen.lookup cv with
        | some existing =>
          findGroupConflictsGo g ty rest seen (acc ++ [⟨ty, cv, existing ++ [p]⟩])
        | none => findGroupConflictsGo g ty rest (seen ++ [(cv, [p])]) acc

/-- `findRowConflicts(grid, row, config)`. -/
def findRowConflicts (g : Grid) (row : Nat) (config : GridConfig) :
    Except String (List GroupConflict) :=
  findGroupConflictsGo g "row_duplicate"
    ((List.range config.size).map (fun c => (row, c))) [] []

/-- `findColumnConflicts(grid, col, config)`. -/
def findColumnConflicts (g : Grid) (col : Nat) (config : GridConfig) :
    Except String (List GroupConflict) :=
  findGroupConflictsGo g "column_duplicate"
    ((List.range config.size).map (fun r => (r, col))) [] []

/-- Top-left corners of all boxes, in the order of the nested
`boxRow += boxHeight` / `boxCol += boxWidth` loops (the four supported
configs have `boxHeight ∣ size` and `boxWidth ∣ size`). -/
def boxStarts (config : GridConfig) : List (Nat × Nat) :=
  (List.range (config.size / config.boxHeight)).flatMap (fun i =>
    (List.range (config.size / config.boxWidth)).map (fun j =>
      (i * config.boxHeight, j * config.boxWidth)))

/-- `findBoxConflicts(grid, startRow, startCol, config)`. -/
def findBoxConflicts (g : Grid) (startRow startCol : Nat) (config : GridConfig) :
    Except String (List GroupConflict) :=
  findGroupConflictsGo g "box_duplicate"
    ((List.range config.boxHeight).flatMap (fun i =>
      (List.range config.boxWidth).map (fun j => (startRow + i, startCol + j)))) [] []

/-- Result object of `findAllConflicts`; `conflictPositions` is the JS `Set`
of position keys in insertion order. -/
structure ConflictReport where
  rowConflicts : List GroupConflict
  columnConflicts : List GroupConflict
  boxConflicts : List GroupConflict
  totalConflicts : Nat
  conflictPositions : List (Nat × Nat)
deriving Repr, DecidableEq

/-- Collect the positions of all conflicts into the insertion-ordered `Set`. -/
def aggregatePositions (conflicts : List GroupConflict) : List (Nat × Nat) :=
  (conflicts.flatMap (fun c => c.positions)).foldl insertUniq []

/-- `SudokuValidator.findAllConflicts(grid, size)` on a cache miss.  Unlike
`validateMove` and `validateSolution`, its `catch` block rethrows: any
internal error (unsupported size, or a thrown grid access on a malformed
grid) escapes to the caller as an exception, wrapped in a
`Conflict detection failed` message.  The `conflictCache` keyed by the grid
hash only memoizes this result and is not modelled. -/
def findAllConflictsE (g : Grid) (size : Nat) : Except String ConflictReport :=
  match gridConfigs size with
  | none => .error "Conflict detection failed: cannot read size of undefined"
  | some config =>
    (do
      let rowC ← (List.range config.size).foldlM
        (fun acc row => do pure (acc ++ (← findRowConflicts g row config))) []
      let colC ← (List.range config.size).foldlM
        (fun acc col => do pure (acc ++ (← findColumnConflicts g col config))) []
      let boxC ← (boxStarts config).foldlM
        (fun acc p => do pure (acc ++ (← findBoxConflicts g p.1 p.2 config))) []
      let positions := aggregatePositions (rowC ++ colC ++ boxC)
      .ok ⟨rowC, colC, boxC, positions.length, positions⟩ :
        Except String ConflictReport).mapError
      (fun m => s!"Conflict detection failed: {m}")

end Sudoku

namespace Sudoku

/-! ### SudokuValidator: full-solution validation and uniqueness -/

/-- `SudokuValidator.validateGridStructure(grid, config)`: correct row count,
correct row lengths, and every cell an integer in `[0, maxValue]`. -/
def validateGridStructure (g : Grid) (config : GridConfig) : Bool :=
  g.length == config.size &&
    g.all (fun row => row.length == config.size &&
      row.all (fun v => 0 ≤ v && v ≤ (config.maxValue : Int)))

/-- `SudokuValidator.calculateCompleteness(grid)`: filled cells over total
cells; reading `grid[0].length` of an empty grid throws.  JS divides
doubles (yielding `NaN` for an empty row list, unreachable after the
structure check); the model divides rationals. -/
def calculateCompletenessE (g : Grid) : Except String ℚ :=
  match g[0]? with
  | none => .error "TypeError: cannot read length of undefined"
  | some row0 =>
    .ok (((g.flatten.filter (· ≠ 0)).length : ℚ) / ((g.length * row0.length : Nat) : ℚ))

/-- `SudokuValidator.isValidGroup(values, maxValue)`: the nonzero entries are
pairwise distinct (JS compares `Set` size with the filtered length; entries
may be the `undefined` of a short row, modelled as `none`). -/
def isValidGroup (values : List (Option Int)) : Bool :=
  ((values.filter (· ≠ some 0)).dedup).length == (values.filter (· ≠ some 0)).length

/-- `SudokuValidator.getColumn(grid, col)`: maps over the actual rows, so a
short row contributes `undefined` without throwing. -/
def getColumn (g : Grid) (col : Nat) : List (Option Int) :=
  g.map (fun row => row[col]?)

/-- Accumulate the index lists per value in first-sighting order, as the
`seen` map of `findDuplicatePositions` (a JS `Map` whose arrays are pushed
to in place). -/
def dupSeen : List (Nat × Option Int) → List (Option Int × List Nat) →
    List (Option Int × List Nat)
  | [], seen => seen
  | (idx, v) :: rest, seen =>
    if v = some 0 then dupSeen rest seen
    else
      match seen.lookup v with
      | some _ =>
        dupSeen rest
          (seen.map (fun e => if e.1 = v then (e.1, e.2 ++ [idx]) else e))
      | none => dupSeen rest (seen ++ [(v, [idx])])

/-- `SudokuValidator.findDuplicatePositions(values, index, type)`: group
indices by value, then emit the positions of every value occurring more
than once, in first-sighting order; types other than `row` and `column`
contribute nothing. -/
def findDuplicatePositions (values : List (Option Int)) (index : Nat) (ty : String) :
    List (Nat × Nat) :=
  (dupSeen values.enum []).flatMap (fun e =>
    if 1 < e.2.length then
      e.2.flatMap (fun idx =>
        if ty = "row" then [(index, idx)]
        else if ty = "column" then [(idx, index)]
        else [])
    else [])

/-- Conflict object of `validateAllConstraints`; the three shapes share the
structure, with the unused index fields `none`. -/
structure ConstraintConflict where
  type : String
  row : Option Nat
  column : Option Nat
  boxRow : Option Nat
  boxCol : Option Nat
  positions : List (Nat × Nat)
deriving Repr, DecidableEq

/-- Result record of `validateAllConstraints`. -/
structure ConstraintResults where
  isValid : Bool
  conflicts : List ConstraintConflict
  errors : List String
deriving Repr, DecidableEq

/-- Row loop of `validateAllConstraints`: a missing row makes
`isValidGroup(grid[row])` throw, aborting with the partial conflict list
(second component `some message`). -/
def vacRows (g : Grid) (config : GridConfig) :
    List Nat → List ConstraintConflict → List ConstraintConflict × Option String
  | [], acc => (acc, none)
  | row :: rest, acc =>
    match g[row]? with
    | none => (acc, some "TypeError: cannot filter undefined")
    | some r =>
      let vals := r.map some
      if isValidGroup vals then vacRows g config rest acc
      else vacRows g config rest
        (acc ++ [⟨"row_duplicate", some row, none, none, none,
          findDuplicatePositions vals row "row"⟩])

/-- Column loop of `validateAllConstraints`; `getColumn` maps over the rows
that exist, so it never throws. -/
def vacCols (g : Grid) (config : GridConfig) :
    List Nat → List ConstraintConflict → List ConstraintConflict
  | [], acc => acc
  | col :: rest, acc =>
    let vals := getColumn g col
    if isValidGroup vals then vacCols g config rest acc
    else vacCols g config rest
      (acc ++ [⟨"column_duplicate", none, some col, none, none,
        findDuplicatePositions vals col "column"⟩])

/-- `SudokuValidator.getBox(grid, startRow, startCol, config)`: values and
positions of the box cells; a missing row makes the access throw. -/
def getBoxE (g : Grid) (startRow startCol : Nat) (config : GridConfig) :
    Except String (List (Option Int) × List (Nat × Nat)) :=
  ((List.range config.boxHeight).flatMap (fun i =>
    (List.range config.boxWidth).map (fun j => (startRow + i, startCol + j)))).foldlM
    (fun acc p => do
      let cv ← readCell g p.1 p.2
      pure (acc.1 ++ [cv], acc.2 ++ [p]))
    ([], [])

/-- Positions kept for a box conflict:
`box.positions.filter((pos, idx) => box.values.indexOf(box.values[idx]) !== idx && box.values[idx] !== 0)`. -/
def boxDuplicatePositions (vals : List (Option Int)) (poss : List (Nat × Nat)) :
    List (Nat × Nat) :=
  ((poss.zip vals).enum.filterMap (fun e =>
    if vals.indexOf e.2.2 ≠ e.1 ∧ e.2.2 ≠ some 0 then some e.2.1 else none))

/-- Box loop of `validateAllConstraints`. -/
def vacBoxes (g : Grid) (config : GridConfig) :
    List (Nat × Nat) → List ConstraintConflict → List ConstraintConflict × Option String
  | [], acc => (acc, none)
  | (br, bc) :: rest, acc =>
    match getBoxE g br bc config with
    | .error m => (acc, some m)
    | .ok (vals, poss) =>
      if isValidGroup vals then vacBoxes g config rest acc
      else vacBoxes g config rest
        (acc ++ [⟨"box_duplicate", none, none, some br, some bc,
          boxDuplicatePositions vals poss⟩])

/-- `SudokuValidator.validateAllConstraints(grid, config)`: every row,
column and box is checked and every duplicate collected; the internal
`catch` keeps the partial conflict list and records an error string. -/
def validateAllConstraints (g : Grid) (config : GridConfig) : ConstraintResults :=
  match vacRows g config (List.range config.size) [] with
  | (acc, some m) => ⟨false, acc, [s!"Constraint validation error: {m}"]⟩
  | (acc, none) =>
    let acc := vacCols g config (List.range config.size) acc
    match vacBoxes g config (boxStarts config) acc with
    | (acc, some m) => ⟨false, acc, [s!"Constraint validation error: {m}"]⟩
    | (acc, none) => ⟨acc.isEmpty, acc, []⟩

/-- Result object of `validateSolution` (the wall-clock `validationTime`
field is not modelled). -/
structure SolutionResult where
  isValid : Bool
  errors : List String
  conflicts : List ConstraintConflict
  completeness : ℚ
deriving Repr, DecidableEq

/-- Body of `SudokuValidator.validateSolution(grid, size)` inside its `try`:
unsupported size throws; computing the completeness can throw on an empty
grid; a structurally invalid grid and an incomplete grid return early as
invalid; otherwise all constraints are validated. -/
def validateSolutionE (g : Grid) (size : Nat) : Except String SolutionResult :=
  match gridConfigs size with
  | none => .error s!"Unsupported grid size: {size}"
  | some config => do
    let completeness ← calculateCompletenessE g
    if ¬ validateGridStructure g config then
      .ok ⟨false, ["Invalid grid structure"], [], completeness⟩
    else if completeness < 1 then
      .ok ⟨false, ["Puzzle is incomplete"], [], completeness⟩
    else
      let cr := validateAllConstraints g config
      .ok ⟨cr.isValid, cr.errors, cr.conflicts, completeness⟩

/-- `SudokuValidator.validateSolution`: the `try` body with its `catch`,
which converts any thrown error into a structured invalid result. -/
def validateSolution (g : Grid) (size : Nat) : SolutionResult :=
  match validateSolutionE g size with
  | .ok r => r
  | .error m => ⟨false, [s!"Validation error: {m}"], [], 0⟩

/-- Value loop of `SudokuValidator.countSolutions`: like the engine loop but
the validity test is an empty `validateCellConstraints` list and the loop
breaks once the cap is reached after resetting the cell. -/
def countVals (recur : Grid → Nat → Nat × Grid) (config : GridConfig)
    (maxSolutions row col : Nat) : List Int → Grid → Nat → Nat × Grid
  | [], g, acc => (acc, g)
  | v :: vs, g, acc =>
    if validateCellConstraints g row col v config = [] then
      let r1 := recur (setCell g row col v) acc
      let g2 := setCell r1.2 row col 0
      if maxSolutions ≤ r1.1 then (r1.1, g2)
      else countVals recur config maxSolutions row col vs g2 r1.1
    else countVals recur config maxSolutions row col vs g acc

/-- `SudokuValidator.countSolutions(grid, config, solutions, maxSolutions)`:
return at the cap, record a solution when no cell is empty, else try each
value `1..maxValue` at the first empty cell, resetting it after each
branch.  Threads `solutions.length` and the in-place mutated grid. -/
def countSolutions (fuel : Nat) (g : Grid) (config : GridConfig)
    (acc maxSolutions : Nat) : Nat × Grid :=
  match fuel with
  | 0 => (acc, g)
  | fuel + 1 =>
    if maxSolutions ≤ acc then (acc, g)
    else
      match findEmptyCell g config with
      | none => (acc + 1, g)
      | some (row, col) =>
        countVals (fun g1 acc1 => countSolutions fuel g1 config acc1 maxSolutions)
          config maxSolutions row col (candidateValues config) g acc

/-- Result object of `checkUniqueness`. -/
structure UniquenessResult where
  hasUniqueSolution : Bool
  solutionCount : Nat
  isValid : Bool
  analysis : String
deriving Repr, DecidableEq

/-- `SudokuValidator.checkUniqueness(grid, size)`: run `countSolutions` with
a cap of `2` on a deep copy of the grid; an unsupported size makes the body
throw and the `catch` return the error shape. -/
def checkUniqueness (g : Grid) (size : Nat) : UniquenessResult :=
  match gridConfigs size with
  | none => ⟨false, 0, false, "Error: cannot read size of undefined"⟩
  | some config =>
    let n := (countSolutions (solverFuel config) g config 0 2).1
    ⟨n = 1, n, 0 < n,
      if n = 0 then "No solutions exist"
      else if n = 1 then "Unique solution exists"
      else "Multiple solutions exist"⟩

end Sudoku

namespace Sudoku

/-! ### SudokuHints -/

/-- Related-cell record of `findCellConflicts` (`relationship`) and of
`findEliminatedCandidates` (`reason`). -/
structure CellRelation where
  position : Nat × Nat
  value : Option Int
  relationship : String
deriving Repr, DecidableEq

/-- Hint object; the JS hints are heterogeneous literals, modelled as one
structure whose unused fields keep their defaults. -/
structure Hint where
  type : String
  message : String
  level : Option Nat := none
  position : Option (Nat × Nat) := none
  targetCell : Option (Nat × Nat) := none
  value : Option Int := none
  technique : Option String := none
  techniques : List String := []
  explanation : Option String := none
  candidates : List Int := []
  highlightCells : List (Nat × Nat) := []
  confidence : Option ℚ := none
  conflicts : List CellRelation := []
  eliminatedCandidates : List CellRelation := []
deriving Repr, DecidableEq

/-- Move record built by `analyzePossibleMoves`. -/
structure Move where
  position : Nat × Nat
  value : Int
  candidates : Nat
  techniques : List String
deriving Repr, DecidableEq

/-- Scan points of `SudokuHints.isValidPlacement`, in source order (row loop
skipping the cell column, column loop skipping the cell row, box loop
skipping the cell). -/
def placementPoints (row col : Nat) (config : GridConfig) : List (Nat × Nat) :=
  ((List.range config.size).filterMap (fun c =>
      if c ≠ col then some (row, c) else none)) ++
  ((List.range config.size).filterMap (fun r =>
      if r ≠ row then some (r, col) else none)) ++
  ((boxCells row col config).filterMap (fun p =>
      if p ≠ (row, col) then some p else none))

/-- Early-exit scan underlying `SudokuHints.isValidPlacement`: `false` at the
first listed cell holding `value`; a missing row makes the access throw. -/
def placementScanE (g : Grid) (value : Int) :
    List (Nat × Nat) → Except String Bool
  | [] => .ok true
  | p :: rest => do
    let cv ← readCell g p.1 p.2
    if cv = some value then .ok false else placementScanE g value rest

/-- `SudokuHints.isValidPlacement(grid, row, col, value, config)`. -/
def hintsValidPlacementE (g : Grid) (row col : Nat) (value : Int)
    (config : GridConfig) : Except String Bool :=
  placementScanE g value (placementPoints row col config)

/-- `SudokuHints.getPossibleValues(grid, row, col, config)`: empty list for
a filled cell, else the values `1..maxValue` that place validly. -/
def getPossibleValuesE (g : Grid) (row col : Nat) (config : GridConfig) :
    Except String (List Int) := do
  let cv ← readCell g row col
  if cv ≠ some 0 then .ok []
  else
    (candidateValues config).foldlM (fun acc v => do
      let ok ← hintsValidPlacementE g row col v config
      pure (if ok then acc ++ [v] else acc)) []

/-- `SudokuHints.getRelatedCells(row, col, config)`: textually the same
construction as the validator `getAffectedCells`. -/
def getRelatedCells (row col : Nat) (config : GridConfig) : List (Nat × Nat) :=
  getAffectedCells row col config

/-- Count of `grid[p] === 0 && isValidPlacement(grid, p, value, config)` over
the listed cells (the three counting loops of `SudokuHints.isHiddenSingle`). -/
def countCanPlaceE (g : Grid) (value : Int) (config : GridConfig)
    (cells : List (Nat × Nat)) : Except String Nat :=
  cells.foldlM (fun n p => do
    let cv ← readCell g p.1 p.2
    if cv = some 0 then
      let ok ← hintsValidPlacementE g p.1 p.2 value config
      pure (if ok then n + 1 else n)
    else pure n) 0

/-- `SudokuHints.isHiddenSingle(grid, row, col, value, config)`: the value
fits in exactly one cell of the row, or of the column, or of the box. -/
def isHiddenSingleE (g : Grid) (row col : Nat) (value : Int)
    (config : GridConfig) : Except String Bool := do
  let inRow ← countCanPlaceE g value config
    ((List.range config.size).map (fun c => (row, c)))
  if inRow = 1 then .ok true
  else
    let inCol ← countCanPlaceE g value config
      ((List.range config.size).map (fun r => (r, col)))
    if inCol = 1 then .ok true
    else
      let inBox ← countCanPlaceE g value config (boxCells row col config)
      .ok (inBox = 1)

/-- `SudokuHints.identifyTechniques(grid, row, col, value, config)`:
`nakedSingle` when the cell has exactly one candidate, plus `hiddenSingle`
when `isHiddenSingle` holds. -/
def identifyTechniquesE (g : Grid) (row col : Nat) (value : Int)
    (config : GridConfig) : Except String (List String) := do
  let candidates ← getPossibleValuesE g row col config
  let t1 : List String := if candidates.length = 1 then ["nakedSingle"] else []
  let hidden ← isHiddenSingleE g row col value config
  .ok (t1 ++ if hidden then ["hiddenSingle"] else [])

/-- Per-cell move construction of `analyzePossibleMoves`, walking the cells
in row-major order and collecting one move per candidate value. -/
def analyzeCellsE (g : Grid) (config : GridConfig) :
    List (Nat × Nat) → Except String (List Move)
  | [] => .ok []
  | p :: rest => do
    let cv ← readCell g p.1 p.2
    if cv = some 0 then do
      let possibleValues ← getPossibleValuesE g p.1 p.2 config
      let cellMoves ← possibleValues.foldlM (fun acc v => do
        let techs ← identifyTechniquesE g p.1 p.2 v config
        pure (acc ++ [⟨p, v, possibleValues.length, techs⟩])) ([] : List Move)
      let restMoves ← analyzeCellsE g config rest
      .ok (cellMoves ++ restMoves)
    else analyzeCellsE g config rest

/-- Comparator of the final `moves.sort`: fewer candidates first, ties by
technique count (a stable sort, as JS `Array.prototype.sort`). -/
def moveLE (a b : Move) : Bool :=
  a.candidates < b.candidates ||
    (a.candidates == b.candidates && a.techniques.length ≤ b.techniques.length)

/-- `SudokuHints.analyzePossibleMoves(grid, config)`. -/
def analyzePossibleMovesE (g : Grid) (config : GridConfig) :
    Except String (List Move) := do
  let moves ← analyzeCellsE g config (allCells config.size)
  .ok (moves.mergeSort moveLE)

/-- `SudokuHints.getCellRelationship(row1, col1, row2, col2, config)`. -/
def getCellRelationship (row1 col1 row2 col2 : Nat) (config : GridConfig) : String :=
  if row1 = row2 then "same_row"
  else if col1 = col2 then "same_column"
  else if row1 / config.boxHeight = row2 / config.boxHeight ∧
      col1 / config.boxWidth = col2 / config.boxWidth then "same_box"
  else "unrelated"

/-- `SudokuHints.findEliminatedCandidates(grid, row, col, value, config)`:
related empty cells whose candidate list contains `value`. -/
def findEliminatedCandidatesE (g : Grid) (row col : Nat) (value : Int)
    (config : GridConfig) : Except String (List CellRelation) :=
  (getRelatedCells row col config).foldlM (fun acc p => do
    let cv ← readCell g p.1 p.2
    if cv = some 0 then
      let candidates ← getPossibleValuesE g p.1 p.2 config
      if value ∈ candidates then
        pure (acc ++ [⟨p, some value, getCellRelationship row col p.1 p.2 config⟩])
      else pure acc
    else pure acc) []

/-- `SudokuHints.calculateConfidence(grid, row, col, value, config)`: `1.0`
for a single candidate, `0.95` for a hidden single, `0.8` for any detected
technique, `0.5` otherwise. -/
def calculateConfidenceE (g : Grid) (row col : Nat) (value : Int)
    (config : GridConfig) : Except String ℚ := do
  let techniques ← identifyTechniquesE g row col value config
  let candidates ← getPossibleValuesE g row col config
  if candidates.length = 1 then .ok 1
  else if "hiddenSingle" ∈ techniques then .ok (19/20)
  else if techniques ≠ [] then .ok (4/5)
  else .ok (1/2)

/-- Canned explanation table of `createTechniqueHint`; `none` is the JS
`undefined` for a technique without an entry. -/
def techniqueExplanation (technique : String) (row col : Nat) (value : Int) :
    Option String :=
  if technique = "nakedSingle" then
    some s!"Cell ({row + 1}, {col + 1}) can only be {value} because all other values are eliminated by row, column, or box constraints."
  else if technique = "hiddenSingle" then
    some s!"Cell ({row + 1}, {col + 1}) must be {value} because it is the only cell in its row/column/box that can contain this value."
  else if technique = "nakedPair" then
    some "Cells form a naked pair, eliminating candidates from other cells."
  else if technique = "hiddenPair" then
    some "A hidden pair exists, allowing elimination of other candidates."
  else if technique = "pointingPair" then
    some "Values point in one direction, eliminating candidates from related cells."
  else none

/-- `SudokuHints.createHighlightHint(grid, move, config)` (level 1). -/
def createHighlightHint (move : Move) (config : GridConfig) : Hint :=
  { type := "highlight",
    message := "Pay attention to the highlighted cells and their relationships.",
    level := some 1, targetCell := some move.position,
    highlightCells := getRelatedCells move.position.1 move.position.2 config,
    techniques := ["observation"] }

/-- `SudokuHints.createSuggestionHint(grid, move, config)` (level 2). -/
def createSuggestionHintE (g : Grid) (move : Move) (config : GridConfig) :
    Except String Hint := do
  let possibleValues ← getPossibleValuesE g move.position.1 move.position.2 config
  .ok
    { type := "suggestion",
      message := s!"Cell ({move.position.1 + 1}, {move.position.2 + 1}) has {possibleValues.length} possible values: {possibleValues}",
      level := some 2, targetCell := some move.position,
      candidates := possibleValues,
      highlightCells := getRelatedCells move.position.1 move.position.2 config,
      techniques := move.techniques }

/-- `SudokuHints.createTechniqueHint(grid, move, config)` (level 3). -/
def createTechniqueHintE (g : Grid) (move : Move) (config : GridConfig) :
    Except String Hint := do
  let technique := move.techniques.headD "nakedSingle"
  let explanation := techniqueExplanation technique move.position.1 move.position.2 move.value
  let eliminated ← findEliminatedCandidatesE g move.position.1 move.position.2 move.value config
  .ok
    { type := "technique",
      message := explanation.getD "Apply the identified solving technique.",
      level := some 3, targetCell := some move.position,
      technique := some technique, explanation := explanation,
      value := some move.value,
      highlightCells := getRelatedCells move.position.1 move.position.2 config,
      eliminatedCandidates := eliminated }

/-- `SudokuHints.createSolutionHint(grid, move, config)` (level 4). -/
def createSolutionHintE (g : Grid) (move : Move) (config : GridConfig) :
    Except String Hint := do
  let confidence ← calculateConfidenceE g move.position.1 move.position.2 move.value config
  .ok
    { type := "solution",
      message := s!"Place {move.value} in cell ({move.position.1 + 1}, {move.position.2 + 1})",
      level := some 4, targetCell := some move.position,
      value := some move.value,
      technique := some (move.techniques.headD "nakedSingle"),
      confidence := some confidence }

/-- `SudokuHints.findBestHint(grid, config, moves, level)`: dispatch on the
level over the top-ranked move (the default branch highlights). -/
def findBestHintE (g : Grid) (config : GridConfig) (moves : List Move)
    (level : Nat) : Except String Hint :=
  let easiestMove := moves.headD ⟨(0, 0), 0, 0, []⟩
  if level = 1 then .ok (createHighlightHint easiestMove config)
  else if level = 2 then createSuggestionHintE g easiestMove config
  else if level = 3 then createTechniqueHintE g easiestMove config
  else if level = 4 then createSolutionHintE g easiestMove config
  else .ok (createHighlightHint easiestMove config)

/-- Hint history entry (`Date.now()` is not modelled). -/
structure HistoryEntry where
  hint : Hint
  level : Nat
  gridState : String
deriving Repr, DecidableEq

/-- Mutable per-instance state of `SudokuHints`. -/
structure HintState where
  hintHistory : List HistoryEntry
  currentHintLevel : Nat
deriving Repr, DecidableEq

/-- Constructor state of `SudokuHints`:
`this.currentHintLevel = this.hintLevels.highlight`. -/
def initialHintState : HintState := ⟨[], 1⟩

/-- `SudokuHints.hashGrid(grid)`. -/
def hashGrid (g : Grid) : String :=
  String.intercalate "|" (g.map (fun row => String.intercalate "," (row.map toString)))

/-- Body of `SudokuHints.getHint(grid, size, level)` inside its `try`:
unsupported size throws, an effective level is chosen (`level ||
this.currentHintLevel`, so `0` and `null` fall back to the stored level),
the moves are analyzed, and a successful hint is appended to the history. -/
def getHintE (st : HintState) (g : Grid) (size : Nat) (level : Option Nat) :
    Except String (Hint × HintState) :=
  match gridConfigs size with
  | none => .error s!"Unsupported grid size: {size}"
  | some config => do
    let hintLevel := match level with
      | some l => if l = 0 then st.currentHintLevel else l
      | none => st.currentHintLevel
    let possibleMoves ← analyzePossibleMovesE g config
    if possibleMoves = [] then
      .ok
        ({ type := "no_moves",
           message := "No obvious moves available. The puzzle may require advanced techniques.",
           level := some hintLevel, techniques := [] }, st)
    else do
      let hint ← findBestHintE g config possibleMoves hintLevel
      .ok (hint, ⟨st.hintHistory ++ [⟨hint, hintLevel, hashGrid g⟩], st.currentHintLevel⟩)

/-- `SudokuHints.getHint`: the `try` body with its `catch`, which returns a
generic error hint and leaves the instance state unchanged. -/
def getHint (st : HintState) (g : Grid) (size : Nat) (level : Option Nat) :
    Hint × HintState :=
  match getHintE st g size level with
  | .ok r => r
  | .error m =>
    ({ type := "error", message := s!"Hint generation failed: {m}",
       level := some 1, techniques := [] }, st)

/-- `SudokuHints.findCellConflicts(grid, row, col, config)`: the filled (or
`undefined`) related cells with their relationship to the target. -/
def findCellConflictsE (g : Grid) (row col : Nat) (config : GridConfig) :
    Except String (List CellRelation) :=
  (getRelatedCells row col config).foldlM (fun acc p => do
    let cv ← readCell g p.1 p.2
    if cv ≠ some 0 then
      pure (acc ++ [⟨p, cv, getCellRelationship row col p.1 p.2 config⟩])
    else pure acc) []

/-- `SudokuHints.suggestTechniques(grid, row, col, config)`. -/
def suggestTechniquesE (g : Grid) (row col : Nat) (config : GridConfig) :
    Except String (List String) := do
  let candidates ← getPossibleValuesE g row col config
  if candidates.length = 1 then .ok ["Look for naked singles"]
  else if candidates.length = 2 then .ok ["Consider naked pairs or hidden pairs"]
  else .ok ["Look for elimination techniques", "Consider advanced solving methods"]

/-- First candidate that is a hidden single, as scanned by
`SudokuHints.checkHiddenSingle`. -/
def firstHiddenSingleE (g : Grid) (row col : Nat) (config : GridConfig) :
    List Int → Except String (Option Int)
  | [] => .ok none
  | v :: vs => do
    if ← isHiddenSingleE g row col v config then .ok (some v)
    else firstHiddenSingleE g row col config vs

/-- Body of `SudokuHints.getCellHint(grid, row, col, size)` inside its `try`:
a filled cell reports `cell_filled` before the (possibly `undefined`) config
is touched; no candidate reports conflicts; one candidate is a naked single;
then a hidden single is searched; otherwise the candidate list is returned
with coarse technique suggestions. -/
def getCellHintE (g : Grid) (row col : Nat) (size : Nat) : Except String Hint := do
  let cv ← readCell g row col
  if cv ≠ some 0 then
    .ok
      { type := "cell_filled", message := "This cell is already filled",
        position := some (row, col), value := cv }
  else
    match gridConfigs size with
    | none => .error "TypeError: cannot read maxValue of undefined"
    | some config => do
      let possibleValues ← getPossibleValuesE g row col config
      if possibleValues = [] then do
        let conflicts ← findCellConflictsE g row col config
        .ok
          { type := "no_valid_values",
            message := "No valid values for this cell. Check for conflicts.",
            position := some (row, col), conflicts := conflicts }
      else if possibleValues.length = 1 then
        .ok
          { type := "naked_single",
            message := s!"This cell can only be {possibleValues.headD 0} (Naked Single)",
            position := some (row, col), value := some (possibleValues.headD 0),
            technique := some "nakedSingle",
            explanation := some "Only one value is possible for this cell based on row, column, and box constraints." }
      else do
        match ← firstHiddenSingleE g row col config possibleValues with
        | some v =>
          .ok
            { type := "hidden_single",
              message := s!"Cell ({row + 1}, {col + 1}) must be {v} (Hidden Single)",
              position := some (row, col), value := some v,
              technique := some "hiddenSingle",
              explanation := some "This is the only cell in its row, column, or box that can contain this value." }
        | none => do
          let techniques ← suggestTechniquesE g row col config
          .ok
            { type := "multiple_candidates",
              message := s!"This cell has {possibleValues.length} possible values: {possibleValues}",
              position := some (row, col), candidates := possibleValues,
              techniques := techniques }

/-- `SudokuHints.getCellHint`: the `try` body with its `catch`, which
returns an error hint carrying the cell position. -/
def getCellHint (g : Grid) (row col : Nat) (size : Nat) : Hint :=
  match getCellHintE g row col size with
  | .ok h => h
  | .error m => { type := "error", message := m, position := some (row, col) }

/-- `SudokuHints.increaseHintLevel()`: bump the stored level below the
`solution` level (4), returning the new level. -/
def increaseHintLevel (st : HintState) : Nat × HintState :=
  if st.currentHintLevel < 4 then
    (st.currentHintLevel + 1, ⟨st.hintHistory, st.currentHintLevel + 1⟩)
  else (st.currentHintLevel, st)

/-- `SudokuHints.decreaseHintLevel()`: lower the stored level above the
`highlight` level (1), returning the new level. -/
def decreaseHintLevel (st : HintState) : Nat × HintState :=
  if 1 < st.currentHintLevel then
    (st.currentHintLevel - 1, ⟨st.hintHistory, st.currentHintLevel - 1⟩)
  else (st.currentHintLevel, st)

/-- `SudokuHints.resetHintLevel()`. -/
def resetHintLevel (st : HintState) : Nat × HintState :=
  (1, ⟨st.hintHistory, 1⟩)

end Sudoku

namespace Sudoku

/-! ### SudokuEngine: CSP generation (constraint propagation + backtracking) -/

/-- Domain map of the generator: the JS object keyed by cell coordinate
holding the set of still-possible values, in insertion order. -/
abbrev Domains := Nat → Nat → List Int

/-- `SudokuEngine.initializeDomains(config)`: every cell starts with
`1..maxValue`. -/
def initializeDomains (config : GridConfig) : Domains :=
  fun _ _ => candidateValues config

/-- `SudokuEngine.updateDomainConstraints(row, col, grid, domains, config)`:
delete from the domain of `(row, col)` every value fixed elsewhere in its
row, column or box. -/
def updateDomainConstraints (row col : Nat) (g : Grid) (d : Domains)
    (config : GridConfig) : Domains :=
  fun r c =>
    if r = row ∧ c = col then
      (d row col).filter (fun v =>
        !((List.range config.size).any (fun c2 =>
            c2 ≠ col && !(cellD g row c2 == 0) && cellD g row c2 == v) ||
          (List.range config.size).any (fun r2 =>
            r2 ≠ row && !(cellD g r2 col == 0) && cellD g r2 col == v) ||
          (boxCells row col config).any (fun p =>
            p ≠ (row, col) && !(cellD g p.1 p.2 == 0) && cellD g p.1 p.2 == v)))
    else d r c

/-- Clear the domain of a cell (`domains[cellKey].clear()`). -/
def clearDomain (d : Domains) (p : Nat × Nat) : Domains :=
  fun r c => if r = p.1 ∧ c = p.2 then [] else d r c

/-- Body of the cell visit inside `applyConstraintPropagation`: update the
domain, record whether it changed, abort (`false` component) when it became
empty, and assign the single remaining value when it collapsed to one. -/
def propagationStep (config : GridConfig) (p : Nat × Nat)
    (st : Grid × Domains × Bool) : (Grid × Domains × Bool) × Bool :=
  let g := st.1
  let d := st.2.1
  let changed := st.2.2
  if cellD g p.1 p.2 = 0 then
    let originalSize := (d p.1 p.2).length
    let d1 := updateDomainConstraints p.1 p.2 g d config
    let changed1 := changed || !((d1 p.1 p.2).length == originalSize)
    if (d1 p.1 p.2).length = 0 then ((g, d1, changed1), false)
    else if (d1 p.1 p.2).length = 1 then
      ((setCell g p.1 p.2 ((d1 p.1 p.2).headD 0), clearDomain d1 p, true), true)
    else ((g, d1, changed1), true)
  else ((g, d, changed), true)

/-- One sweep over all cells inside the `while (changed)` loop of
`applyConstraintPropagation`; the second component is `false` when the
sweep aborted on an emptied domain. -/
def propagationPass (config : GridConfig) :
    List (Nat × Nat) → Grid × Domains × Bool → (Grid × Domains × Bool) × Bool
  | [], st => (st, true)
  | p :: rest, st =>
    let r := propagationStep config p st
    if r.2 then propagationPass config rest r.1 else r

/-- `SudokuEngine.applyConstraintPropagation(grid, domains, config)`: sweep
until a fixed point (no `changed` flag), or until a domain empties
(returning `false` with the state mutated so far), with explicit fuel for
the unbounded `while`. -/
def applyConstraintPropagation (fuel : Nat) (g : Grid) (d : Domains)
    (config : GridConfig) : Bool × Grid × Domains :=
  match fuel with
  | 0 => (true, g, d)
  | fuel + 1 =>
    let r := propagationPass config (allCells config.size) (g, d, false)
    let g1 := r.1.1
    let d1 := r.1.2.1
    let changed := r.1.2.2
    if !r.2 then (false, g1, d1)
    else if changed then applyConstraintPropagation fuel g1 d1 config
    else (true, g1, d1)

/-- `SudokuEngine.selectUnassignedVariable(grid, domains, config)`: the MRV
cell, scanning row-major and keeping the first strict minimum. -/
def selectUnassignedVariable (g : Grid) (d : Domains) (config : GridConfig) :
    Option (Nat × Nat) :=
  ((allCells config.size).foldl (fun best p =>
    if cellD g p.1 p.2 = 0 then
      match best with
      | none => some (p, (d p.1 p.2).length)
      | some q => if (d p.1 p.2).length < q.2 then some (p, (d p.1 p.2).length) else best
    else best) none).map (fun q => q.1)

/-- `SudokuEngine.propagateAssignment(row, col, value, domains, config)`:
delete the assigned value from the domains of the row, column and box
neighbours. -/
def propagateAssignment (row col : Nat) (value : Int) (d : Domains)
    (config : GridConfig) : Domains :=
  fun r c =>
    if (r = row ∧ c ≠ col) ∨ (c = col ∧ r ≠ row) ∨
        ((r, c) ∈ boxCells row col config ∧ ¬(r = row ∧ c = col)) then
      (d r c).filter (fun v => v ≠ value)
    else d r c

/-- Value loop of `SudokuEngine.backtrackFill`: try the ordered candidate
values; a failed branch restores the grid and the saved domain snapshot
(value semantics make `saveDomains` / `restoreDomains` the identity). -/
def backtrackValsWith (recur : Grid → Domains → Option Grid) (g : Grid)
    (d : Domains) (config : GridConfig) (row col : Nat) : List Int → Option Grid
  | [] => none
  | v :: vs =>
    if isValidPlacement g row col v config then
      match recur (setCell g row col v) (propagateAssignment row col v d config) with
      | some g2 => some g2
      | none => backtrackValsWith recur g d config row col vs
    else backtrackValsWith recur g d config row col vs

/-- `SudokuEngine.backtrackFill(grid, domains, config, depth)` with explicit
fuel and the `orderDomainValues` shuffle passed as a function (the source
shuffles rather than applying a true least-constraining-value order); the
cooperative `await` yield does not affect the value semantics.  Returns the
filled grid on success. -/
def backtrackFill (fuel : Nat) (g : Grid) (d : Domains) (config : GridConfig)
    (shuffle : List Int → List Int) : Option Grid :=
  match fuel with
  | 0 => none
  | fuel + 1 =>
    match selectUnassignedVariable g d config with
    | none => some g
    | some (row, col) =>
      backtrackValsWith (fun g1 d1 => backtrackFill fuel g1 d1 config shuffle)
        g d config row col (shuffle (d row col))

/-- `SudokuEngine.createEmptyGrid(size)`. -/
def createEmptyGrid (size : Nat) : Grid :=
  List.replicate size (List.replicate size 0)

/-- `SudokuEngine.generateCompleteSolution(config)`: propagate constraints
on the empty grid (the return value of the propagation is ignored by the
source), then backtrack; `none` models the thrown
`Failed to generate complete solution`. -/
def generateCompleteSolution (pfuel bfuel : Nat) (config : GridConfig)
    (shuffle : List Int → List Int) : Option Grid :=
  let g := createEmptyGrid config.size
  let d := initializeDomains config
  let r := applyConstraintPropagation pfuel g d config
  backtrackFill bfuel r.2.1 r.2.2 config shuffle

end Sudoku

namespace Sudoku

/-! ### Specification-side notions

The following definitions follow the wording of the specification (a
completion of a puzzle, constraint-satisfying grid, one occurrence of each
value per group); they are the comparison points for the refinement
claims, not translations of source functions. -/

/-- Cells lie in the same box (spec wording: share a box). -/
def sameBox (p q : Nat × Nat) (config : GridConfig) : Prop :=
  p.1 / config.boxHeight = q.1 / config.boxHeight ∧
    p.2 / config.boxWidth = q.2 / config.boxWidth

instance (p q : Nat × Nat) (config : GridConfig) : Decidable (sameBox p q config) := by
  unfold sameBox; infer_instance

/-- Cells share a row, a column or a box (spec wording for related cells). -/
def sharesGroup (p q : Nat × Nat) (config : GridConfig) : Prop :=
  p.1 = q.1 ∨ p.2 = q.2 ∨ sameBox p q config

instance (p q : Nat × Nat) (config : GridConfig) : Decidable (sharesGroup p q config) := by
  unfold sharesGroup; infer_instance

/-- Spec-side constraint-satisfying total grid: correct dimensions, every
cell holding a value in `1..maxValue`, and no two distinct cells of a
common row, column or box holding the same value. -/
def validTotalGrid (g : Grid) (config : GridConfig) : Prop :=
  gridDims g config.size ∧
    (∀ p ∈ allCells config.size,
      1 ≤ cellD g p.1 p.2 ∧ cellD g p.1 p.2 ≤ (config.maxValue : Int)) ∧
    ∀ p ∈ allCells config.size, ∀ q ∈ allCells config.size,
      p ≠ q → sharesGroup p q config → cellD g p.1 p.2 ≠ cellD g q.1 q.2

instance (g : Grid) (config : GridConfig) : Decidable (validTotalGrid g config) := by
  unfold validTotalGrid; infer_instance

/-- All fillings of one row: each `0` entry is replaced by every value
`1..maxValue`, nonzero entries are kept. -/
def fillRow (maxValue : Nat) : List Int → List (List Int)
  | [] => [[]]
  | v :: vs =>
    if v = 0 then
      ((List.range maxValue).map (fun i => (i + 1 : Int))).flatMap
        (fun w => (fillRow maxValue vs).map (fun r => w :: r))
    else (fillRow maxValue vs).map (fun r => v :: r)

/-- All fillings of a grid, row by row. -/
def fillGrid (maxValue : Nat) : Grid → List Grid
  | [] => [[]]
  | row :: rest =>
    (fillRow maxValue row).flatMap (fun row2 => (fillGrid maxValue rest).map (fun t => row2 :: t))

/-- Spec-side list of completions of a puzzle grid: the fillings of its
empty cells that satisfy all constraints. -/
def completionsList (g : Grid) (config : GridConfig) : List Grid :=
  (fillGrid config.maxValue g).filter (fun g2 => decide (validTotalGrid g2 config))

/-- Spec-side number of completions of a puzzle grid. -/
def numCompletions (g : Grid) (config : GridConfig) : Nat :=
  (completionsList g config).length

/-- The row groups, column groups and box groups of a config. -/
def allGroups (config : GridConfig) : List (List (Nat × Nat)) :=
  ((List.range config.size).map (fun r =>
    (List.range config.size).map (fun c => (r, c)))) ++
  ((List.range config.size).map (fun c =>
    (List.range config.size).map (fun r => (r, c)))) ++
  ((boxStarts config).map (fun s =>
    (List.range config.boxHeight).flatMap (fun i =>
      (List.range config.boxWidth).map (fun j => (s.1 + i, s.2 + j)))))

/-- Spec wording of the generator postcondition: every row, column and box
contains each value in `1..maxValue` exactly once. -/
def eachValueOncePerGroup (g : Grid) (config : GridConfig) : Prop :=
  ∀ grp ∈ allGroups config, ∀ v ∈ candidateValues config,
    (grp.map (fun p => cellD g p.1 p.2)).count v = 1

instance (g : Grid) (config : GridConfig) : Decidable (eachValueOncePerGroup g config) := by
  unfold eachValueOncePerGroup; infer_instance

end Sudoku

namespace Sudoku

/-! ### Basic grid lemmas -/

theorem length_setCell (g : Grid) (r c : Nat) (v : Int) :
    (setCell g r c v).length = g.length := by
  unfold setCell
  cases h : g[r]? with
  | none => rfl
  | some row => simp

theorem getD_eq_of_getElem? {g : Grid} {r : Nat} {row : List Int}
    (h : g[r]? = some row) : g.getD r [] = row := by
  simp [List.getD_eq_getElem?_getD, h]

theorem cellD_eq_of_getElem? {g : Grid} {r c : Nat} {row : List Int}
    (h : g[r]? = some row) : cellD g r c = row.getD c 0 := by
  unfold cellD
  rw [getD_eq_of_getElem? h]

theorem cellD_of_row_none {g : Grid} {r : Nat} (c : Nat)
    (h : g[r]? = none) : cellD g r c = 0 := by
  unfold cellD
  simp [List.getD_eq_getElem?_getD, h]

theorem cellD_setCell_ne (g : Grid) (r c : Nat) (v : Int) {r' c' : Nat}
    (h : (r', c') ≠ (r, c)) : cellD (setCell g r c v) r' c' = cellD g r' c' := by
  unfold setCell
  cases hg : g[r]? with
  | none => rfl
  | some row =>
    have hr : r < g.length := by
      by_contra hge
      rw [List.getElem?_eq_none (Nat.le_of_not_lt hge)] at hg
      exact Option.noConfusion hg
    rcases eq_or_ne r' r with rfl | hrne
    · have hc : c' ≠ c := fun hcc => h (by simp [hcc])
      have h1 : (g.set r' (row.set c v))[r']? = some (row.set c v) := by
        simp [List.getElem?_set, hr]
      rw [cellD_eq_of_getElem? h1, cellD_eq_of_getElem? hg]
      simp [List.getD_eq_getElem?_getD, List.getElem?_set, Ne.symm hc]
    · have h1 : (g.set r (row.set c v))[r']? = g[r']? := by
        simp [List.getElem?_set, Ne.symm hrne]
      unfold cellD
      simp [List.getD_eq_getElem?_getD, h1]

theorem cellD_setCell_self {g : Grid} {r c : Nat} (v : Int)
    (hr : r < g.length) (hc : c < (g.getD r []).length) :
    cellD (setCell g r c v) r c = v := by
  unfold setCell
  cases hg : g[r]? with
  | none =>
    rw [List.getElem?_eq_none_iff] at hg
    omega
  | some row =>
    have hrow : g.getD r [] = row := getD_eq_of_getElem? hg
    rw [hrow] at hc
    have h1 : (g.set r (row.set c v))[r]? = some (row.set c v) := by
      simp [List.getElem?_set, hr]
    rw [cellD_eq_of_getElem? h1]
    simp [List.getD_eq_getElem?_getD, List.getElem?_set, hc]

theorem setCell_setCell (g : Grid) (r c : Nat) (v w : Int) :
    setCell (setCell g r c v) r c w = setCell g r c w := by
  unfold setCell
  cases hg : g[r]? with
  | none => rw [hg]
  | some row =>
    have hr : r < g.length := by
      by_contra hge
      rw [List.getElem?_eq_none (Nat.le_of_not_lt hge)] at hg
      exact Option.noConfusion hg
    have h1 : (g.set r (row.set c v))[r]? = some (row.set c v) := by
      simp [List.getElem?_set, hr]
    simp only [h1, List.set_set]

theorem setCell_cellD (g : Grid) (r c : Nat) : setCell g r c (cellD g r c) = g := by
  unfold setCell
  cases hg : g[r]? with
  | none => rfl
  | some row =>
    have hr : r < g.length := by
      by_contra hge
      rw [List.getElem?_eq_none (Nat.le_of_not_lt hge)] at hg
      exact Option.noConfusion hg
    rw [cellD_eq_of_getElem? hg]
    show List.set g r (row.set c (row.getD c 0)) = g
    have hrow : row.set c (row.getD c 0) = row := by
      rcases Nat.lt_or_ge c row.length with hc | hc
      · apply List.ext_getElem?
        intro j
        rw [List.getElem?_set]
        rcases eq_or_ne c j with rfl | hj
        · simp [hc, List.getD_eq_getElem?_getD, List.getElem?_eq_getElem hc]
        · simp [hj]
      · rw [List.set_eq_of_length_le hc]
    rw [hrow]
    apply List.ext_getElem?
    intro j
    rw [List.getElem?_set]
    rcases eq_or_ne r j with rfl | hj
    · simp [hr, hg]
    · simp [hj]

theorem setCell_zero_of_empty {g : Grid} {r c : Nat} (h : cellD g r c = 0) :
    setCell g r c 0 = g := by
  have h2 := setCell_cellD g r c
  rwa [h] at h2

theorem mem_of_mem_set {l : List (List Int)} {x row : List Int} {i : Nat}
    (h : row ∈ l.set i x) : row ∈ l ∨ row = x := by
  rw [List.mem_iff_getElem?] at h
  obtain ⟨j, hj⟩ := h
  rw [List.getElem?_set] at hj
  by_cases hij : i = j
  · rw [if_pos hij] at hj
    by_cases hlen : i < l.length
    · rw [if_pos hlen] at hj
      exact Or.inr (Option.some.inj hj).symm
    · rw [if_neg hlen] at hj
      exact Option.noConfusion hj
  · rw [if_neg hij] at hj
    exact Or.inl (List.mem_iff_getElem?.2 ⟨j, hj⟩)

theorem gridDims_setCell {g : Grid} {n : Nat} (r c : Nat) (v : Int)
    (h : gridDims g n) : gridDims (setCell g r c v) n := by
  obtain ⟨hlen, hrows⟩ := h
  constructor
  · rw [length_setCell]; exact hlen
  · intro row hrow
    unfold setCell at hrow
    cases hg : g[r]? with
    | none => rw [hg] at hrow; exact hrows row hrow
    | some row0 =>
      rw [hg] at hrow
      rcases mem_of_mem_set hrow with h1 | h1
      · exact hrows row h1
      · subst h1
        rw [List.length_set]
        exact hrows row0 (List.getElem?_mem hg)

theorem mem_allCells {size : Nat} {p : Nat × Nat} :
    p ∈ allCells size ↔ p.1 < size ∧ p.2 < size := by
  obtain ⟨r, c⟩ := p
  simp [allCells, List.mem_flatMap]

theorem nodup_allCells (size : Nat) : (allCells size).Nodup := by
  unfold allCells
  apply List.nodup_flatMap.2
  constructor
  · intro r _
    exact (List.nodup_range size).map (fun a b h => by simpa using h)
  · apply List.Pairwise.imp _ (List.nodup_range size)
    intro a b hab
    simp only [List.Disjoint]
    intro p hp hq
    simp only [List.mem_map, List.mem_range] at hp hq
    obtain ⟨c1, _, h1⟩ := hp
    obtain ⟨c2, _, h2⟩ := hq
    rw [← h1] at h2
    exact hab (by simpa using congrArg Prod.fst h2.symm)

theorem length_allCells (size : Nat) : (allCells size).length = size * size := by
  unfold allCells
  rw [List.length_flatMap]
  simp [Function.comp_def]

theorem readCell_of_dims {g : Grid} {n : Nat} (hd : gridDims g n)
    {r c : Nat} (hr : r < n) (hc : c < n) :
    readCell g r c = .ok (some (cellD g r c)) := by
  obtain ⟨hlen, hrows⟩ := hd
  have hrlen : r < g.length := by omega
  unfold readCell
  cases hg : g[r]? with
  | none =>
    rw [List.getElem?_eq_none_iff] at hg
    omega
  | some row =>
    have hmem : row ∈ g := List.getElem?_mem hg
    have hclen : c < row.length := by rw [hrows row hmem]; exact hc
    show Except.ok row[c]? = Except.ok (some (cellD g r c))
    rw [cellD_eq_of_getElem? hg, List.getElem?_eq_getElem hclen,
      List.getD_eq_getElem row 0 hclen]

theorem readCell_ok_of_lt {g : Grid} {r : Nat} (hr : r < g.length) (c : Nat) :
    ∃ o, readCell g r c = .ok o := by
  unfold readCell
  cases hg : g[r]? with
  | none =>
    rw [List.getElem?_eq_none_iff] at hg
    omega
  | some row => exact ⟨row[c]?, rfl⟩

end Sudoku

namespace Sudoku

/-! ### Counting empty cells -/

theorem countEmpty_setCell_parts {g : Grid} {n r c : Nat} (v : Int)
    (hd : gridDims g n) (hr : r < n) (hc : c < n) :
    countEmpty (setCell g r c v) n + (if cellD g r c = 0 then 1 else 0)
      = countEmpty g n + (if v = 0 then 1 else 0) := by
  have hmem0 : (r, c) ∈ allCells n := mem_allCells.2 ⟨hr, hc⟩
  obtain ⟨s, t, hst⟩ := List.append_of_mem hmem0
  have hnd := nodup_allCells n
  rw [hst] at hnd
  have hs : (r, c) ∉ s := by
    intro hmem
    have := List.disjoint_of_nodup_append hnd hmem
    simp at this
  have ht : (r, c) ∉ t := by
    have := (List.nodup_append.1 hnd).2.1
    exact (List.nodup_cons.1 this).1
  have hlen : g.length = n := hd.1
  have hrow : r < g.length := by omega
  have hcol : c < (g.getD r []).length := by
    cases hg : g[r]? with
    | none => rw [List.getElem?_eq_none_iff] at hg; omega
    | some row =>
      rw [getD_eq_of_getElem? hg, hd.2 row (List.getElem?_mem hg)]
      exact hc
  have hsame : ∀ l : List (Nat × Nat), (r, c) ∉ l →
      (l.filter (fun p => cellD (setCell g r c v) p.1 p.2 = 0)).length
        = (l.filter (fun p => cellD g p.1 p.2 = 0)).length := by
    intro l hl
    congr 1
    apply List.filter_congr
    intro p hp
    have : p ≠ (r, c) := fun hpe => hl (hpe ▸ hp)
    rw [cellD_setCell_ne g r c v (by exact this)]
  unfold countEmpty
  rw [hst]
  simp only [List.filter_append, List.length_append, List.filter_cons]
  rw [cellD_setCell_self v hrow hcol]
  rcases eq_or_ne v 0 with hv | hv
  · subst hv
    rw [hsame s hs, if_pos (by decide)]
    simp only [List.length_cons]
    rw [hsame t ht]
    by_cases h0 : cellD g r c = 0 <;> simp [h0] <;> omega
  · rw [hsame s hs, if_neg (by simp [hv])]
    rw [hsame t ht]
    by_cases h0 : cellD g r c = 0 <;> simp [h0, hv] <;> omega

theorem countEmpty_eq_zero_iff {g : Grid} {n : Nat} :
    countEmpty g n = 0 ↔ ∀ p ∈ allCells n, cellD g p.1 p.2 ≠ 0 := by
  unfold countEmpty
  rw [List.length_eq_zero, List.filter_eq_nil_iff]
  simp

theorem findEmptyCell_none_iff {g : Grid} {config : GridConfig} :
    findEmptyCell g config = none ↔
      ∀ p ∈ allCells config.size, cellD g p.1 p.2 ≠ 0 := by
  unfold findEmptyCell
  rw [List.find?_eq_none]
  simp

theorem findEmptyCell_some {g : Grid} {config : GridConfig} {p : Nat × Nat}
    (h : findEmptyCell g config = some p) :
    p ∈ allCells config.size ∧ cellD g p.1 p.2 = 0 := by
  refine ⟨List.mem_of_find?_eq_some h, ?_⟩
  have := List.find?_some h
  simpa using this

/-! ### The validator solution counter restores the caller grid (C10) -/

theorem countVals_snd {recur : Grid → Nat → Nat × Grid}
    (hrec : ∀ g1 a1, (recur g1 a1).2 = g1) (config : GridConfig)
    (maxSolutions row col : Nat) :
    ∀ vs (g : Grid) acc, cellD g row col = 0 →
      (countVals recur config maxSolutions row col vs g acc).2 = g := by
  intro vs
  induction vs with
  | nil => intro g acc _; rfl
  | cons v rest ih =>
    intro g acc h0
    unfold countVals
    by_cases hv : validateCellConstraints g row col v config = []
    · simp only [hv, if_pos rfl]
      have h1 : (recur (setCell g row col v) acc).2 = setCell g row col v := hrec _ _
      have h2 : setCell (recur (setCell g row col v) acc).2 row col 0 = g := by
        rw [h1, setCell_setCell, setCell_zero_of_empty h0]
      by_cases hb : maxSolutions ≤ (recur (setCell g row col v) acc).1
      · simp [hb, h2]
      · simp only [hb, if_neg, ite_false]
        rw [h2]
        exact ih g _ h0
    · simp only [hv, if_neg, ite_false]
      exact ih g acc h0

theorem countSolutions_snd :
    ∀ fuel (g : Grid) config acc maxSolutions,
      (countSolutions fuel g config acc maxSolutions).2 = g := by
  intro fuel
  induction fuel with
  | zero => intro g config acc maxS; rfl
  | succ n ih =>
    intro g config acc maxS
    unfold countSolutions
    by_cases hacc : maxS ≤ acc
    · simp [hacc]
    · simp only [hacc, ite_false, if_neg]
      cases hf : findEmptyCell g config with
      | none => rfl
      | some p =>
        obtain ⟨row, col⟩ := p
        exact countVals_snd (fun g1 a1 => ih g1 config a1 maxS) config maxS row col
          (candidateValues config) g acc (findEmptyCell_some hf).2

/-- C10: `checkUniqueness` leaves the caller grid unchanged — it runs the
search on a deep copy, and `countSolutions` resets every cell it assigns
back to `0` before returning, so the grid it threads through the recursion
comes back exactly as it was passed in, for every grid, fuel, accumulator
and cap. -/
theorem countSolutions_preserves_caller_grid :
    ∀ fuel (g : Grid) config acc maxSolutions,
      (countSolutions fuel g config acc maxSolutions).2 = g :=
  countSolutions_snd

/-- C9: the hint level state machine stays within `1..4`: the constructor
starts at the `highlight` level `1`, and each of `increaseHintLevel`,
`decreaseHintLevel` and `resetHintLevel` preserves the range. -/
theorem hintLevel_range_invariant :
    initialHintState.currentHintLevel = 1 ∧
    (∀ st : HintState,
      1 ≤ st.currentHintLevel → st.currentHintLevel ≤ 4 →
        (1 ≤ (increaseHintLevel st).2.currentHintLevel ∧
          (increaseHintLevel st).2.currentHintLevel ≤ 4) ∧
        (1 ≤ (decreaseHintLevel st).2.currentHintLevel ∧
          (decreaseHintLevel st).2.currentHintLevel ≤ 4) ∧
        (1 ≤ (resetHintLevel st).2.currentHintLevel ∧
          (resetHintLevel st).2.currentHintLevel ≤ 4)) := by
  refine ⟨rfl, fun st h1 h4 => ?_⟩
  unfold increaseHintLevel decreaseHintLevel resetHintLevel
  refine ⟨?_, ?_, by simp⟩
  · by_cases h : st.currentHintLevel < 4 <;> simp [h] <;> omega
  · by_cases h : 1 < st.currentHintLevel <;> simp [h] <;> omega

/-- Witness for C9 at the concrete state with level `2`. -/
theorem hintLevel_range_invariant_witness :
    1 ≤ (2 : Nat) ∧ (2 : Nat) ≤ 4 ∧
      ((1 ≤ (increaseHintLevel ⟨[], 2⟩).2.currentHintLevel ∧
          (increaseHintLevel ⟨[], 2⟩).2.currentHintLevel ≤ 4) ∧
        (1 ≤ (decreaseHintLevel ⟨[], 2⟩).2.currentHintLevel ∧
          (decreaseHintLevel ⟨[], 2⟩).2.currentHintLevel ≤ 4) ∧
        (1 ≤ (resetHintLevel ⟨[], 2⟩).2.currentHintLevel ∧
          (resetHintLevel ⟨[], 2⟩).2.currentHintLevel ≤ 4)) :=
  ⟨by decide, by decide,
    hintLevel_range_invariant.2 ⟨[], 2⟩ (by decide) (by decide)⟩

end Sudoku

namespace Sudoku

/-! ### Geometry of boxes and related cells -/

theorem gridConfigs_cases {size : Nat} {config : GridConfig}
    (h : gridConfigs size = some config) :
    (size = 4 ∧ config = config4) ∨ (size = 6 ∧ config = config6) ∨
      (size = 9 ∧ config = config9) ∨ (size = 16 ∧ config = config16) := by
  unfold gridConfigs at h
  split_ifs at h with h4 h6 h9 h16 <;>
    first
      | exact Or.inl ⟨h4, (Option.some.inj h).symm⟩
      | exact Or.inr (Or.inl ⟨h6, (Option.some.inj h).symm⟩)
      | exact Or.inr (Or.inr (Or.inl ⟨h9, (Option.some.inj h).symm⟩))
      | exact Or.inr (Or.inr (Or.inr ⟨h16, (Option.some.inj h).symm⟩))
      | exact Option.noConfusion h

theorem config_facts {size : Nat} {config : GridConfig}
    (h : gridConfigs size = some config) :
    0 < config.boxHeight ∧ 0 < config.boxWidth ∧
      config.boxWidth * config.boxHeight = config.size ∧ config.size = size ∧
      config.maxValue = config.size := by
  rcases gridConfigs_cases h with ⟨rfl, rfl⟩ | ⟨rfl, rfl⟩ | ⟨rfl, rfl⟩ | ⟨rfl, rfl⟩ <;>
    exact ⟨by decide, by decide, by decide, by decide, by decide⟩

theorem mem_boxCells {row col : Nat} {config : GridConfig} {q : Nat × Nat}
    (hbh : 0 < config.boxHeight) (hbw : 0 < config.boxWidth) :
    q ∈ boxCells row col config ↔ sameBox q (row, col) config := by
  unfold boxCells boxCorner sameBox
  simp only [List.mem_flatMap, List.mem_map, List.mem_range]
  constructor
  · rintro ⟨i, hi, j, hj, rfl⟩
    constructor
    · show (row / config.boxHeight * config.boxHeight + i) / config.boxHeight = row / config.boxHeight
      rw [Nat.mul_comm (row / config.boxHeight) config.boxHeight, Nat.mul_add_div hbh,
        Nat.div_eq_of_lt hi, Nat.add_zero]
    · show (col / config.boxWidth * config.boxWidth + j) / config.boxWidth = col / config.boxWidth
      rw [Nat.mul_comm (col / config.boxWidth) config.boxWidth, Nat.mul_add_div hbw,
        Nat.div_eq_of_lt hj, Nat.add_zero]
  · rintro ⟨h1, h2⟩
    refine ⟨q.1 % config.boxHeight, Nat.mod_lt _ hbh,
      ⟨q.2 % config.boxWidth, Nat.mod_lt _ hbw, ?_⟩⟩
    have e1 : row / config.boxHeight * config.boxHeight + q.1 % config.boxHeight = q.1 := by
      rw [← h1, Nat.mul_comm, Nat.div_add_mod]
    have e2 : col / config.boxWidth * config.boxWidth + q.2 % config.boxWidth = q.2 := by
      rw [← h2, Nat.mul_comm, Nat.div_add_mod]
    rw [e1, e2]

theorem sameBox_bounds {q : Nat × Nat} {row col : Nat} {config : GridConfig}
    (hbh : 0 < config.boxHeight) (hbw : 0 < config.boxWidth)
    (hsz : config.boxWidth * config.boxHeight = config.size)
    (hr : row < config.size) (hc : col < config.size)
    (h : sameBox q (row, col) config) : q.1 < config.size ∧ q.2 < config.size := by
  obtain ⟨h1, h2⟩ := h
  constructor
  · have hq : q.1 < config.boxHeight * (q.1 / config.boxHeight) + config.boxHeight := by
      conv_lhs => rw [← Nat.div_add_mod q.1 config.boxHeight]
      have := Nat.mod_lt q.1 hbh
      omega
    have hrow : row / config.boxHeight < config.boxWidth := by
      rw [Nat.div_lt_iff_lt_mul hbh]
      omega
    have : config.boxHeight * (q.1 / config.boxHeight) + config.boxHeight
        ≤ config.boxHeight * config.boxWidth := by
      rw [h1]
      calc config.boxHeight * (row / config.boxHeight) + config.boxHeight
          = config.boxHeight * (row / config.boxHeight + 1) := by ring
        _ ≤ config.boxHeight * config.boxWidth :=
            Nat.mul_le_mul_left _ (by omega)
    have hcomm : config.boxHeight * config.boxWidth = config.size := by
      rw [Nat.mul_comm]; exact hsz
    omega
  · have hq : q.2 < config.boxWidth * (q.2 / config.boxWidth) + config.boxWidth := by
      conv_lhs => rw [← Nat.div_add_mod q.2 config.boxWidth]
      have := Nat.mod_lt q.2 hbw
      omega
    have hcol : col / config.boxWidth < config.boxHeight := by
      rw [Nat.div_lt_iff_lt_mul hbw]
      rw [Nat.mul_comm] at hsz
      omega
    have : config.boxWidth * (q.2 / config.boxWidth) + config.boxWidth
        ≤ config.boxWidth * config.boxHeight := by
      rw [h2]
      calc config.boxWidth * (col / config.boxWidth) + config.boxWidth
          = config.boxWidth * (col / config.boxWidth + 1) := by ring
        _ ≤ config.boxWidth * config.boxHeight :=
            Nat.mul_le_mul_left _ (by omega)
    omega

theorem mem_insertUniq {l : List (Nat × Nat)} {p q : Nat × Nat} :
    p ∈ insertUniq l q ↔ p ∈ l ∨ p = q := by
  unfold insertUniq
  by_cases h : q ∈ l
  · simp only [h, if_pos]
    constructor
    · exact Or.inl
    · rintro (hp | rfl)
      · exact hp
      · exact h
  · simp [h]

theorem mem_foldl_insertUniq (l : List (Nat × Nat)) :
    ∀ acc (p : Nat × Nat), p ∈ l.foldl insertUniq acc ↔ p ∈ acc ∨ p ∈ l := by
  induction l with
  | nil => intro acc p; simp
  | cons q rest ih =>
    intro acc p
    rw [List.foldl_cons, ih (insertUniq acc q) p, mem_insertUniq]
    simp only [List.mem_cons]
    tauto

theorem mem_getAffectedCells {config : GridConfig}
    (hbh : 0 < config.boxHeight) (hbw : 0 < config.boxWidth)
    (hsz : config.boxWidth * config.boxHeight = config.size)
    {row col : Nat} (hr : row < config.size) (hc : col < config.size)
    (p : Nat × Nat) :
    p ∈ getAffectedCells row col config ↔
      p.1 < config.size ∧ p.2 < config.size ∧ p ≠ (row, col) ∧
        sharesGroup p (row, col) config := by
  unfold getAffectedCells
  rw [mem_foldl_insertUniq]
  simp only [List.mem_append, List.mem_filterMap, List.mem_range, List.not_mem_nil,
    false_or]
  constructor
  · rintro ((⟨c2, hc2, he⟩ | ⟨r2, hr2, he⟩) | ⟨q, hq, he⟩)
    · rcases Decidable.em (c2 ≠ col) with hne | hne
      · rw [if_pos hne] at he
        cases he
        refine ⟨hr, hc2, ?_, Or.inl rfl⟩
        intro hcontra
        exact hne (by simpa using congrArg Prod.snd hcontra)
      · rw [if_neg hne] at he
        exact Option.noConfusion he
    · rcases Decidable.em (r2 ≠ row) with hne | hne
      · rw [if_pos hne] at he
        cases he
        refine ⟨hr2, hc, ?_, Or.inr (Or.inl rfl)⟩
        intro hcontra
        exact hne (by simpa using congrArg Prod.fst hcontra)
      · rw [if_neg hne] at he
        exact Option.noConfusion he
    · rcases Decidable.em (q ≠ (row, col)) with hne | hne
      · rw [if_pos hne] at he
        cases he
        have hbox := (mem_boxCells hbh hbw).1 hq
        obtain ⟨h1, h2⟩ := sameBox_bounds hbh hbw hsz hr hc hbox
        exact ⟨h1, h2, hne, Or.inr (Or.inr hbox)⟩
      · rw [if_neg hne] at he
        exact Option.noConfusion he
  · rintro ⟨h1, h2, hne, hsh | hsh | hsh⟩
    · refine Or.inl (Or.inl ⟨p.2, h2, ?_⟩)
      have hpc : p.2 ≠ col := by
        intro hcontra
        exact hne (Prod.ext hsh hcontra)
      have hpe : (row, p.2) = p := Prod.ext (by simpa using hsh.symm) rfl
      rw [if_pos hpc, hpe]
    · refine Or.inl (Or.inr ⟨p.1, h1, ?_⟩)
      have hpr : p.1 ≠ row := by
        intro hcontra
        exact hne (Prod.ext hcontra hsh)
      have hpe : (p.1, col) = p := Prod.ext rfl (by simpa using hsh.symm)
      rw [if_pos hpr, hpe]
    · refine Or.inr ⟨p, (mem_boxCells hbh hbw).2 hsh, ?_⟩
      rw [if_pos hne]

end Sudoku

namespace Sudoku

/-! ### validateMove and its affected cells (C4) -/

theorem filterEmptyE_ok {g : Grid} :
    ∀ l : List (Nat × Nat), (∀ p ∈ l, p.1 < g.length) →
      ∃ r, filterEmptyE g l = .ok r := by
  intro l
  induction l with
  | nil => intro _; exact ⟨[], rfl⟩
  | cons p rest ih =>
    intro h
    obtain ⟨o, ho⟩ := readCell_ok_of_lt (h p (List.mem_cons_self p rest)) p.2
    obtain ⟨r, hr⟩ := ih (fun q hq => h q (List.mem_cons_of_mem p hq))
    refine ⟨if o = some 0 then p :: r else r, ?_⟩
    unfold filterEmptyE
    rw [ho, hr]
    show (if o = some 0 then Except.ok (p :: r) else Except.ok r :
        Except String (List (Nat × Nat)))
      = Except.ok (if o = some 0 then p :: r else r)
    by_cases hz : o = some 0 <;> simp [hz]

theorem generateMoveSuggestionsE_ok {config : GridConfig}
    (hcfg : gridConfigs config.size = some config)
    (hbh : 0 < config.boxHeight) (hbw : 0 < config.boxWidth)
    (hsz : config.boxWidth * config.boxHeight = config.size)
    {g : Grid} (hdim : gridDims g config.size)
    {row col : Nat} (hr : row < config.size) (hc : col < config.size) :
    ∃ s, generateMoveSuggestionsE g row col config = .ok s := by
  have hlen : g.length = config.size := hdim.1
  have hb : ∀ p ∈ getAffectedCells row col config, p.1 < g.length := by
    intro p hp
    have := (mem_getAffectedCells hbh hbw hsz hr hc p).1 hp
    omega
  obtain ⟨r, hfe⟩ := filterEmptyE_ok (getAffectedCells row col config) hb
  exact ⟨_, by unfold generateMoveSuggestionsE getValidValuesE; rw [hcfg, hfe]; exact rfl⟩

theorem validateMoveE_ok_of_inRange {size : Nat} {config : GridConfig}
    (hcfg : gridConfigs size = some config)
    {g : Grid} (hdim : gridDims g config.size)
    {row col : Nat} (hr : row < config.size) (hc : col < config.size)
    {value : Int} (hv : value = 0 ∨ (1 ≤ value ∧ value ≤ (config.maxValue : Int))) :
    ∃ r, validateMoveE g row col value size = .ok r ∧
      r.affectedCells = getAffectedCells row col config := by
  obtain ⟨hbh, hbw, hszf, hsize, _⟩ := config_facts hcfg
  have hcfg2 : gridConfigs config.size = some config := by rw [hsize]; exact hcfg
  have hcond : ¬(value ≠ 0 ∧ (value < 1 ∨ (config.maxValue : Int) < value)) := by
    rcases hv with rfl | ⟨h1, h2⟩
    · simp
    · rintro ⟨_, h | h⟩ <;> omega
  simp only [validateMoveE, hcfg]
  rw [if_neg hcond]
  by_cases hvalid : validateCellConstraints g row col value config = []
  · refine ⟨⟨decide (validateCellConstraints g row col value config = []),
      validateCellConstraints g row col value config,
      getAffectedCells row col config, []⟩, ?_, rfl⟩
    rw [if_pos hvalid]
    exact rfl
  · obtain ⟨s, hs⟩ := generateMoveSuggestionsE_ok hcfg2 hbh hbw hszf hdim hr hc
    refine ⟨⟨decide (validateCellConstraints g row col value config = []),
      validateCellConstraints g row col value config,
      getAffectedCells row col config, s⟩, ?_, rfl⟩
    rw [if_neg hvalid, hs]
    exact rfl

/-- C4 (amended): whenever the proposed value is in range (`0` or
`1..maxValue`), `validateMove` attaches exactly the cells that share a row,
column or box with the target — whether or not the move is valid; but for
an out-of-range value the early return leaves `affectedCells` empty, unlike
the claim. -/
theorem validateMove_affectedCells_amended :
    ∀ size config, gridConfigs size = some config →
    ∀ g : Grid, gridDims g config.size →
    ∀ row col : Nat, row < config.size → col < config.size →
    ∀ value : Int,
      ((value = 0 ∨ (1 ≤ value ∧ value ≤ (config.maxValue : Int))) →
        ∀ p : Nat × Nat,
          p ∈ (validateMove g row col value size).affectedCells ↔
            (p.1 < config.size ∧ p.2 < config.size ∧ p ≠ (row, col) ∧
              sharesGroup p (row, col) config)) ∧
      (value ≠ 0 → (value < 1 ∨ (config.maxValue : Int) < value) →
        (validateMove g row col value size).affectedCells = []) := by
  intro size config hcfg g hdim row col hr hc value
  obtain ⟨hbh, hbw, hsz, _, _⟩ := config_facts hcfg
  constructor
  · intro hv p
    obtain ⟨r, hok, haff⟩ := validateMoveE_ok_of_inRange hcfg hdim hr hc hv
    unfold validateMove
    rw [hok, haff]
    exact mem_getAffectedCells hbh hbw hsz hr hc p
  · intro hnz hout
    unfold validateMove
    simp only [validateMoveE, hcfg]
    rw [if_pos ⟨hnz, hout⟩]

/-- C4 counterexample: on the empty 4-grid, placing the out-of-range value
`5` at `(0, 0)` returns `affectedCells = []`, even though `(0, 1)` shares a
row with the target — the claim that the affected set is always attached is
false for out-of-range values. -/
theorem validateMove_outOfRange_empty_affected :
    (validateMove (createEmptyGrid 4) 0 0 5 4).affectedCells = [] ∧
    sharesGroup (0, 1) (0, 0) config4 ∧ ((0, 1) : Nat × Nat) ≠ (0, 0) ∧
      (0 : Nat) < config4.size ∧ (1 : Nat) < config4.size := by
  refine ⟨?_, by decide, by decide, by decide, by decide⟩
  decide

/-- Witness for the amended C4 at a concrete in-range move. -/
theorem validateMove_affectedCells_amended_witness :
    gridConfigs 4 = some config4 ∧ gridDims (createEmptyGrid 4) config4.size ∧
      (0 : Nat) < config4.size ∧ (0 : Nat) < config4.size ∧
      ((3 : Int) = 0 ∨ (1 ≤ (3 : Int) ∧ (3 : Int) ≤ (config4.maxValue : Int))) ∧
      ((0, 1) ∈ (validateMove (createEmptyGrid 4) 0 0 3 4).affectedCells ↔
        (((0, 1) : Nat × Nat).1 < config4.size ∧ ((0, 1) : Nat × Nat).2 < config4.size ∧
          ((0, 1) : Nat × Nat) ≠ (0, 0) ∧ sharesGroup (0, 1) (0, 0) config4)) :=
  ⟨by decide, by decide, by decide, by decide, by right; constructor <;> decide,
    (validateMove_affectedCells_amended 4 config4 (by decide) (createEmptyGrid 4)
      (by decide) 0 0 (by decide) (by decide) 3).1
      (by right; constructor <;> decide) (0, 1)⟩

end Sudoku

namespace Sudoku

/-! ### Validator error handling (C3) -/

theorem validateGridStructure_iff {g : Grid} {config : GridConfig} :
    validateGridStructure g config = true ↔ wellFormed g config := by
  unfold validateGridStructure wellFormed gridDims
  simp only [Bool.and_eq_true, beq_iff_eq, List.all_eq_true, decide_eq_true_eq]
  constructor
  · rintro ⟨hlen, hrows⟩
    refine ⟨⟨hlen, fun row hrow => (hrows row hrow).1⟩, ?_⟩
    intro r hr c hc
    have hrlen : r < g.length := by omega
    cases hg : g[r]? with
    | none => rw [List.getElem?_eq_none_iff] at hg; omega
    | some row =>
      have hmem : row ∈ g := List.getElem?_mem hg
      obtain ⟨hrl, hvals⟩ := hrows row hmem
      have hclen : c < row.length := by omega
      rw [cellD_eq_of_getElem? hg, List.getD_eq_getElem row 0 hclen]
      exact hvals _ (List.getElem_mem hclen)
  · rintro ⟨⟨hlen, hrows⟩, hvals⟩
    refine ⟨hlen, fun row hrow => ⟨hrows row hrow, ?_⟩⟩
    intro v hv
    obtain ⟨r, hr, hrg⟩ := List.mem_iff_getElem.1 hrow
    obtain ⟨c, hc, hcv⟩ := List.mem_iff_getElem.1 hv
    have hrs : r < config.size := by omega
    have hcs : c < config.size := by
      have := hrows row hrow
      omega
    have hcell : cellD g r c = v := by
      rw [cellD_eq_of_getElem? (by rw [List.getElem?_eq_getElem hr, hrg])]
      rw [List.getD_eq_getElem row 0 hc, hcv]
    have := hvals r hrs c hcs
    rw [hcell] at this
    exact this

/-- C3 counterexample: the empty grid is malformed for size `4`, and
`findAllConflicts` raises on it (its `catch` rethrows) instead of returning
a structured invalid result. -/
theorem findAllConflicts_raises_on_malformed :
    ¬ gridDims ([] : Grid) 4 ∧ (findAllConflictsE ([] : Grid) 4).isOk = false := by
  constructor
  · intro h
    exact absurd h.1 (by decide)
  · decide

/-- C3 (amended): `validateSolution` and `validateMove` never raise — on a
malformed grid or an out-of-range value they return a structured result
with `isValid: false` and a nonempty error/conflict list — but
`findAllConflicts` propagates internal errors as exceptions (shown here on
the malformed empty grid). -/
theorem validator_error_handling_amended :
    (∀ size config, gridConfigs size = some config →
      ∀ g : Grid, ¬ wellFormed g config →
        (validateSolution g size).isValid = false ∧
          (validateSolution g size).errors ≠ []) ∧
    (∀ (g : Grid) (row col : Nat) (value : Int) size config,
      gridConfigs size = some config →
      value ≠ 0 → (value < 1 ∨ (config.maxValue : Int) < value) →
        (validateMove g row col value size).isValid = false ∧
          (validateMove g row col value size).conflicts ≠ []) ∧
    (findAllConflictsE ([] : Grid) 4).isOk = false := by
  refine ⟨?_, ?_, by decide⟩
  · intro size config hcfg g hwf
    have hfalse : validateGridStructure g config = false := by
      cases hvb : validateGridStructure g config
      · rfl
      · exact absurd (validateGridStructure_iff.1 hvb) hwf
    have hcatch : validateSolution g size = match validateSolutionE g size with
      | .ok r => r
      | .error m => ⟨false, [s!"Validation error: {m}"], [], 0⟩ := rfl
    cases hcomp : calculateCompletenessE g with
    | error m =>
      have heq : validateSolutionE g size = .error m := by
        simp only [validateSolutionE, hcfg]
        rw [hcomp]
        rfl
      rw [hcatch, heq]
      exact ⟨rfl, by simp⟩
    | ok comp =>
      have heq : validateSolutionE g size =
          Except.ok ⟨false, ["Invalid grid structure"], [], comp⟩ := by
        simp only [validateSolutionE, hcfg]
        rw [hcomp]
        show (if ¬ validateGridStructure g config = true then _ else _) = _
        rw [if_pos (show ¬ validateGridStructure g config = true by rw [hfalse]; simp)]
      rw [hcatch, heq]
      exact ⟨rfl, by simp⟩
  · intro g row col value size config hcfg hnz hout
    unfold validateMove
    simp only [validateMoveE, hcfg]
    rw [if_pos ⟨hnz, hout⟩]
    exact ⟨rfl, by simp⟩

/-- Witness for the amended C3: the empty grid is rejected structurally by
`validateSolution`, and value `5` is rejected by `validateMove` on a 4-grid. -/
theorem validator_error_handling_amended_witness :
    gridConfigs 4 = some config4 ∧ ¬ wellFormed ([] : Grid) config4 ∧
      ((validateSolution ([] : Grid) 4).isValid = false ∧
        (validateSolution ([] : Grid) 4).errors ≠ []) ∧
      ((5 : Int) ≠ 0 ∧ ((5 : Int) < 1 ∨ (config4.maxValue : Int) < 5)) ∧
      ((validateMove (createEmptyGrid 4) 0 0 5 4).isValid = false ∧
        (validateMove (createEmptyGrid 4) 0 0 5 4).conflicts ≠ []) :=
  ⟨by decide, by decide,
    validator_error_handling_amended.1 4 config4 (by decide) [] (by decide),
    ⟨by decide, by right; decide⟩,
    validator_error_handling_amended.2.1 (createEmptyGrid 4) 0 0 5 4 config4
      (by decide) (by decide) (by right; decide)⟩

end Sudoku

namespace Sudoku

/-! ### Generated puzzles are not always unique (C1) -/

theorem cellsToRemove_medium4 : cellsToRemove config4 mediumDifficulty = 8 := by
  unfold cellsToRemove config4 mediumDifficulty
  norm_num
  rfl

theorem cellsToRemove_easy4 : cellsToRemove config4 easyDifficulty = 6 := by
  unfold cellsToRemove config4 easyDifficulty
  norm_num
  rfl

/-- Complete 4-grid used as the generated solution in the C1 failing input. -/
def solutionC1 : Grid := [[1, 2, 4, 3], [4, 3, 1, 2], [2, 1, 3, 4], [3, 4, 2, 1]]

/-- Shuffle outcome of `cellPositions` in the C1 failing input. -/
def orderC1 : List (Nat × Nat) :=
  [(3, 2), (1, 3), (0, 2), (2, 3), (3, 0), (2, 0), (0, 0), (3, 3),
   (0, 3), (2, 2), (1, 0), (2, 1), (1, 1), (0, 1), (1, 2), (3, 1)]

/-- C1 (code bug): the main-thread `createPuzzleFromSolution`, run at medium
difficulty on the complete solution `solutionC1` with the shuffled removal
order `orderC1`, returns a clue grid that the engine's own solution counter
(capped at `2`) completes in two different ways — the symmetric cell
removals skip the uniqueness re-check, so the returned puzzle does not have
a unique solution, contradicting the claim and the comment
`Ensure puzzle still has unique solution` above the check. -/
theorem createPuzzleFromSolution_medium4_two_solutions :
    createPuzzleFromSolution solutionC1 config4 mediumDifficulty orderC1 =
      [[1, 0, 0, 3], [0, 3, 1, 0], [0, 1, 3, 0], [3, 0, 0, 1]] ∧
    (engineCountSolutions (solverFuel config4)
      (createPuzzleFromSolution solutionC1 config4 mediumDifficulty orderC1)
      config4 0 2).1 = 2 := by
  have h : createPuzzleFromSolution solutionC1 config4 mediumDifficulty orderC1 =
      [[1, 0, 0, 3], [0, 3, 1, 0], [0, 1, 3, 0], [3, 0, 0, 1]] := by
    rw [createPuzzleFromSolution, cellsToRemove_medium4]
    decide
  rw [h]
  exact ⟨rfl, by decide⟩

/-! ### The hint engine never propagates exceptions (C8) -/

/-- C8: `getHint` and `getCellHint` are the `try` bodies with their
`catch` handlers, so every call returns a hint object: either the body's
own hint, or on an internal error a hint of type `error` (with the state
untouched for `getHint`); an unsupported size always yields the `error`
hint, and so does a malformed grid that makes an inner access throw. -/
theorem hint_engine_never_throws :
    (∀ st (g : Grid) size level,
      (∃ h, getHintE st g size level = .ok h ∧ getHint st g size level = h) ∨
        ((getHint st g size level).1.type = "error" ∧
          (getHint st g size level).2 = st)) ∧
    (∀ (g : Grid) (row col size : Nat),
      (∃ h, getCellHintE g row col size = .ok h ∧ getCellHint g row col size = h) ∨
        (getCellHint g row col size).type = "error") ∧
    (∀ st (g : Grid) size level, gridConfigs size = none →
      (getHint st g size level).1.type = "error" ∧ (getHint st g size level).2 = st) ∧
    (getHint initialHintState [[0]] 4 none).1.type = "error" ∧
    (getCellHint [[0]] 1 0 4).type = "error" := by
  refine ⟨?_, ?_, ?_, by decide, by decide⟩
  · intro st g size level
    unfold getHint
    cases h : getHintE st g size level with
    | ok r => exact Or.inl ⟨r, rfl, rfl⟩
    | error m => exact Or.inr ⟨rfl, rfl⟩
  · intro g row col size
    unfold getCellHint
    cases h : getCellHintE g row col size with
    | ok r => exact Or.inl ⟨r, rfl, rfl⟩
    | error m => exact Or.inr rfl
  · intro st g size level hnone
    unfold getHint
    simp only [getHintE, hnone]
    exact ⟨trivial, trivial⟩

/-- Witness for C8 at an unsupported size. -/
theorem hint_engine_never_throws_witness :
    gridConfigs 5 = none ∧
      ((getHint initialHintState [] 5 none).1.type = "error" ∧
        (getHint initialHintState [] 5 none).2 = initialHintState) :=
  ⟨by decide,
    hint_engine_never_throws.2.2.1 initialHintState [] 5 none (by decide)⟩

end Sudoku

namespace Sudoku

/-! ### Empty-cell bound of easy 4-grid puzzles (C2) -/

theorem countEmpty_setCell_zero_le {g : Grid} (hd : gridDims g 4)
    {r c : Nat} (hr : r < 4) (hc : c < 4) :
    countEmpty (setCell g r c 0) 4 ≤ countEmpty g 4 + 1 := by
  have h := countEmpty_setCell_parts (g := g) (n := 4) 0 hd hr hc
  by_cases h0 : cellD g r c = 0 <;> simp [h0] at h <;> omega

theorem removeCellsLoop_easy4_invariant :
    ∀ (order : List (Nat × Nat)) (g : Grid) (removed : Nat),
      gridDims g 4 →
      (∀ r c, r < 4 → c < 4 → cellD g r c = 0 → cellD g (3 - r) (3 - c) = 0) →
      countEmpty g 4 % 2 = 0 →
      countEmpty g 4 ≤ removed →
      (∀ p ∈ order, p.1 < 4 ∧ p.2 < 4) →
      countEmpty (removeCellsLoop config4 easyDifficulty 6 order g removed) 4 % 2 = 0 ∧
        countEmpty (removeCellsLoop config4 easyDifficulty 6 order g removed) 4
          ≤ max removed 6 := by
  intro order
  induction order with
  | nil =>
    intro g removed _ _ heven hle _
    exact ⟨heven, le_trans hle (le_max_left _ _)⟩
  | cons q rest ih =>
    obtain ⟨row, col⟩ := q
    intro g removed hd hsym heven hle horder
    have hq := horder (row, col) (List.mem_cons_self _ _)
    have hrow : row < 4 := hq.1
    have hcol : col < 4 := hq.2
    have horder' : ∀ p ∈ rest, p.1 < 4 ∧ p.2 < 4 :=
      fun p hp => horder p (List.mem_cons_of_mem _ hp)
    unfold removeCellsLoop
    by_cases hquota : 6 ≤ removed
    · rw [if_pos hquota]
      exact ⟨heven, le_trans hle (le_max_left _ _)⟩
    rw [if_neg hquota]
    have hrm5 : removed ≤ 5 := by omega
    by_cases h0 : cellD g row col = 0
    · -- the visited cell is already empty: clearing it is a no-op
      rw [setCell_zero_of_empty h0]
      by_cases hu : hasUniqueSolution g config4
      · rw [if_pos hu]
        have hsymmetry : easyDifficulty.symmetry = true := rfl
        rw [if_pos hsymmetry]
        have hsymzero : cellD g (config4.size - 1 - row) (config4.size - 1 - col) = 0 := by
          have := hsym row col hrow hcol h0
          have e1 : config4.size - 1 - row = 3 - row := rfl
          have e2 : config4.size - 1 - col = 3 - col := rfl
          rw [e1, e2]
          exact this
        rw [if_neg (by simp [hsymzero])]
        have := ih g (removed + 1) hd hsym heven (by omega) horder'
        refine ⟨this.1, le_trans this.2 ?_⟩
        omega
      · rw [if_neg hu, setCell_cellD]
        exact ih g removed hd hsym heven hle horder'
    · -- a real removal: the cell and (unchecked) its symmetric partner empty
      have hdg1 : gridDims (setCell g row col 0) 4 := gridDims_setCell _ _ _ hd
      have hcount1 : countEmpty (setCell g row col 0) 4 = countEmpty g 4 + 1 := by
        have h := countEmpty_setCell_parts (g := g) (n := 4) 0 hd hrow hcol
        simp [h0] at h
        omega
      have hne_symcell : ((3 - row : Nat), (3 - col : Nat)) ≠ (row, col) := by
        intro hcontra
        have h1 : 3 - row = row := congrArg Prod.fst hcontra
        omega
      by_cases hu : hasUniqueSolution (setCell g row col 0) config4
      · rw [if_pos hu]
        have hsymmetry : easyDifficulty.symmetry = true := rfl
        rw [if_pos hsymmetry]
        have e1 : config4.size - 1 - row = 3 - row := rfl
        have e2 : config4.size - 1 - col = 3 - col := rfl
        have hsymval : cellD (setCell g row col 0) (3 - row) (3 - col)
            = cellD g (3 - row) (3 - col) :=
          cellD_setCell_ne g row col 0 hne_symcell
        have hsymne : cellD (setCell g row col 0) (3 - row) (3 - col) ≠ 0 := by
          rw [hsymval]
          intro hz
          have := hsym (3 - row) (3 - col) (by omega) (by omega) hz
          have e3 : 3 - (3 - row) = row := by omega
          have e4 : 3 - (3 - col) = col := by omega
          rw [e3, e4] at this
          exact h0 this
        rw [e1, e2, if_pos (by simpa using hsymne)]
        set g1 := setCell g row col 0 with hg1
        set g2 := setCell g1 (3 - row) (3 - col) 0 with hg2
        have hdg2 : gridDims g2 4 := gridDims_setCell _ _ _ hdg1
        have hcount2 : countEmpty g2 4 = countEmpty g 4 + 2 := by
          have h := countEmpty_setCell_parts (g := g1) (n := 4) 0 hdg1
            (r := 3 - row) (c := 3 - col) (by omega) (by omega)
          rw [← hg2] at h
          simp [hsymne] at h
          omega
        have hsym2 : ∀ r c, r < 4 → c < 4 → cellD g2 r c = 0 →
            cellD g2 (3 - r) (3 - c) = 0 := by
          intro r c hr hc hz
          by_cases hrc1 : (r, c) = (row, col)
          · have : (3 - r, 3 - c) = ((3 - row : Nat), (3 - col : Nat)) := by
              rw [show r = row from congrArg Prod.fst hrc1,
                show c = col from congrArg Prod.snd hrc1]
            rw [show (3 - r : Nat) = 3 - row from congrArg Prod.fst this,
              show (3 - c : Nat) = 3 - col from congrArg Prod.snd this]
            rw [hg2]
            exact cellD_setCell_self 0 (by rw [length_setCell]; have := hd.1; omega)
              (by
                have hlen : (g1.getD (3 - row) []).length = 4 := by
                  cases hgr : g1[(3 - row : Nat)]? with
                  | none =>
                    rw [List.getElem?_eq_none_iff] at hgr
                    have := hdg1.1
                    omega
                  | some rw0 =>
                    rw [getD_eq_of_getElem? hgr]
                    exact hdg1.2 rw0 (List.getElem?_mem hgr)
                omega)
          · by_cases hrc2 : (r, c) = ((3 - row : Nat), (3 - col : Nat))
            · have hr' : r = 3 - row := congrArg Prod.fst hrc2
              have hc' : c = 3 - col := congrArg Prod.snd hrc2
              have e3 : 3 - r = row := by omega
              have e4 : 3 - c = col := by omega
              rw [e3, e4, hg2, cellD_setCell_ne _ _ _ _ (Ne.symm hne_symcell)]
              rw [hg1]
              exact cellD_setCell_self 0 (by have := hd.1; omega)
                (by
                  have hlen : (g.getD row []).length = 4 := by
                    cases hgr : g[row]? with
                    | none =>
                      rw [List.getElem?_eq_none_iff] at hgr
                      have := hd.1
                      omega
                    | some rw0 =>
                      rw [getD_eq_of_getElem? hgr]
                      exact hd.2 rw0 (List.getElem?_mem hgr)
                  omega)
            · have hval : cellD g2 r c = cellD g r c := by
                rw [hg2, cellD_setCell_ne _ _ _ _ hrc2, hg1,
                  cellD_setCell_ne _ _ _ _ hrc1]
              rw [hval] at hz
              have hsg := hsym r c hr hc hz
              by_cases hrc3 : ((3 - r : Nat), (3 - c : Nat)) = ((3 - row : Nat), (3 - col : Nat))
              · rw [show (3 - r : Nat) = 3 - row from congrArg Prod.fst hrc3,
                  show (3 - c : Nat) = 3 - col from congrArg Prod.snd hrc3]
                rw [hg2]
                exact cellD_setCell_self 0 (by rw [length_setCell]; have := hd.1; omega)
                  (by
                    have hlen : (g1.getD (3 - row) []).length = 4 := by
                      cases hgr : g1[(3 - row : Nat)]? with
                      | none =>
                        rw [List.getElem?_eq_none_iff] at hgr
                        have := hdg1.1
                        omega
                      | some rw0 =>
                        rw [getD_eq_of_getElem? hgr]
                        exact hdg1.2 rw0 (List.getElem?_mem hgr)
                    omega)
              · have hrc4 : ((3 - r : Nat), (3 - c : Nat)) ≠ (row, col) := by
                  intro hcontra
                  have hzz : cellD g (3 - r) (3 - c) = 0 := hsg
                  rw [show (3 - r : Nat) = row from congrArg Prod.fst hcontra,
                    show (3 - c : Nat) = col from congrArg Prod.snd hcontra] at hzz
                  exact h0 hzz
                rw [hg2, cellD_setCell_ne _ _ _ _ hrc3, hg1,
                  cellD_setCell_ne _ _ _ _ hrc4]
                exact hsg
        have := ih g2 (removed + 2) hdg2 hsym2 (by omega) (by omega) horder'
        refine ⟨this.1, ?_⟩
        have h1 := this.1
        have h2 := this.2
        omega
      · rw [if_neg hu, setCell_setCell, setCell_cellD]
        exact ih g removed hd hsym heven hle horder'

theorem workerRemoveLoop_le :
    ∀ (n : Nat) (order : List (Nat × Nat)) (g : Grid),
      gridDims g 4 → (∀ p ∈ order, p.1 < 4 ∧ p.2 < 4) →
      countEmpty (workerRemoveLoop n order g) 4 ≤ countEmpty g 4 + n := by
  intro n
  induction n with
  | zero =>
    intro order g _ _
    cases order <;> simp [workerRemoveLoop]
  | succ m ih =>
    intro order g hd horder
    cases order with
    | nil => simp [workerRemoveLoop]
    | cons p rest =>
      obtain ⟨row, col⟩ := p
      have hq := horder (row, col) (List.mem_cons_self _ _)
      have hr : row < 4 := hq.1
      have hc : col < 4 := hq.2
      have h1 := countEmpty_setCell_zero_le hd hr hc
      have h2 := ih rest (setCell g row col 0) (gridDims_setCell _ _ _ hd)
        (fun q hq => horder q (List.mem_cons_of_mem _ hq))
      calc countEmpty (workerRemoveLoop (m + 1) ((row, col) :: rest) g) 4
          = countEmpty (workerRemoveLoop m rest (setCell g row col 0)) 4 := rfl
        _ ≤ countEmpty (setCell g row col 0) 4 + m := h2
        _ ≤ countEmpty g 4 + (m + 1) := by omega

/-- C2: for every complete 4-grid solution and every shuffled removal
order, both the main-thread `createPuzzleFromSolution` and the worker-path
version leave at most `floor(16 * (1 - 0.6)) = 6` empty cells at easy
difficulty. -/
theorem clueGrid_empty_bound_easy4 :
    ∀ solution : Grid, gridDims solution 4 →
      (∀ p ∈ allCells 4, cellD solution p.1 p.2 ≠ 0) →
      ∀ order : List (Nat × Nat), (∀ p ∈ order, p.1 < 4 ∧ p.2 < 4) →
        countEmpty (createPuzzleFromSolution solution config4 easyDifficulty order) 4 ≤ 6 ∧
        countEmpty (workerCreatePuzzleFromSolution solution config4 easyDifficulty order) 4 ≤ 6 := by
  intro solution hd hfull order horder
  have hzero : countEmpty solution 4 = 0 := countEmpty_eq_zero_iff.2 hfull
  constructor
  · unfold createPuzzleFromSolution
    rw [cellsToRemove_easy4]
    have := removeCellsLoop_easy4_invariant order solution 0 hd
      (fun r c hr hc hz => absurd hz (hfull (r, c) (mem_allCells.2 ⟨hr, hc⟩)))
      (by rw [hzero]) (by rw [hzero]) horder
    have h2 := this.2
    omega
  · unfold workerCreatePuzzleFromSolution
    rw [cellsToRemove_easy4]
    have := workerRemoveLoop_le 6 order solution hd horder
    omega

/-- Witness for C2 at a concrete solution and removal order. -/
theorem clueGrid_empty_bound_easy4_witness :
    gridDims ([[1, 2, 3, 4], [3, 4, 1, 2], [2, 1, 4, 3], [4, 3, 2, 1]] : Grid) 4 ∧
      (∀ p ∈ allCells 4,
        cellD ([[1, 2, 3, 4], [3, 4, 1, 2], [2, 1, 4, 3], [4, 3, 2, 1]] : Grid) p.1 p.2 ≠ 0) ∧
      (∀ p ∈ allCells 4, p.1 < 4 ∧ p.2 < 4) ∧
      (countEmpty (createPuzzleFromSolution
          [[1, 2, 3, 4], [3, 4, 1, 2], [2, 1, 4, 3], [4, 3, 2, 1]]
          config4 easyDifficulty (allCells 4)) 4 ≤ 6 ∧
        countEmpty (workerCreatePuzzleFromSolution
          [[1, 2, 3, 4], [3, 4, 1, 2], [2, 1, 4, 3], [4, 3, 2, 1]]
          config4 easyDifficulty (allCells 4)) 4 ≤ 6) :=
  ⟨by decide, by decide, by decide,
    clueGrid_empty_bound_easy4 [[1, 2, 3, 4], [3, 4, 1, 2], [2, 1, 4, 3], [4, 3, 2, 1]]
      (by decide) (by decide) (allCells 4) (by decide)⟩

end Sudoku

namespace Sudoku

/-! ### getHint on a single naked single (C7) -/

theorem bind_ok_exists {a : Type} {b : Type} {e : Except String a}
    {f : a → Except String b} (he : ∃ x, e = .ok x)
    (hf : ∀ x, ∃ y, f x = .ok y) : ∃ y, (e >>= f) = .ok y := by
  obtain ⟨x, hx⟩ := he
  obtain ⟨y, hy⟩ := hf x
  exact ⟨y, by rw [hx]; exact hy⟩

theorem placementPoints_bounded {config : GridConfig}
    (hbh : 0 < config.boxHeight) (hbw : 0 < config.boxWidth)
    (hsz : config.boxWidth * config.boxHeight = config.size)
    {row col : Nat} (hr : row < config.size) (hc : col < config.size) :
    ∀ p ∈ placementPoints row col config, p.1 < config.size ∧ p.2 < config.size := by
  intro p hp
  unfold placementPoints at hp
  simp only [List.mem_append, List.mem_filterMap, List.mem_range] at hp
  rcases hp with (⟨c2, hc2, he⟩ | ⟨r2, hr2, he⟩) | ⟨q, hq, he⟩
  · rcases Decidable.em (c2 ≠ col) with hne | hne
    · rw [if_pos hne] at he; cases he; exact ⟨hr, hc2⟩
    · rw [if_neg hne] at he; exact Option.noConfusion he
  · rcases Decidable.em (r2 ≠ row) with hne | hne
    · rw [if_pos hne] at he; cases he; exact ⟨hr2, hc⟩
    · rw [if_neg hne] at he; exact Option.noConfusion he
  · rcases Decidable.em (q ≠ (row, col)) with hne | hne
    · rw [if_pos hne] at he; cases he
      exact sameBox_bounds hbh hbw hsz hr hc ((mem_boxCells hbh hbw).1 hq)
    · rw [if_neg hne] at he; exact Option.noConfusion he

theorem placementScanE_ok {g : Grid} {n : Nat} (hd : gridDims g n)
    (value : Int) :
    ∀ l : List (Nat × Nat), (∀ p ∈ l, p.1 < n) →
      ∃ b, placementScanE g value l = .ok b := by
  intro l
  induction l with
  | nil => intro _; exact ⟨true, rfl⟩
  | cons p rest ih =>
    intro hb
    have hr : p.1 < g.length := by
      have h1 := hb p (List.mem_cons_self _ _)
      have h2 := hd.1
      omega
    obtain ⟨o, ho⟩ := readCell_ok_of_lt hr p.2
    obtain ⟨b, hbrec⟩ := ih (fun q hq => hb q (List.mem_cons_of_mem _ hq))
    unfold placementScanE
    rw [ho]
    by_cases hov : o = some value
    · refine ⟨false, ?_⟩
      show (if o = some value then Except.ok false
        else placementScanE g value rest : Except String Bool) = Except.ok false
      rw [if_pos hov]
    · refine ⟨b, ?_⟩
      show (if o = some value then Except.ok false
        else placementScanE g value rest : Except String Bool) = Except.ok b
      rw [if_neg hov]
      exact hbrec

theorem hintsValidPlacementE_ok {g : Grid} {config : GridConfig}
    (hbh : 0 < config.boxHeight) (hbw : 0 < config.boxWidth)
    (hsz : config.boxWidth * config.boxHeight = config.size)
    (hd : gridDims g config.size)
    {row col : Nat} (hr : row < config.size) (hc : col < config.size) (value : Int) :
    ∃ b, hintsValidPlacementE g row col value config = .ok b :=
  placementScanE_ok hd value _
    (fun p hp => by
      have := (placementPoints_bounded hbh hbw hsz hr hc p hp).1
      omega)

theorem getPossibleValuesE_ok {g : Grid} {config : GridConfig}
    (hbh : 0 < config.boxHeight) (hbw : 0 < config.boxWidth)
    (hsz : config.boxWidth * config.boxHeight = config.size)
    (hd : gridDims g config.size)
    {row col : Nat} (hr : row < config.size) (hc : col < config.size) :
    ∃ vs, getPossibleValuesE g row col config = .ok vs := by
  have hread := readCell_of_dims hd hr hc
  have hfold : ∀ (vals : List Int) (acc : List Int), ∃ vs,
      (vals.foldlM (fun acc v => do
        let ok ← hintsValidPlacementE g row col v config
        pure (if ok then acc ++ [v] else acc)) acc :
        Except String (List Int)) = .ok vs := by
    intro vals
    induction vals with
    | nil => intro acc; exact ⟨acc, rfl⟩
    | cons v rest ihv =>
      intro acc
      rw [List.foldlM_cons]
      apply bind_ok_exists
      · apply bind_ok_exists (hintsValidPlacementE_ok hbh hbw hsz hd hr hc v)
        intro b
        exact ⟨_, rfl⟩
      · intro acc1
        exact ihv acc1
  unfold getPossibleValuesE
  rw [hread]
  by_cases h0 : (some (cellD g row col) : Option Int) ≠ some 0
  · refine ⟨[], ?_⟩
    show (if (some (cellD g row col) : Option Int) ≠ some 0 then Except.ok []
      else _) = Except.ok []
    rw [if_pos h0]
  · obtain ⟨vs, hvs⟩ := hfold (candidateValues config) []
    refine ⟨vs, ?_⟩
    show (if (some (cellD g row col) : Option Int) ≠ some 0 then Except.ok [] else
      ((candidateValues config).foldlM (fun acc v => do
        let ok ← hintsValidPlacementE g row col v config
        pure (if ok then acc ++ [v] else acc)) [] :
        Except String (List Int))) = Except.ok vs
    rw [if_neg h0]
    exact hvs

theorem countCanPlaceE_ok {g : Grid} {config : GridConfig}
    (hbh : 0 < config.boxHeight) (hbw : 0 < config.boxWidth)
    (hsz : config.boxWidth * config.boxHeight = config.size)
    (hd : gridDims g config.size) (value : Int) :
    ∀ cells, (∀ p ∈ cells, p.1 < config.size ∧ p.2 < config.size) →
      ∃ k, countCanPlaceE g value config cells = .ok k := by
  have hfold : ∀ cells : List (Nat × Nat),
      (∀ p ∈ cells, p.1 < config.size ∧ p.2 < config.size) →
      ∀ acc0 : Nat, ∃ k, (cells.foldlM (fun n (p : Nat × Nat) => do
        let cv ← readCell g p.1 p.2
        if cv = some 0 then do
          let ok ← hintsValidPlacementE g p.1 p.2 value config
          pure (if ok then n + 1 else n)
        else pure n) acc0 : Except String Nat) = .ok k := by
    intro cells
    induction cells with
    | nil => intro _ acc0; exact ⟨acc0, rfl⟩
    | cons p rest ih =>
      intro hb acc0
      obtain ⟨hp1, hp2⟩ := hb p (List.mem_cons_self _ _)
      have ih' := ih (fun q hq => hb q (List.mem_cons_of_mem _ hq))
      rw [List.foldlM_cons]
      apply bind_ok_exists
      · apply bind_ok_exists ⟨_, readCell_of_dims hd hp1 hp2⟩
        intro cv
        by_cases h0 : cv = some 0
        · rw [if_pos h0]
          apply bind_ok_exists (hintsValidPlacementE_ok hbh hbw hsz hd hp1 hp2 value)
          intro b
          exact ⟨_, rfl⟩
        · rw [if_neg h0]
          exact ⟨_, rfl⟩
      · intro acc1
        exact ih' acc1
  intro cells hcells
  exact hfold cells hcells 0

end Sudoku

namespace Sudoku

theorem isHiddenSingleE_ok {g : Grid} {config : GridConfig}
    (hbh : 0 < config.boxHeight) (hbw : 0 < config.boxWidth)
    (hsz : config.boxWidth * config.boxHeight = config.size)
    (hd : gridDims g config.size)
    {row col : Nat} (hr : row < config.size) (hc : col < config.size) (value : Int) :
    ∃ b, isHiddenSingleE g row col value config = .ok b := by
  have hrowcells : ∀ p ∈ (List.range config.size).map (fun c => (row, c)),
      p.1 < config.size ∧ p.2 < config.size := by
    intro p hp
    simp only [List.mem_map, List.mem_range] at hp
    obtain ⟨c2, hc2, rfl⟩ := hp
    exact ⟨hr, hc2⟩
  have hcolcells : ∀ p ∈ (List.range config.size).map (fun r => (r, col)),
      p.1 < config.size ∧ p.2 < config.size := by
    intro p hp
    simp only [List.mem_map, List.mem_range] at hp
    obtain ⟨r2, hr2, rfl⟩ := hp
    exact ⟨hr2, hc⟩
  have hboxcells : ∀ p ∈ boxCells row col config,
      p.1 < config.size ∧ p.2 < config.size := by
    intro p hp
    exact sameBox_bounds hbh hbw hsz hr hc ((mem_boxCells hbh hbw).1 hp)
  unfold isHiddenSingleE
  apply bind_ok_exists (countCanPlaceE_ok hbh hbw hsz hd value _ hrowcells)
  intro inRow
  by_cases h1 : inRow = 1
  · rw [if_pos h1]; exact ⟨true, rfl⟩
  · rw [if_neg h1]
    apply bind_ok_exists (countCanPlaceE_ok hbh hbw hsz hd value _ hcolcells)
    intro inCol
    by_cases h2 : inCol = 1
    · rw [if_pos h2]; exact ⟨true, rfl⟩
    · rw [if_neg h2]
      apply bind_ok_exists (countCanPlaceE_ok hbh hbw hsz hd value _ hboxcells)
      intro inBox
      exact ⟨_, rfl⟩

theorem identifyTechniquesE_nakedSingle {g : Grid} {config : GridConfig}
    (hbh : 0 < config.boxHeight) (hbw : 0 < config.boxWidth)
    (hsz : config.boxWidth * config.boxHeight = config.size)
    (hd : gridDims g config.size)
    {row col : Nat} (hr : row < config.size) (hc : col < config.size) {v : Int}
    (hpv : getPossibleValuesE g row col config = .ok [v]) :
    ∃ ts, identifyTechniquesE g row col v config = .ok ("nakedSingle" :: ts) := by
  obtain ⟨b, hb⟩ := isHiddenSingleE_ok hbh hbw hsz hd hr hc v
  refine ⟨if b then ["hiddenSingle"] else [], ?_⟩
  unfold identifyTechniquesE
  rw [hpv]
  show (isHiddenSingleE g row col v config >>= fun hidden =>
    Except.ok ((if ([v] : List Int).length = 1 then ["nakedSingle"] else []) ++
      if hidden then ["hiddenSingle"] else [])) = _
  rw [hb]
  show Except.ok ((if ([v] : List Int).length = 1 then ["nakedSingle"] else []) ++
      if b then ["hiddenSingle"] else []) = _
  rw [if_pos (by simp)]
  rfl

theorem flatMap_eq_nil_of_not_mem {l : List (Nat × Nat)} {x : Nat × Nat}
    (m : List Move) (hx : x ∉ l) :
    l.flatMap (fun p => if p = x then m else []) = [] := by
  induction l with
  | nil => rfl
  | cons a rest ih =>
    have hax : a ≠ x := fun h => hx (h ▸ List.mem_cons_self _ _)
    rw [List.flatMap_cons, if_neg hax, ih (fun h => hx (List.mem_cons_of_mem _ h))]
    rfl

theorem flatMap_single_of_nodup {l : List (Nat × Nat)} {x : Nat × Nat}
    (m : List Move) (hnd : l.Nodup) (hx : x ∈ l) :
    l.flatMap (fun p => if p = x then m else []) = m := by
  induction l with
  | nil => exact absurd hx (List.not_mem_nil x)
  | cons a rest ih =>
    rw [List.flatMap_cons]
    rcases List.mem_cons.1 hx with rfl | hmem
    · rw [if_pos rfl,
        flatMap_eq_nil_of_not_mem m (List.nodup_cons.1 hnd).1, List.append_nil]
    · have hax : a ≠ x := by
        intro h
        exact (List.nodup_cons.1 hnd).1 (h ▸ hmem)
      rw [if_neg hax, ih (List.nodup_cons.1 hnd).2 hmem]
      rfl

theorem exbind_ok {a b : Type} (x : a) (f : a → Except String b) :
    (Except.ok x >>= f : Except String b) = f x := rfl

theorem exbind_err {a b : Type} (m : String) (f : a → Except String b) :
    (Except.error m >>= f : Except String b) = .error m := rfl

theorem analyzeCellsE_unique_empty {g : Grid} {config : GridConfig}
    {r0 c0 : Nat} {v : Int} {ts : List String}
    (hd : gridDims g config.size)
    (hempty : cellD g r0 c0 = 0)
    (hothers : ∀ p ∈ allCells config.size, p ≠ (r0, c0) → cellD g p.1 p.2 ≠ 0)
    (hpv : getPossibleValuesE g r0 c0 config = .ok [v])
    (hts : identifyTechniquesE g r0 c0 v config = .ok ts) :
    ∀ cells : List (Nat × Nat),
      (∀ p ∈ cells, p.1 < config.size ∧ p.2 < config.size) →
      analyzeCellsE g config cells = .ok (cells.flatMap (fun p =>
        if p = (r0, c0) then [⟨(r0, c0), v, 1, ts⟩] else [])) := by
  intro cells
  induction cells with
  | nil => intro _; rfl
  | cons p rest ih =>
    obtain ⟨pr, pc⟩ := p
    intro hb
    have hp1 : pr < config.size := (hb (pr, pc) (List.mem_cons_self _ _)).1
    have hp2 : pc < config.size := (hb (pr, pc) (List.mem_cons_self _ _)).2
    have hread := readCell_of_dims hd hp1 hp2
    have ih' := ih (fun q hq => hb q (List.mem_cons_of_mem _ hq))
    by_cases hp : ((pr : Nat), (pc : Nat)) = (r0, c0)
    · injection hp with h1 h2
      subst h1
      subst h2
      unfold analyzeCellsE
      rw [hread, exbind_ok]
      rw [if_pos (show (some (cellD g pr pc) : Option Int) = some 0 from by
        rw [hempty])]
      rw [hpv, exbind_ok, List.foldlM_cons, hts, exbind_ok]
      simp only [List.foldlM_nil, pure_bind, exbind_ok]
      rw [ih', exbind_ok, List.flatMap_cons, if_pos rfl]
      rfl
    · have hne : cellD g pr pc ≠ 0 :=
        hothers (pr, pc) (mem_allCells.2 ⟨hp1, hp2⟩) hp
      unfold analyzeCellsE
      rw [hread, exbind_ok]
      rw [if_neg (by simpa using hne), ih', List.flatMap_cons, if_neg hp]
      rfl

end Sudoku

namespace Sudoku

/-- C7: on a grid of a supported size whose single empty cell has exactly
one candidate, `getHint` at the Solution level (4) returns a hint whose
technique is `nakedSingle` and whose confidence is `1.0`. -/
theorem getHint_nakedSingle_solution_level :
    ∀ size config, gridConfigs size = some config →
    ∀ g : Grid, gridDims g config.size →
    ∀ r0 c0 : Nat, r0 < config.size → c0 < config.size →
    cellD g r0 c0 = 0 →
    (∀ p ∈ allCells config.size, p ≠ (r0, c0) → cellD g p.1 p.2 ≠ 0) →
    ∀ v : Int, getPossibleValuesE g r0 c0 config = .ok [v] →
    ∀ st, (getHint st g size (some 4)).1.technique = some "nakedSingle" ∧
      (getHint st g size (some 4)).1.confidence = some 1 := by
  intro size config hcfg g hd r0 c0 hr0 hc0 hempty hothers v hpv st
  obtain ⟨hbh, hbw, hsz, hsize, hmax⟩ := config_facts hcfg
  obtain ⟨ts, hts⟩ :=
    identifyTechniquesE_nakedSingle hbh hbw hsz hd hr0 hc0 hpv
  have hanalyze : analyzeCellsE g config (allCells config.size) =
      .ok [⟨(r0, c0), v, 1, "nakedSingle" :: ts⟩] := by
    rw [analyzeCellsE_unique_empty hd hempty hothers hpv hts (allCells config.size)
      (fun p hp => mem_allCells.1 hp)]
    rw [flatMap_single_of_nodup _ (nodup_allCells config.size)
      (mem_allCells.2 ⟨hr0, hc0⟩)]
  have hmoves : analyzePossibleMovesE g config =
      .ok [⟨(r0, c0), v, 1, "nakedSingle" :: ts⟩] := by
    unfold analyzePossibleMovesE
    rw [hanalyze, exbind_ok, List.mergeSort_singleton]
  have hconf : calculateConfidenceE g r0 c0 v config = .ok 1 := by
    unfold calculateConfidenceE
    rw [hts, exbind_ok, hpv, exbind_ok]
    rw [if_pos (by simp)]
  have hsol : ∃ h, createSolutionHintE g ⟨(r0, c0), v, 1, "nakedSingle" :: ts⟩ config
      = .ok h ∧ h.technique = some "nakedSingle" ∧ h.confidence = some 1 := by
    unfold createSolutionHintE
    rw [hconf, exbind_ok]
    exact ⟨_, rfl, rfl, rfl⟩
  obtain ⟨h, hsolEq, htech, hcprop⟩ := hsol
  have hbest : findBestHintE g config [⟨(r0, c0), v, 1, "nakedSingle" :: ts⟩] 4
      = .ok h := by
    unfold findBestHintE
    rw [if_neg (by decide), if_neg (by decide), if_neg (by decide), if_pos rfl]
    exact hsolEq
  have hgetE : getHintE st g size (some 4) =
      .ok (h, ⟨st.hintHistory ++ [⟨h, 4, hashGrid g⟩], st.currentHintLevel⟩) := by
    unfold getHintE
    simp only [hcfg, hmoves, exbind_ok]
    rw [if_neg (show ¬([(⟨(r0, c0), v, 1, "nakedSingle" :: ts⟩ : Move)] : List Move)
      = [] by simp)]
    rw [show (if (4 : Nat) = 0 then st.currentHintLevel else 4) = 4 from rfl]
    rw [hbest, exbind_ok]
  unfold getHint
  rw [hgetE]
  exact ⟨htech, hcprop⟩

/-- Witness for C7 at a concrete 4-grid with one empty cell. -/
theorem getHint_nakedSingle_solution_level_witness :
    gridConfigs 4 = some config4 ∧
      gridDims ([[0, 2, 3, 4], [3, 4, 1, 2], [2, 1, 4, 3], [4, 3, 2, 1]] : Grid) config4.size ∧
      (0 : Nat) < config4.size ∧
      cellD [[0, 2, 3, 4], [3, 4, 1, 2], [2, 1, 4, 3], [4, 3, 2, 1]] 0 0 = 0 ∧
      (∀ p ∈ allCells config4.size, p ≠ (0, 0) →
        cellD [[0, 2, 3, 4], [3, 4, 1, 2], [2, 1, 4, 3], [4, 3, 2, 1]] p.1 p.2 ≠ 0) ∧
      getPossibleValuesE [[0, 2, 3, 4], [3, 4, 1, 2], [2, 1, 4, 3], [4, 3, 2, 1]]
        0 0 config4 = .ok [1] ∧
      ((getHint initialHintState [[0, 2, 3, 4], [3, 4, 1, 2], [2, 1, 4, 3], [4, 3, 2, 1]]
          4 (some 4)).1.technique = some "nakedSingle" ∧
        (getHint initialHintState [[0, 2, 3, 4], [3, 4, 1, 2], [2, 1, 4, 3], [4, 3, 2, 1]]
          4 (some 4)).1.confidence = some 1) :=
  ⟨by decide, by decide, by decide, by decide, by decide, by rfl,
    getHint_nakedSingle_solution_level 4 config4 (by decide)
      [[0, 2, 3, 4], [3, 4, 1, 2], [2, 1, 4, 3], [4, 3, 2, 1]] (by decide)
      0 0 (by decide) (by decide) (by decide) (by decide) 1 (by rfl)
      initialHintState⟩

end Sudoku

namespace Sudoku

/-! ### Conflict-free grids and the placement checks (shared by C5 and C6) -/

/-- Spec-side internal consistency of a partial grid: no two distinct
filled cells of a common row, column or box hold the same value. -/
def conflictFree (g : Grid) (config : GridConfig) : Prop :=
  ∀ p ∈ allCells config.size, ∀ q ∈ allCells config.size,
    p ≠ q → sharesGroup p q config → cellD g p.1 p.2 ≠ 0 →
      cellD g p.1 p.2 ≠ cellD g q.1 q.2

instance (g : Grid) (config : GridConfig) : Decidable (conflictFree g config) := by
  unfold conflictFree; infer_instance

theorem sharesGroup_symm {p q : Nat × Nat} {config : GridConfig}
    (h : sharesGroup p q config) : sharesGroup q p config := by
  rcases h with h | h | h
  · exact Or.inl h.symm
  · exact Or.inr (Or.inl h.symm)
  · exact Or.inr (Or.inr ⟨h.1.symm, h.2.symm⟩)
theorem usedInRow_eq_false {g : Grid} {row col : Nat} {v : Int} {config : GridConfig} :
    usedInRow g row col v config = false ↔
      ∀ c2, c2 < config.size → c2 ≠ col → cellD g row c2 ≠ v := by
  unfold usedInRow
  rw [List.any_eq_false]
  constructor
  · intro h c2 hc2 hne hval
    exact h c2 (List.mem_range.2 hc2) (by simp [hne, hval])
  · intro h c2 hc2 hcontra
    rw [Bool.and_eq_true, decide_eq_true_eq, beq_iff_eq] at hcontra
    exact h c2 (List.mem_range.1 hc2) hcontra.1 hcontra.2

theorem usedInCol_eq_false {g : Grid} {row col : Nat} {v : Int} {config : GridConfig} :
    usedInCol g row col v config = false ↔
      ∀ r2, r2 < config.size → r2 ≠ row → cellD g r2 col ≠ v := by
  unfold usedInCol
  rw [List.any_eq_false]
  constructor
  · intro h r2 hr2 hne hval
    exact h r2 (List.mem_range.2 hr2) (by simp [hne, hval])
  · intro h r2 hr2 hcontra
    rw [Bool.and_eq_true, decide_eq_true_eq, beq_iff_eq] at hcontra
    exact h r2 (List.mem_range.1 hr2) hcontra.1 hcontra.2

theorem usedInBox_eq_false {g : Grid} {row col : Nat} {v : Int} {config : GridConfig} :
    usedInBox g row col v config = false ↔
      ∀ p ∈ boxCells row col config, p ≠ (row, col) → cellD g p.1 p.2 ≠ v := by
  unfold usedInBox
  rw [List.any_eq_false]
  constructor
  · intro h p hp hne hval
    exact h p hp (by simp [hne, hval])
  · intro h p hp hcontra
    rw [Bool.and_eq_true, decide_eq_true_eq, beq_iff_eq] at hcontra
    exact h p hp hcontra.1 hcontra.2

theorem isValidPlacement_parts {g : Grid} {row col : Nat} {v : Int} {config : GridConfig} :
    isValidPlacement g row col v config = true ↔
      usedInRow g row col v config = false ∧ usedInCol g row col v config = false ∧
        usedInBox g row col v config = false := by
  unfold isValidPlacement
  rw [Bool.not_eq_true']
  simp [Bool.or_eq_false_iff, and_assoc]

theorem isValidPlacement_iff {g : Grid} {config : GridConfig}
    (hbh : 0 < config.boxHeight) (hbw : 0 < config.boxWidth)
    (hsz : config.boxWidth * config.boxHeight = config.size)
    {row col : Nat} (hr : row < config.size) (hc : col < config.size) (v : Int) :
    isValidPlacement g row col v config = true ↔
      ∀ q ∈ allCells config.size, q ≠ (row, col) →
        sharesGroup q (row, col) config → cellD g q.1 q.2 ≠ v := by
  rw [isValidPlacement_parts, usedInRow_eq_false, usedInCol_eq_false, usedInBox_eq_false]
  constructor
  · rintro ⟨hrow, hcol, hbox⟩ ⟨q1, q2⟩ hq hne hsh hval
    rw [mem_allCells] at hq
    rcases hsh with h1 | h2 | h3
    · dsimp at h1; subst h1
      have hq2 : q2 ≠ col := fun he => hne (by rw [he])
      exact hrow q2 hq.2 hq2 hval
    · dsimp at h2; subst h2
      have hq1 : q1 ≠ row := fun he => hne (by rw [he])
      exact hcol q1 hq.1 hq1 hval
    · exact hbox (q1, q2) ((mem_boxCells hbh hbw).2 h3) hne hval
  · intro h
    refine ⟨?_, ?_, ?_⟩
    · intro c2 hc2 hne hval
      exact h (row, c2) (mem_allCells.2 ⟨hr, hc2⟩) (by simp [hne])
        (Or.inl rfl) hval
    · intro r2 hr2 hne hval
      exact h (r2, col) (mem_allCells.2 ⟨hr2, hc⟩) (by simp [hne])
        (Or.inr (Or.inl rfl)) hval
    · intro p hp hne hval
      have hsb := (mem_boxCells hbh hbw).1 hp
      have hb := sameBox_bounds hbh hbw hsz hr hc hsb
      exact h p (mem_allCells.2 ⟨hb.1, hb.2⟩) hne (Or.inr (Or.inr hsb)) hval

theorem cellD_setCell_self_of_dims {g : Grid} {n : Nat} (hd : gridDims g n)
    {r c : Nat} (hr : r < n) (hc : c < n) (v : Int) :
    cellD (setCell g r c v) r c = v := by
  have hrl : r < g.length := by rw [hd.1]; exact hr
  apply cellD_setCell_self
  · exact hrl
  · rw [List.getD_eq_getElem g [] hrl, hd.2 _ (List.getElem_mem hrl)]
    exact hc

theorem conflictFree_setCell {g : Grid} {config : GridConfig}
    (hbh : 0 < config.boxHeight) (hbw : 0 < config.boxWidth)
    (hsz : config.boxWidth * config.boxHeight = config.size)
    (hd : gridDims g config.size) (hcf : conflictFree g config)
    {r c : Nat} (hr : r < config.size) (hc : c < config.size)
    {v : Int} (hvalid : isValidPlacement g r c v config = true) :
    conflictFree (setCell g r c v) config := by
  intro p hp q hq hne hsh hnz
  rcases eq_or_ne p (r, c) with rfl | hpne
  · have hqne : q ≠ (r, c) := fun he => hne he.symm
    dsimp only at hnz ⊢
    rw [cellD_setCell_self_of_dims hd hr hc] at hnz ⊢
    rw [cellD_setCell_ne g r c v hqne]
    intro heq
    exact (isValidPlacement_iff hbh hbw hsz hr hc v).1 hvalid q hq hqne
      (sharesGroup_symm hsh) heq.symm
  · rw [cellD_setCell_ne g r c v hpne] at hnz ⊢
    rcases eq_or_ne q (r, c) with rfl | hqne
    · dsimp only
      rw [cellD_setCell_self_of_dims hd hr hc]
      exact (isValidPlacement_iff hbh hbw hsz hr hc v).1 hvalid p hp hpne hsh
    · rw [cellD_setCell_ne g r c v hqne]
      exact hcf p hp q hq hne hsh hnz

theorem wellFormed_setCell {g : Grid} {config : GridConfig}
    (hwf : wellFormed g config) (r c : Nat) {v : Int}
    (hv0 : 0 ≤ v) (hvm : v ≤ (config.maxValue : Int)) :
    wellFormed (setCell g r c v) config := by
  obtain ⟨hd, hvals⟩ := hwf
  refine ⟨gridDims_setCell r c v hd, ?_⟩
  intro r2 hr2 c2 hc2
  rcases eq_or_ne ((r2, c2) : Nat × Nat) (r, c) with he | hne
  · obtain ⟨rfl, rfl⟩ : r2 = r ∧ c2 = c := by simpa [Prod.mk.injEq] using he
    rw [cellD_setCell_self_of_dims hd hr2 hc2]
    exact ⟨hv0, hvm⟩
  · rw [cellD_setCell_ne g r c v hne]
    exact hvals r2 hr2 c2 hc2

theorem mem_vccPoints {row col : Nat} {config : GridConfig}
    (hbh : 0 < config.boxHeight) (hbw : 0 < config.boxWidth)
    (hsz : config.boxWidth * config.boxHeight = config.size)
    (hr : row < config.size) (hc : col < config.size)
    {q : (Nat × Nat) × String} (hq : q ∈ vccPoints row col config) :
    q.1 ∈ allCells config.size ∧ q.1 ≠ (row, col) ∧
      sharesGroup q.1 (row, col) config := by
  unfold vccPoints at hq
  rw [List.mem_append, List.mem_append] at hq
  rcases hq with (hq | hq) | hq
  · rw [List.mem_filterMap] at hq
    obtain ⟨c2, hc2, hfc⟩ := hq
    by_cases hne : c2 ≠ col
    · rw [if_pos hne] at hfc
      obtain rfl := (Option.some.inj hfc).symm
      refine ⟨mem_allCells.2 ⟨hr, List.mem_range.1 hc2⟩, ?_, Or.inl rfl⟩
      simp [hne]
    · rw [if_neg hne] at hfc
      exact Option.noConfusion hfc
  · rw [List.mem_filterMap] at hq
    obtain ⟨r2, hr2, hfc⟩ := hq
    by_cases hne : r2 ≠ row
    · rw [if_pos hne] at hfc
      obtain rfl := (Option.some.inj hfc).symm
      refine ⟨mem_allCells.2 ⟨List.mem_range.1 hr2, hc⟩, ?_, Or.inr (Or.inl rfl)⟩
      simp [hne]
    · rw [if_neg hne] at hfc
      exact Option.noConfusion hfc
  · rw [List.mem_filterMap] at hq
    obtain ⟨p, hp, hfc⟩ := hq
    by_cases hne : p ≠ (row, col)
    · rw [if_pos hne] at hfc
      obtain rfl := (Option.some.inj hfc).symm
      have hsb := (mem_boxCells hbh hbw).1 hp
      have hb := sameBox_bounds hbh hbw hsz hr hc hsb
      exact ⟨mem_allCells.2 ⟨hb.1, hb.2⟩, hne, Or.inr (Or.inr hsb)⟩
    · rw [if_neg hne] at hfc
      exact Option.noConfusion hfc

theorem vccPoints_cover {row col : Nat} {config : GridConfig}
    (hbh : 0 < config.boxHeight) (hbw : 0 < config.boxWidth)
    {p : Nat × Nat} (hp : p ∈ allCells config.size) (hne : p ≠ (row, col))
    (hsh : sharesGroup p (row, col) config) :
    ∃ ty, ((p, ty)) ∈ vccPoints row col config := by
  obtain ⟨p1, p2⟩ := p
  rw [mem_allCells] at hp
  unfold vccPoints
  rcases hsh with h1 | h2 | h3
  · dsimp only at h1; subst h1
    have hp2 : p2 ≠ col := fun he => hne (by rw [he])
    refine ⟨"row_conflict", ?_⟩
    rw [List.mem_append, List.mem_append]
    refine Or.inl (Or.inl ?_)
    rw [List.mem_filterMap]
    exact ⟨p2, List.mem_range.2 hp.2, by rw [if_pos hp2]⟩
  · dsimp only at h2; subst h2
    have hp1 : p1 ≠ row := fun he => hne (by rw [he])
    refine ⟨"column_conflict", ?_⟩
    rw [List.mem_append, List.mem_append]
    refine Or.inl (Or.inr ?_)
    rw [List.mem_filterMap]
    exact ⟨p1, List.mem_range.2 hp.1, by rw [if_pos hp1]⟩
  · refine ⟨"box_conflict", ?_⟩
    rw [List.mem_append, List.mem_append]
    refine Or.inr ?_
    rw [List.mem_filterMap]
    exact ⟨(p1, p2), (mem_boxCells hbh hbw).2 h3, by rw [if_pos hne]⟩

theorem vccScan_len_mono {g : Grid} {pos : Nat × Nat} {v : Int} :
    ∀ (pts : List ((Nat × Nat) × String)) (acc : List Conflict),
      acc.length ≤ (vccScan g pos v pts acc).1.length := by
  intro pts
  induction pts with
  | nil => intro acc; exact Nat.le_refl _
  | cons q rest ih =>
    intro acc
    obtain ⟨p, ty⟩ := q
    unfold vccScan
    cases hrc : readCell g p.1 p.2 with
    | error m => exact Nat.le_refl _
    | ok cv =>
      dsimp only
      by_cases hm : cv = some v
      · rw [if_pos hm]
        calc acc.length ≤ (acc ++ ([⟨ty, pos, some p, some v,
              conflictMessage ty pos.1 pos.2 v⟩] : List Conflict)).length := by
              rw [List.length_append]; omega
          _ ≤ _ := ih _
      · rw [if_neg hm]
        exact ih acc

theorem vccScan_spec {g : Grid} {pos : Nat × Nat} {v : Int} :
    ∀ (pts : List ((Nat × Nat) × String)),
      (∀ q ∈ pts, readCell g q.1.1 q.1.2 = .ok (some (cellD g q.1.1 q.1.2))) →
      ∀ acc, (vccScan g pos v pts acc).2 = false ∧
        ((vccScan g pos v pts acc).1 = acc ↔
          ∀ q ∈ pts, cellD g q.1.1 q.1.2 ≠ v) := by
  intro pts
  induction pts with
  | nil => intro _ acc; exact ⟨rfl, by simp [vccScan]⟩
  | cons q rest ih =>
    intro hok acc
    obtain ⟨p, ty⟩ := q
    have hokp : readCell g p.1 p.2 = .ok (some (cellD g p.1 p.2)) :=
      hok (p, ty) (List.mem_cons_self _ _)
    have hokrest : ∀ q ∈ rest, readCell g q.1.1 q.1.2 = .ok (some (cellD g q.1.1 q.1.2)) :=
      fun q hq => hok q (List.mem_cons_of_mem _ hq)
    unfold vccScan
    rw [hokp]
    dsimp only
    by_cases hm : cellD g p.1 p.2 = v
    · rw [if_pos (by rw [hm])]
      refine ⟨(ih hokrest _).1, ?_⟩
      constructor
      · intro heq
        have hlen := @vccScan_len_mono g pos v rest
          (acc ++ [⟨ty, pos, some p, some v, conflictMessage ty pos.1 pos.2 v⟩])
        rw [heq, List.length_append] at hlen
        simp at hlen
      · intro hall
        exact absurd hm (hall (p, ty) (List.mem_cons_self _ _))
    · rw [if_neg (by simpa using hm)]
      refine ⟨(ih hokrest acc).1, ?_⟩
      rw [(ih hokrest acc).2]
      constructor
      · intro hall q hq
        rcases List.mem_cons.1 hq with rfl | hq2
        · exact hm
        · exact hall q hq2
      · intro hall q hq
        exact hall q (List.mem_cons_of_mem _ hq)

theorem validateCellConstraints_empty_iff {g : Grid} {config : GridConfig}
    (hd : gridDims g config.size)
    (hbh : 0 < config.boxHeight) (hbw : 0 < config.boxWidth)
    (hsz : config.boxWidth * config.boxHeight = config.size)
    {row col : Nat} (hr : row < config.size) (hc : col < config.size)
    {v : Int} (hv : v ≠ 0) :
    validateCellConstraints g row col v config = [] ↔
      isValidPlacement g row col v config = true := by
  have hok : ∀ q ∈ vccPoints row col config,
      readCell g q.1.1 q.1.2 = .ok (some (cellD g q.1.1 q.1.2)) := by
    intro q hq
    have h1 := mem_vccPoints hbh hbw hsz hr hc hq
    have h2 := mem_allCells.1 h1.1
    exact readCell_of_dims hd h2.1 h2.2
  obtain ⟨hsc2, hsc1⟩ := @vccScan_spec g (row, col) v (vccPoints row col config) hok []
  have hval : validateCellConstraints g row col v config =
      (vccScan g (row, col) v (vccPoints row col config) []).1 := by
    unfold validateCellConstraints
    rw [if_neg hv]
    simp only [hsc2, Bool.false_eq_true, if_false]
  rw [hval, hsc1, isValidPlacement_iff hbh hbw hsz hr hc]
  constructor
  · intro h q hq hne hsh
    obtain ⟨ty, hty⟩ := vccPoints_cover hbh hbw hq hne hsh
    exact h ((q, ty)) hty
  · intro h q hq
    have h1 := mem_vccPoints hbh hbw hsz hr hc hq
    exact h q.1 h1.1 h1.2.1 h1.2.2
/-! ### Counting completions: membership and uniqueness structure of
`fillRow` / `fillGrid` (spec-side counting used by C5) -/

/-- One cell of a filling: an empty source cell takes any value
`1..maxValue`, a clue is kept. -/
def fillsVal (maxValue : Nat) (u w : Int) : Prop :=
  if u = 0 then 1 ≤ w ∧ w ≤ (maxValue : Int) else w = u

instance (maxValue : Nat) (u w : Int) : Decidable (fillsVal maxValue u w) := by
  unfold fillsVal; infer_instance

theorem valueList_eq (m : Nat) :
    (List.range m).map (fun i => (i + 1 : Int)) =
      (List.range m).map (fun (i : Nat) => ((i : Int) + 1)) := by
  show List.map _ (List.flatMap (List.range m) (pure ∘ fun a : Nat => (a : Int))) = _
  rw [List.flatMap_pure_eq_map, List.map_map]
  rfl

theorem candidateValues_eq (config : GridConfig) :
    candidateValues config =
      (List.range config.maxValue).map (fun (i : Nat) => ((i : Int) + 1)) := by
  unfold candidateValues
  exact valueList_eq _

theorem mem_candidateValues {config : GridConfig} {v : Int} :
    v ∈ candidateValues config ↔ 1 ≤ v ∧ v ≤ (config.maxValue : Int) := by
  rw [candidateValues_eq, List.mem_map]
  constructor
  · rintro ⟨i, hi, rfl⟩
    rw [List.mem_range] at hi
    omega
  · intro h
    exact ⟨(v - 1).toNat, List.mem_range.2 (by omega), by omega⟩

theorem nodup_candidateValues (config : GridConfig) : (candidateValues config).Nodup := by
  rw [candidateValues_eq]
  exact List.Nodup.map (fun a b h => by omega) (List.nodup_range _)

theorem mem_fillRow {m : Nat} : ∀ (r r2 : List Int),
    r2 ∈ fillRow m r ↔ List.Forall₂ (fillsVal m) r r2 := by
  intro r
  induction r with
  | nil =>
    intro r2
    simp [fillRow, List.forall₂_nil_left_iff, eq_comm]
  | cons u us ih =>
    intro r2
    unfold fillRow
    by_cases hu : u = 0
    · subst hu
      rw [if_pos rfl, valueList_eq]
      simp only [List.mem_flatMap, List.mem_map]
      constructor
      · rintro ⟨w, hw, t, ht, rfl⟩
        have hwb : 1 ≤ w ∧ w ≤ (m : Int) := by
          rcases hw with ⟨i, hi, rfl⟩
          rw [List.mem_range] at hi
          constructor
          · omega
          · omega
        refine List.Forall₂.cons ?_ ((ih t).1 ht)
        unfold fillsVal
        rw [if_pos rfl]
        exact hwb
      · intro h
        rcases List.forall₂_cons_left_iff.1 h with ⟨w, t, hw, ht, rfl⟩
        unfold fillsVal at hw
        rw [if_pos rfl] at hw
        refine ⟨w, ?_, t, (ih t).2 ht, rfl⟩
        exact ⟨(w - 1).toNat, List.mem_range.2 (by omega), by omega⟩
    · rw [if_neg hu]
      simp only [List.mem_map]
      constructor
      · rintro ⟨t, ht, rfl⟩
        refine List.Forall₂.cons ?_ ((ih t).1 ht)
        unfold fillsVal
        rw [if_neg hu]
      · intro h
        rcases List.forall₂_cons_left_iff.1 h with ⟨w, t, hw, ht, rfl⟩
        unfold fillsVal at hw
        rw [if_neg hu] at hw
        subst hw
        exact ⟨t, (ih t).2 ht, rfl⟩

theorem nodup_fillRow {m : Nat} : ∀ r : List Int, (fillRow m r).Nodup := by
  intro r
  induction r with
  | nil => simp [fillRow]
  | cons u us ih =>
    unfold fillRow
    by_cases hu : u = 0
    · subst hu
      rw [if_pos rfl, valueList_eq]
      rw [List.nodup_flatMap]
      constructor
      · intro w _
        exact List.Nodup.map (fun a b h => (List.cons.injEq _ _ _ _ ▸ h).2) ih
      · refine List.Pairwise.imp ?_
          (List.Nodup.map (fun a b h => by omega) (List.nodup_range _))
        intro w1 w2 hne x hx1 hx2
        rcases List.mem_map.1 hx1 with ⟨t1, _, rfl⟩
        rcases List.mem_map.1 hx2 with ⟨t2, _, he⟩
        exact hne (List.cons.injEq _ _ _ _ ▸ he).1.symm
    · rw [if_neg hu]
      exact List.Nodup.map (fun a b h => (List.cons.injEq _ _ _ _ ▸ h).2) ih

theorem mem_fillGrid {m : Nat} : ∀ (g g2 : Grid),
    g2 ∈ fillGrid m g ↔ List.Forall₂ (List.Forall₂ (fillsVal m)) g g2 := by
  intro g
  induction g with
  | nil =>
    intro g2
    simp [fillGrid, List.forall₂_nil_left_iff, eq_comm]
  | cons row rest ih =>
    intro g2
    unfold fillGrid
    simp only [List.mem_flatMap, List.mem_map]
    constructor
    · rintro ⟨row2, hrow2, t, ht, rfl⟩
      exact List.Forall₂.cons ((mem_fillRow row row2).1 hrow2) ((ih t).1 ht)
    · intro h
      rcases List.forall₂_cons_left_iff.1 h with ⟨row2, t, hrow2, ht, rfl⟩
      exact ⟨row2, (mem_fillRow row row2).2 hrow2, t, (ih t).2 ht, rfl⟩

theorem nodup_fillGrid {m : Nat} : ∀ g : Grid, (fillGrid m g).Nodup := by
  intro g
  induction g with
  | nil => simp [fillGrid]
  | cons row rest ih =>
    unfold fillGrid
    rw [List.nodup_flatMap]
    constructor
    · intro row2 _
      exact List.Nodup.map (fun a b h => (List.cons.injEq _ _ _ _ ▸ h).2) ih
    · refine List.Pairwise.imp ?_ (nodup_fillRow row)
      intro r1 r2 hne x hx1 hx2
      rcases List.mem_map.1 hx1 with ⟨t1, _, rfl⟩
      rcases List.mem_map.1 hx2 with ⟨t2, _, he⟩
      exact hne (List.cons.injEq _ _ _ _ ▸ he).1.symm

theorem cellD_eq_get {g : Grid} {r c : Nat} (h1 : r < g.length)
    (h2 : c < (g.get ⟨r, h1⟩).length) :
    cellD g r c = (g.get ⟨r, h1⟩).get ⟨c, h2⟩ := by
  unfold cellD
  rw [List.getD_eq_getElem g [] h1]
  exact List.getD_eq_getElem _ 0 h2

theorem fills_iff {m n : Nat} {g g2 : Grid} (hd : gridDims g n) :
    List.Forall₂ (List.Forall₂ (fillsVal m)) g g2 ↔
      (gridDims g2 n ∧ ∀ r, r < n → ∀ c, c < n →
        fillsVal m (cellD g r c) (cellD g2 r c)) := by
  constructor
  · intro h
    obtain ⟨hlen, hget⟩ := List.forall₂_iff_get.1 h
    have hlen2 : g2.length = n := by rw [← hlen]; exact hd.1
    have hrows2 : ∀ row ∈ g2, row.length = n := by
      intro row hrow
      obtain ⟨i, hi⟩ := List.mem_iff_get.1 hrow
      have hi1 : (i : Nat) < g.length := by rw [hlen]; exact i.isLt
      have h3 := hget i hi1 i.isLt
      rw [← hi, ← h3.length_eq]
      exact hd.2 _ (List.get_mem g _ _)
    refine ⟨⟨hlen2, hrows2⟩, ?_⟩
    intro r hr c hc
    have h1 : r < g.length := by rw [hd.1]; exact hr
    have h2 : r < g2.length := by rw [hlen2]; exact hr
    have hrow := hget r h1 h2
    have hc1 : c < (g.get ⟨r, h1⟩).length := by
      rw [hd.2 _ (List.get_mem g _ _)]; exact hc
    have hc2 : c < (g2.get ⟨r, h2⟩).length := by
      rw [← hrow.length_eq]; exact hc1
    have h4 := (List.forall₂_iff_get.1 hrow).2 c hc1 hc2
    rwa [← cellD_eq_get h1 hc1, ← cellD_eq_get h2 hc2] at h4
  · rintro ⟨hd2, hpos⟩
    rw [List.forall₂_iff_get]
    have hlen : g.length = g2.length := by rw [hd.1, hd2.1]
    refine ⟨hlen, ?_⟩
    intro i h1 h2
    rw [List.forall₂_iff_get]
    have hrl : (g.get ⟨i, h1⟩).length = n := hd.2 _ (List.get_mem g _ _)
    have hrl2 : (g2.get ⟨i, h2⟩).length = n := hd2.2 _ (List.get_mem g2 _ _)
    refine ⟨by rw [hrl, hrl2], ?_⟩
    intro c hc1 hc2
    have hin : i < n := by rw [← hd.1]; exact h1
    have hcn : c < n := by rw [← hrl]; exact hc1
    have h5 := hpos i hin c hcn
    rwa [cellD_eq_get h1 hc1, cellD_eq_get h2 hc2] at h5

theorem mem_completionsList {g g2 : Grid} {config : GridConfig} :
    g2 ∈ completionsList g config ↔
      g2 ∈ fillGrid config.maxValue g ∧ validTotalGrid g2 config := by
  unfold completionsList
  rw [List.mem_filter]
  simp

theorem nodup_completionsList (g : Grid) (config : GridConfig) :
    (completionsList g config).Nodup :=
  (nodup_fillGrid g).filter _

theorem fillRow_of_no_zero {m : Nat} :
    ∀ r : List Int, (∀ v ∈ r, v ≠ 0) → fillRow m r = [r] := by
  intro r
  induction r with
  | nil => intro _; rfl
  | cons u us ih =>
    intro h
    unfold fillRow
    rw [if_neg (h u (List.mem_cons_self _ _))]
    rw [ih (fun v hv => h v (List.mem_cons_of_mem _ hv))]
    rfl

theorem fillGrid_of_no_zero {m : Nat} :
    ∀ g : Grid, (∀ row ∈ g, ∀ v ∈ row, v ≠ 0) → fillGrid m g = [g] := by
  intro g
  induction g with
  | nil => intro _; rfl
  | cons row rest ih =>
    intro h
    unfold fillGrid
    rw [fillRow_of_no_zero row (h row (List.mem_cons_self _ _))]
    rw [ih (fun r hr => h r (List.mem_cons_of_mem _ hr))]
    rfl

theorem no_zero_entries {g : Grid} {n : Nat} (hd : gridDims g n)
    (h : ∀ p ∈ allCells n, cellD g p.1 p.2 ≠ 0) :
    ∀ row ∈ g, ∀ v ∈ row, v ≠ 0 := by
  intro row hrow v hv
  obtain ⟨i, hi⟩ := List.mem_iff_get.1 hrow
  subst hi
  obtain ⟨c, hc⟩ := List.mem_iff_get.1 hv
  subst hc
  have hin : (i : Nat) < n := by rw [← hd.1]; exact i.isLt
  have hcn : (c : Nat) < n := by
    rw [← hd.2 _ (List.get_mem g _ _)]; exact c.isLt
  have h2 := h (i, c) (mem_allCells.2 ⟨hin, hcn⟩)
  rwa [cellD_eq_get i.isLt c.isLt] at h2

theorem countEmpty_pos {g : Grid} {n : Nat} {p : Nat × Nat}
    (hp : p ∈ allCells n) (h0 : cellD g p.1 p.2 = 0) : 0 < countEmpty g n := by
  unfold countEmpty
  rw [List.length_pos]
  intro he
  have hmem : p ∈ List.filter (fun p => decide (cellD g p.1 p.2 = 0)) (allCells n) :=
    List.mem_filter.2 ⟨hp, by simp [h0]⟩
  rw [he] at hmem
  exact absurd hmem (List.not_mem_nil p)

theorem validTotalGrid_of_complete {g : Grid} {config : GridConfig}
    (hwf : wellFormed g config) (hcf : conflictFree g config)
    (hcomplete : ∀ p ∈ allCells config.size, cellD g p.1 p.2 ≠ 0) :
    validTotalGrid g config := by
  refine ⟨hwf.1, ?_, ?_⟩
  · intro p hp
    have hb := mem_allCells.1 hp
    have := hwf.2 p.1 hb.1 p.2 hb.2
    have hnz := hcomplete p hp
    omega
  · intro p hp q hq hne hsh
    exact hcf p hp q hq hne hsh (hcomplete p hp)

theorem numCompletions_of_complete {g : Grid} {config : GridConfig}
    (hwf : wellFormed g config) (hcf : conflictFree g config)
    (hcomplete : ∀ p ∈ allCells config.size, cellD g p.1 p.2 ≠ 0) :
    numCompletions g config = 1 := by
  unfold numCompletions completionsList
  rw [fillGrid_of_no_zero g (no_zero_entries hwf.1 hcomplete)]
  have hvalid := validTotalGrid_of_complete hwf hcf hcomplete
  simp [hvalid]

theorem fills_setCell_iff {g g2 : Grid} {config : GridConfig}
    (hd : gridDims g config.size)
    {row col : Nat} (hr : row < config.size) (hc : col < config.size)
    (h0 : cellD g row col = 0) {w : Int} (hw1 : 1 ≤ w)
    (hwm : w ≤ (config.maxValue : Int)) :
    List.Forall₂ (List.Forall₂ (fillsVal config.maxValue)) (setCell g row col w) g2 ↔
      (List.Forall₂ (List.Forall₂ (fillsVal config.maxValue)) g g2 ∧
        cellD g2 row col = w) := by
  have hw0 : w ≠ 0 := by omega
  rw [fills_iff (gridDims_setCell row col w hd), fills_iff hd]
  constructor
  · rintro ⟨hd2, hpos⟩
    have hcell := hpos row hr col hc
    rw [cellD_setCell_self_of_dims hd hr hc] at hcell
    unfold fillsVal at hcell
    rw [if_neg hw0] at hcell
    refine ⟨⟨hd2, ?_⟩, hcell⟩
    intro r hrn c hcn
    rcases eq_or_ne ((r, c) : Nat × Nat) (row, col) with he | hne
    · injection he with he1 he2
      rw [he1, he2, h0]
      unfold fillsVal
      rw [if_pos rfl, hcell]
      exact ⟨hw1, hwm⟩
    · have h5 := hpos r hrn c hcn
      rwa [cellD_setCell_ne g row col w hne] at h5
  · rintro ⟨⟨hd2, hpos⟩, hval⟩
    refine ⟨hd2, ?_⟩
    intro r hrn c hcn
    rcases eq_or_ne ((r, c) : Nat × Nat) (row, col) with he | hne
    · injection he with he1 he2
      rw [he1, he2, cellD_setCell_self_of_dims hd hr hc]
      unfold fillsVal
      rw [if_neg hw0]
      exact hval
    · rw [cellD_setCell_ne g row col w hne]
      exact hpos r hrn c hcn

theorem numCompletions_branch {g : Grid} {config : GridConfig}
    (hd : gridDims g config.size)
    {row col : Nat} (hr : row < config.size) (hc : col < config.size)
    (h0 : cellD g row col = 0) :
    numCompletions g config =
      ((candidateValues config).map
        (fun w => numCompletions (setCell g row col w) config)).sum := by
  have hcount : ∀ h : Grid, numCompletions h config =
      (completionsList h config).toFinset.card := by
    intro h
    unfold numCompletions
    rw [List.toFinset_card_of_nodup (nodup_completionsList h config)]
  have hset : (completionsList g config).toFinset =
      (candidateValues config).toFinset.biUnion
        (fun w => (completionsList (setCell g row col w) config).toFinset) := by
    ext g2
    simp only [List.mem_toFinset, Finset.mem_biUnion, mem_completionsList]
    constructor
    · rintro ⟨hfill, hvalid⟩
      have hfills := (mem_fillGrid g g2).1 hfill
      have hpo := ((fills_iff hd).1 hfills).2 row hr col hc
      rw [h0] at hpo
      unfold fillsVal at hpo
      rw [if_pos rfl] at hpo
      refine ⟨cellD g2 row col, mem_candidateValues.2 hpo, ?_, hvalid⟩
      rw [mem_fillGrid]
      exact (fills_setCell_iff hd hr hc h0 hpo.1 hpo.2).2 ⟨hfills, rfl⟩
    · rintro ⟨w, hwmem, hfill, hvalid⟩
      have hwb := mem_candidateValues.1 hwmem
      have h6 := (fills_setCell_iff hd hr hc h0 hwb.1 hwb.2).1 ((mem_fillGrid _ _).1 hfill)
      exact ⟨(mem_fillGrid g g2).2 h6.1, hvalid⟩
  have hdisj : ∀ w1 ∈ (candidateValues config).toFinset,
      ∀ w2 ∈ (candidateValues config).toFinset, w1 ≠ w2 →
        Disjoint (completionsList (setCell g row col w1) config).toFinset
          (completionsList (setCell g row col w2) config).toFinset := by
    intro w1 hw1 w2 hw2 hne
    rw [List.mem_toFinset] at hw1 hw2
    have hb1 := mem_candidateValues.1 hw1
    have hb2 := mem_candidateValues.1 hw2
    rw [Finset.disjoint_left]
    intro g2 hm1 hm2
    rw [List.mem_toFinset, mem_completionsList, mem_fillGrid] at hm1 hm2
    have e1 := ((fills_setCell_iff hd hr hc h0 hb1.1 hb1.2).1 hm1.1).2
    have e2 := ((fills_setCell_iff hd hr hc h0 hb2.1 hb2.2).1 hm2.1).2
    exact hne (by rw [← e1, ← e2])
  rw [hcount g, hset, Finset.card_biUnion hdisj]
  rw [← List.sum_toFinset _ (nodup_candidateValues config)]
  exact Finset.sum_congr rfl (fun w _ => (hcount _).symm)

theorem numCompletions_setCell_invalid {g : Grid} {config : GridConfig}
    (hd : gridDims g config.size)
    (hbh : 0 < config.boxHeight) (hbw : 0 < config.boxWidth)
    (hsz : config.boxWidth * config.boxHeight = config.size)
    {row col : Nat} (hr : row < config.size) (hc : col < config.size)
    {v : Int} (hv1 : 1 ≤ v) (hvm : v ≤ (config.maxValue : Int))
    (hinvalid : isValidPlacement g row col v config = false) :
    numCompletions (setCell g row col v) config = 0 := by
  have h0q : ∃ q ∈ allCells config.size, q ≠ (row, col) ∧
      sharesGroup q (row, col) config ∧ cellD g q.1 q.2 = v := by
    by_contra hno
    push_neg at hno
    have h7 : isValidPlacement g row col v config = true :=
      (isValidPlacement_iff hbh hbw hsz hr hc v).2
        (fun q hq hne hsh => hno q hq hne hsh)
    rw [hinvalid] at h7
    exact Bool.noConfusion h7
  obtain ⟨q, hq, hqne, hqsh, hqval⟩ := h0q
  unfold numCompletions
  rw [List.length_eq_zero]
  by_contra hnil
  obtain ⟨g2, hg2⟩ := List.exists_mem_of_ne_nil _ hnil
  rw [mem_completionsList, mem_fillGrid] at hg2
  obtain ⟨hfl, hvalid⟩ := hg2
  have hd2 := gridDims_setCell row col v hd
  have hpos := (fills_iff hd2).1 hfl
  have hqb := mem_allCells.1 hq
  have hvq : cellD g2 q.1 q.2 = v := by
    have h8 := hpos.2 q.1 hqb.1 q.2 hqb.2
    rw [cellD_setCell_ne g row col v hqne, hqval] at h8
    unfold fillsVal at h8
    rw [if_neg (by omega)] at h8
    exact h8
  have hvrc : cellD g2 row col = v := by
    have h9 := hpos.2 row hr col hc
    rw [cellD_setCell_self_of_dims hd hr hc] at h9
    unfold fillsVal at h9
    rw [if_neg (by omega)] at h9
    exact h9
  exact hvalid.2.2 q hq (row, col) (mem_allCells.2 ⟨hr, hc⟩) hqne hqsh
    (by rw [hvq, hvrc])

theorem countVals_counts {config : GridConfig}
    (hbh : 0 < config.boxHeight) (hbw : 0 < config.boxWidth)
    (hsz : config.boxWidth * config.boxHeight = config.size)
    {fuel m : Nat}
    (hrec : ∀ g1 acc1, wellFormed g1 config → conflictFree g1 config →
      countEmpty g1 config.size < fuel → acc1 ≤ m →
      (countSolutions fuel g1 config acc1 m).1 =
        min (acc1 + numCompletions g1 config) m)
    {g : Grid} (hwf : wellFormed g config) (hcf : conflictFree g config)
    {row col : Nat} (hr : row < config.size) (hc : col < config.size)
    (h0 : cellD g row col = 0)
    (hemp : countEmpty g config.size < fuel + 1) :
    ∀ vs : List Int, (∀ v ∈ vs, 1 ≤ v ∧ v ≤ (config.maxValue : Int)) →
      ∀ acc, acc ≤ m →
      (countVals (fun g1 acc1 => countSolutions fuel g1 config acc1 m)
          config m row col vs g acc).1 =
        min (acc + (vs.map
          (fun v => numCompletions (setCell g row col v) config)).sum) m := by
  intro vs
  induction vs with
  | nil =>
    intro _ acc hacc
    rw [List.map_nil, List.sum_nil, Nat.add_zero, Nat.min_eq_left hacc]
    rfl
  | cons v rest ih =>
    intro hb acc hacc
    obtain ⟨hv1, hvm⟩ := hb v (List.mem_cons_self _ _)
    have hbrest : ∀ w ∈ rest, 1 ≤ w ∧ w ≤ (config.maxValue : Int) :=
      fun w hw => hb w (List.mem_cons_of_mem _ hw)
    have hv0 : v ≠ 0 := by omega
    rw [List.map_cons, List.sum_cons]
    unfold countVals
    dsimp only
    by_cases hvalid : isValidPlacement g row col v config = true
    · rw [if_pos ((validateCellConstraints_empty_iff hwf.1 hbh hbw hsz hr hc
        hv0).2 hvalid)]
      have hwf2 := wellFormed_setCell hwf row col (by omega : (0 : Int) ≤ v) hvm
      have hcf2 := conflictFree_setCell hbh hbw hsz hwf.1 hcf hr hc hvalid
      have hparts := countEmpty_setCell_parts v hwf.1 hr hc
      rw [if_pos h0, if_neg hv0] at hparts
      have hemp2 : countEmpty (setCell g row col v) config.size < fuel := by omega
      have hrec1 := hrec (setCell g row col v) acc hwf2 hcf2 hemp2 hacc
      have hsnd := countSolutions_snd fuel (setCell g row col v) config acc m
      have hback : setCell
          (countSolutions fuel (setCell g row col v) config acc m).2 row col 0
            = g := by
        rw [hsnd, setCell_setCell, setCell_zero_of_empty h0]
      by_cases hcap :
          m ≤ (countSolutions fuel (setCell g row col v) config acc m).1
      · rw [if_pos hcap]
        dsimp only
        rw [hrec1] at hcap ⊢
        have h10 : m ≤ acc + numCompletions (setCell g row col v) config :=
          le_trans hcap (Nat.min_le_left _ _)
        rw [Nat.min_eq_right h10, Nat.min_eq_right (by omega)]
      · rw [if_neg hcap]
        rw [hback]
        have hlt : (countSolutions fuel (setCell g row col v) config acc m).1 < m :=
          Nat.lt_of_not_le hcap
        rw [ih hbrest _ (Nat.le_of_lt hlt)]
        rw [hrec1] at hlt ⊢
        have h11 : acc + numCompletions (setCell g row col v) config < m := by
          rcases Nat.lt_or_ge
            (acc + numCompletions (setCell g row col v) config) m with h12 | h12
          · exact h12
          · rw [Nat.min_eq_right h12] at hlt; omega
        rw [Nat.min_eq_left (Nat.le_of_lt h11)]
        omega
    · have hvfalse : isValidPlacement g row col v config = false :=
        Bool.eq_false_iff.2 hvalid
      rw [if_neg (fun hempty => hvalid
        ((validateCellConstraints_empty_iff hwf.1 hbh hbw hsz hr hc
          hv0).1 hempty))]
      rw [ih hbrest acc hacc]
      rw [numCompletions_setCell_invalid hwf.1 hbh hbw hsz hr hc hv1 hvm hvfalse]
      rw [Nat.zero_add]

theorem countSolutions_counts {config : GridConfig}
    (hbh : 0 < config.boxHeight) (hbw : 0 < config.boxWidth)
    (hsz : config.boxWidth * config.boxHeight = config.size) :
    ∀ fuel : Nat, ∀ g : Grid, ∀ acc m : Nat,
      wellFormed g config → conflictFree g config →
      countEmpty g config.size < fuel → acc ≤ m →
      (countSolutions fuel g config acc m).1 =
        min (acc + numCompletions g config) m := by
  intro fuel
  induction fuel with
  | zero =>
    intro g acc m _ _ hemp _
    exact absurd hemp (Nat.not_lt_zero _)
  | succ fuel ih =>
    intro g acc m hwf hcf hemp hacc
    unfold countSolutions
    by_cases hcap : m ≤ acc
    · rw [if_pos hcap, Nat.min_eq_right (by omega)]
      exact Nat.le_antisymm hacc hcap
    · rw [if_neg hcap]
      cases hf : findEmptyCell g config with
      | none =>
        dsimp only
        rw [numCompletions_of_complete hwf hcf (findEmptyCell_none_iff.1 hf)]
        rw [Nat.min_eq_left (by omega)]
      | some p =>
        obtain ⟨row, col⟩ := p
        have hsome := findEmptyCell_some hf
        have hrc := mem_allCells.1 hsome.1
        dsimp only
        rw [countVals_counts hbh hbw hsz
            (fun g1 acc1 h1 h2 h3 h4 => ih g1 acc1 m h1 h2 h3 h4)
            hwf hcf hrc.1 hrc.2 hsome.2 hemp
            (candidateValues config) (fun w hw => mem_candidateValues.1 hw)
            acc hacc]
        rw [← numCompletions_branch hwf.1 hrc.1 hrc.2 hsome.2]

/-- C5 (amended): for a well-formed and internally consistent grid of a
supported size, `checkUniqueness` reports `solutionCount` equal to the
minimum of the spec-side number of constraint-satisfying completions and the
cap `2`, and `hasUniqueSolution` exactly when that number is `1`.  The
consistency hypothesis is needed: `countSolutions` validates only the values
it places, never the given clues, so on a well-formed but conflicting grid
it miscounts (see the counterexample). -/
theorem checkUniqueness_counts_amended :
    ∀ (size : Nat) (config : GridConfig), gridConfigs size = some config →
    ∀ g : Grid, wellFormed g config → conflictFree g config →
      (checkUniqueness g size).solutionCount =
        min (numCompletions g config) 2 ∧
      ((checkUniqueness g size).hasUniqueSolution = true ↔
        numCompletions g config = 1) := by
  intro size config hcfg g hwf hcf
  obtain ⟨hbh, hbw, hsz, hszeq, hmax⟩ := config_facts hcfg
  have hemp : countEmpty g config.size < solverFuel config := by
    unfold solverFuel
    have h13 : countEmpty g config.size ≤ (allCells config.size).length :=
      List.length_filter_le _ _
    rw [length_allCells] at h13
    omega
  have h := countSolutions_counts hbh hbw hsz (solverFuel config) g 0 2 hwf hcf
    hemp (by omega)
  rw [Nat.zero_add] at h
  unfold checkUniqueness
  rw [hcfg]
  dsimp only
  rw [h]
  refine ⟨rfl, ?_⟩
  show decide (min (numCompletions g config) 2 = 1) = true ↔
    numCompletions g config = 1
  rw [decide_eq_true_eq]
  omega

/-- Witness for C5 at a 4×4 grid with a single empty corner cell, whose only
completion puts the missing `1` there. -/
theorem checkUniqueness_counts_amended_witness :
    gridConfigs 4 = some config4 ∧
    wellFormed [[0, 2, 3, 4], [3, 4, 1, 2], [2, 1, 4, 3], [4, 3, 2, 1]] config4 ∧
    conflictFree [[0, 2, 3, 4], [3, 4, 1, 2], [2, 1, 4, 3], [4, 3, 2, 1]] config4 ∧
    ((checkUniqueness [[0, 2, 3, 4], [3, 4, 1, 2], [2, 1, 4, 3], [4, 3, 2, 1]]
          4).solutionCount =
        min (numCompletions
          [[0, 2, 3, 4], [3, 4, 1, 2], [2, 1, 4, 3], [4, 3, 2, 1]] config4) 2 ∧
      ((checkUniqueness [[0, 2, 3, 4], [3, 4, 1, 2], [2, 1, 4, 3], [4, 3, 2, 1]]
            4).hasUniqueSolution = true ↔
        numCompletions
          [[0, 2, 3, 4], [3, 4, 1, 2], [2, 1, 4, 3], [4, 3, 2, 1]] config4 = 1)) :=
  ⟨rfl, by decide, by decide,
    checkUniqueness_counts_amended 4 config4 rfl
      [[0, 2, 3, 4], [3, 4, 1, 2], [2, 1, 4, 3], [4, 3, 2, 1]]
      (by decide) (by decide)⟩

/-- C5 counterexample: the all-ones 4×4 grid is well-formed (every entry in
`0..4`), and `checkUniqueness` reports a unique solution for it, yet it has
no constraint-satisfying completion at all — `countSolutions` finds no empty
cell and records the conflicting clue grid itself as a solution without ever
validating the clues. -/
theorem checkUniqueness_miscounts_conflicted_grid :
    wellFormed [[1, 1, 1, 1], [1, 1, 1, 1], [1, 1, 1, 1], [1, 1, 1, 1]] config4 ∧
    (checkUniqueness [[1, 1, 1, 1], [1, 1, 1, 1], [1, 1, 1, 1], [1, 1, 1, 1]]
        4).hasUniqueSolution = true ∧
    (checkUniqueness [[1, 1, 1, 1], [1, 1, 1, 1], [1, 1, 1, 1], [1, 1, 1, 1]]
        4).solutionCount = 1 ∧
    numCompletions [[1, 1, 1, 1], [1, 1, 1, 1], [1, 1, 1, 1], [1, 1, 1, 1]]
      config4 = 0 := by
  decide

/-! ### Invariants of the generator: constraint propagation and
backtracking preserve well-formedness and internal consistency (C6) -/

/-- All domain values lie in `1..maxValue`. -/
def domainsSub (d : Domains) (config : GridConfig) : Prop :=
  ∀ r c : Nat, ∀ v ∈ d r c, 1 ≤ v ∧ v ≤ (config.maxValue : Int)

theorem domainsSub_initial (config : GridConfig) :
    domainsSub (initializeDomains config) config :=
  fun _ _ v hv => mem_candidateValues.1 hv

theorem domainsSub_update {g : Grid} {d : Domains} {config : GridConfig}
    (row col : Nat) (hds : domainsSub d config) :
    domainsSub (updateDomainConstraints row col g d config) config := by
  intro r c v hv
  unfold updateDomainConstraints at hv
  by_cases hrc : r = row ∧ c = col
  · rw [if_pos hrc] at hv
    exact hds row col v (List.mem_filter.1 hv).1
  · rw [if_neg hrc] at hv
    exact hds r c v hv

theorem domainsSub_clear {d : Domains} {config : GridConfig} (p : Nat × Nat)
    (hds : domainsSub d config) : domainsSub (clearDomain d p) config := by
  intro r c v hv
  unfold clearDomain at hv
  by_cases hrc : r = p.1 ∧ c = p.2
  · rw [if_pos hrc] at hv
    exact absurd hv (List.not_mem_nil v)
  · rw [if_neg hrc] at hv
    exact hds r c v hv

theorem domainsSub_propagate {d : Domains} {config : GridConfig}
    (row col : Nat) (value : Int) (hds : domainsSub d config) :
    domainsSub (propagateAssignment row col value d config) config := by
  intro r c v hv
  unfold propagateAssignment at hv
  split_ifs at hv with h
  · exact hds r c v (List.mem_filter.1 hv).1
  · exact hds r c v hv

theorem updateDomain_survivor {g : Grid} {d : Domains} {config : GridConfig}
    {row col : Nat} {v : Int} (hv : v ≠ 0)
    (hmem : v ∈ updateDomainConstraints row col g d config row col) :
    v ∈ d row col ∧ isValidPlacement g row col v config = true := by
  unfold updateDomainConstraints at hmem
  rw [if_pos ⟨rfl, rfl⟩] at hmem
  obtain ⟨hmem, hpred⟩ := List.mem_filter.1 hmem
  refine ⟨hmem, ?_⟩
  rw [Bool.not_eq_true', Bool.or_eq_false_iff, Bool.or_eq_false_iff] at hpred
  obtain ⟨⟨hA, hB⟩, hC⟩ := hpred
  rw [isValidPlacement_parts]
  refine ⟨?_, ?_, ?_⟩
  · rw [usedInRow_eq_false]
    intro c2 hc2 hne hval
    rw [List.any_eq_false] at hA
    exact hA c2 (List.mem_range.2 hc2) (by simp [hne, hval, hv])
  · rw [usedInCol_eq_false]
    intro r2 hr2 hne hval
    rw [List.any_eq_false] at hB
    exact hB r2 (List.mem_range.2 hr2) (by simp [hne, hval, hv])
  · rw [usedInBox_eq_false]
    intro p hp hne hval
    rw [List.any_eq_false] at hC
    exact hC p hp (by simp [hne, hval, hv])

theorem propagationStep_inv {config : GridConfig}
    (hbh : 0 < config.boxHeight) (hbw : 0 < config.boxWidth)
    (hsz : config.boxWidth * config.boxHeight = config.size)
    {p : Nat × Nat} (hp : p ∈ allCells config.size)
    {g : Grid} {d : Domains} {changed : Bool}
    (hwf : wellFormed g config) (hcf : conflictFree g config)
    (hds : domainsSub d config) :
    wellFormed (propagationStep config p (g, d, changed)).1.1 config ∧
    conflictFree (propagationStep config p (g, d, changed)).1.1 config ∧
    domainsSub (propagationStep config p (g, d, changed)).1.2.1 config := by
  have hpb := mem_allCells.1 hp
  unfold propagationStep
  dsimp only
  by_cases hz : cellD g p.1 p.2 = 0
  · rw [if_pos hz]
    have hds1 := domainsSub_update (g := g) p.1 p.2 hds
    by_cases h0 : (updateDomainConstraints p.1 p.2 g d config p.1 p.2).length = 0
    · rw [if_pos h0]
      exact ⟨hwf, hcf, hds1⟩
    · rw [if_neg h0]
      by_cases h1 : (updateDomainConstraints p.1 p.2 g d config p.1 p.2).length = 1
      · rw [if_pos h1]
        obtain ⟨x, hx⟩ := List.length_eq_one.1 h1
        have hxmem : x ∈ updateDomainConstraints p.1 p.2 g d config p.1 p.2 := by
          rw [hx]; exact List.mem_singleton.2 rfl
        have hxb := hds1 p.1 p.2 x hxmem
        have hx0 : x ≠ 0 := by omega
        have hsurv := updateDomain_survivor hx0 hxmem
        have hhead : (updateDomainConstraints p.1 p.2 g d config p.1 p.2).headD 0 = x := by
          rw [hx]; rfl
        rw [hhead]
        refine ⟨wellFormed_setCell hwf p.1 p.2 (by omega) hxb.2, ?_, ?_⟩
        · exact conflictFree_setCell hbh hbw hsz hwf.1 hcf hpb.1 hpb.2 hsurv.2
        · exact domainsSub_clear p hds1
      · rw [if_neg h1]
        exact ⟨hwf, hcf, hds1⟩
  · rw [if_neg hz]
    exact ⟨hwf, hcf, hds⟩

theorem propagationPass_inv {config : GridConfig}
    (hbh : 0 < config.boxHeight) (hbw : 0 < config.boxWidth)
    (hsz : config.boxWidth * config.boxHeight = config.size) :
    ∀ cells : List (Nat × Nat), (∀ p ∈ cells, p ∈ allCells config.size) →
    ∀ st : Grid × Domains × Bool,
      wellFormed st.1 config → conflictFree st.1 config →
      domainsSub st.2.1 config →
      wellFormed (propagationPass config cells st).1.1 config ∧
      conflictFree (propagationPass config cells st).1.1 config ∧
      domainsSub (propagationPass config cells st).1.2.1 config := by
  intro cells
  induction cells with
  | nil =>
    intro _ st hwf hcf hds
    exact ⟨hwf, hcf, hds⟩
  | cons p rest ih =>
    intro hc st hwf hcf hds
    obtain ⟨g, d, changed⟩ := st
    dsimp only at hwf hcf hds
    have hstep := @propagationStep_inv config hbh hbw hsz p
      (hc p (List.mem_cons_self _ _)) g d changed hwf hcf hds
    unfold propagationPass
    dsimp only
    by_cases hcont : (propagationStep config p (g, d, changed)).2 = true
    · rw [if_pos hcont]
      have h2 := ih (fun q hq => hc q (List.mem_cons_of_mem _ hq))
        (propagationStep config p (g, d, changed)).1 hstep.1 hstep.2.1 hstep.2.2
      exact h2
    · rw [if_neg hcont]
      exact hstep

theorem applyConstraintPropagation_inv {config : GridConfig}
    (hbh : 0 < config.boxHeight) (hbw : 0 < config.boxWidth)
    (hsz : config.boxWidth * config.boxHeight = config.size) :
    ∀ (fuel : Nat) (g : Grid) (d : Domains),
      wellFormed g config → conflictFree g config → domainsSub d config →
      wellFormed (applyConstraintPropagation fuel g d config).2.1 config ∧
      conflictFree (applyConstraintPropagation fuel g d config).2.1 config ∧
      domainsSub (applyConstraintPropagation fuel g d config).2.2 config := by
  intro fuel
  induction fuel with
  | zero =>
    intro g d hwf hcf hds
    exact ⟨hwf, hcf, hds⟩
  | succ fuel ih =>
    intro g d hwf hcf hds
    have hpass := propagationPass_inv hbh hbw hsz (allCells config.size)
      (fun p hp => hp) (g, d, false) hwf hcf hds
    unfold applyConstraintPropagation
    dsimp only
    by_cases hab : (propagationPass config (allCells config.size) (g, d, false)).2 = true
    · rw [if_neg (by rw [hab]; exact Bool.noConfusion)]
      by_cases hch :
          (propagationPass config (allCells config.size) (g, d, false)).1.2.2 = true
      · rw [if_pos hch]
        exact ih _ _ hpass.1 hpass.2.1 hpass.2.2
      · rw [if_neg hch]
        exact hpass
    · rw [if_pos (by rw [Bool.eq_false_iff.2 hab]; rfl)]
      exact hpass

theorem suv_some {g : Grid} {d : Domains} {config : GridConfig} {p : Nat × Nat}
    (h : selectUnassignedVariable g d config = some p) :
    p ∈ allCells config.size ∧ cellD g p.1 p.2 = 0 := by
  unfold selectUnassignedVariable at h
  rw [Option.map_eq_some'] at h
  obtain ⟨q, hq, rfl⟩ := h
  suffices H : ∀ (cells : List (Nat × Nat)) (st : Option ((Nat × Nat) × Nat)),
      (∀ x ∈ cells, x ∈ allCells config.size) →
      (∀ q0 : (Nat × Nat) × Nat, st = some q0 →
        q0.1 ∈ allCells config.size ∧ cellD g q0.1.1 q0.1.2 = 0) →
      ∀ q0 : (Nat × Nat) × Nat,
        cells.foldl (fun best x =>
          if cellD g x.1 x.2 = 0 then
            match best with
            | none => some (x, (d x.1 x.2).length)
            | some q1 =>
              if (d x.1 x.2).length < q1.2 then some (x, (d x.1 x.2).length)
              else best
          else best) st = some q0 →
        q0.1 ∈ allCells config.size ∧ cellD g q0.1.1 q0.1.2 = 0 by
    exact H (allCells config.size) none (fun x hx => hx)
      (fun q0 h0 => Option.noConfusion h0) q hq
  intro cells
  induction cells with
  | nil =>
    intro st _ hst q0 h0
    exact hst q0 h0
  | cons x rest ih =>
    intro st hc hst q0 h0
    rw [List.foldl_cons] at h0
    refine ih _ (fun y hy => hc y (List.mem_cons_of_mem _ hy)) ?_ q0 h0
    intro q1 h1
    by_cases hz : cellD g x.1 x.2 = 0
    · rw [if_pos hz] at h1
      cases st with
      | none =>
        dsimp only at h1
        obtain rfl := (Option.some.inj h1).symm
        exact ⟨hc x (List.mem_cons_self _ _), hz⟩
      | some q2 =>
        dsimp only at h1
        by_cases hlt : (d x.1 x.2).length < q2.2
        · rw [if_pos hlt] at h1
          obtain rfl := (Option.some.inj h1).symm
          exact ⟨hc x (List.mem_cons_self _ _), hz⟩
        · rw [if_neg hlt] at h1
          exact hst q1 h1
    · rw [if_neg hz] at h1
      exact hst q1 h1

theorem suv_none {g : Grid} {d : Domains} {config : GridConfig}
    (h : selectUnassignedVariable g d config = none) :
    ∀ p ∈ allCells config.size, cellD g p.1 p.2 ≠ 0 := by
  unfold selectUnassignedVariable at h
  rw [Option.map_eq_none'] at h
  suffices H : ∀ (cells : List (Nat × Nat)) (st : Option ((Nat × Nat) × Nat)),
      cells.foldl (fun best x =>
        if cellD g x.1 x.2 = 0 then
          match best with
          | none => some (x, (d x.1 x.2).length)
          | some q1 =>
            if (d x.1 x.2).length < q1.2 then some (x, (d x.1 x.2).length)
            else best
        else best) st = none →
      st = none ∧ ∀ x ∈ cells, cellD g x.1 x.2 ≠ 0 by
    exact (H (allCells config.size) none h).2
  intro cells
  induction cells with
  | nil =>
    intro st h0
    exact ⟨h0, fun x hx => absurd hx (List.not_mem_nil x)⟩
  | cons x rest ih =>
    intro st h0
    rw [List.foldl_cons] at h0
    obtain ⟨hstep, hrest⟩ := ih _ h0
    by_cases hz : cellD g x.1 x.2 = 0
    · rw [if_pos hz] at hstep
      exfalso
      cases st with
      | none => exact Option.noConfusion hstep
      | some q2 =>
        dsimp only at hstep
        by_cases hlt : (d x.1 x.2).length < q2.2
        · rw [if_pos hlt] at hstep
          exact Option.noConfusion hstep
        · rw [if_neg hlt] at hstep
          exact Option.noConfusion hstep
    · rw [if_neg hz] at hstep
      refine ⟨hstep, ?_⟩
      intro y hy
      rcases List.mem_cons.1 hy with rfl | hy2
      · exact hz
      · exact hrest y hy2

theorem backtrackVals_inv {config : GridConfig}
    (hbh : 0 < config.boxHeight) (hbw : 0 < config.boxWidth)
    (hsz : config.boxWidth * config.boxHeight = config.size)
    {recurF : Grid → Domains → Option Grid}
    (hrec : ∀ (g1 : Grid) (d1 : Domains),
      wellFormed g1 config → conflictFree g1 config → domainsSub d1 config →
      ∀ g2, recurF g1 d1 = some g2 →
        wellFormed g2 config ∧ conflictFree g2 config ∧
          ∀ p ∈ allCells config.size, cellD g2 p.1 p.2 ≠ 0)
    {g : Grid} {d : Domains}
    (hwf : wellFormed g config) (hcf : conflictFree g config)
    (hds : domainsSub d config)
    {row col : Nat} (hr : row < config.size) (hc : col < config.size) :
    ∀ vs : List Int, (∀ v ∈ vs, 1 ≤ v ∧ v ≤ (config.maxValue : Int)) →
      ∀ g2, backtrackValsWith recurF g d config row col vs = some g2 →
        wellFormed g2 config ∧ conflictFree g2 config ∧
          ∀ p ∈ allCells config.size, cellD g2 p.1 p.2 ≠ 0 := by
  intro vs
  induction vs with
  | nil =>
    intro _ g2 h
    exact Option.noConfusion h
  | cons v rest ih =>
    intro hb g2 h
    obtain ⟨hv1, hvm⟩ := hb v (List.mem_cons_self _ _)
    have hbrest : ∀ w ∈ rest, 1 ≤ w ∧ w ≤ (config.maxValue : Int) :=
      fun w hw => hb w (List.mem_cons_of_mem _ hw)
    unfold backtrackValsWith at h
    by_cases hvalid : isValidPlacement g row col v config = true
    · rw [if_pos hvalid] at h
      have hwf2 := wellFormed_setCell hwf row col (by omega : (0 : Int) ≤ v) hvm
      have hcf2 := conflictFree_setCell hbh hbw hsz hwf.1 hcf hr hc hvalid
      have hds2 := domainsSub_propagate row col v hds
      cases hcall : recurF (setCell g row col v)
          (propagateAssignment row col v d config) with
      | some g3 =>
        rw [hcall] at h
        obtain rfl := (Option.some.inj h).symm
        exact hrec _ _ hwf2 hcf2 hds2 g2 (by rw [hcall])
      | none =>
        rw [hcall] at h
        exact ih hbrest g2 h
    · rw [if_neg hvalid] at h
      exact ih hbrest g2 h

theorem backtrackFill_inv {config : GridConfig}
    (hbh : 0 < config.boxHeight) (hbw : 0 < config.boxWidth)
    (hsz : config.boxWidth * config.boxHeight = config.size)
    (shuffle : List Int → List Int)
    (hsh : ∀ l : List Int, ∀ v ∈ shuffle l, v ∈ l) :
    ∀ (fuel : Nat) (g : Grid) (d : Domains),
      wellFormed g config → conflictFree g config → domainsSub d config →
      ∀ g2, backtrackFill fuel g d config shuffle = some g2 →
        wellFormed g2 config ∧ conflictFree g2 config ∧
          ∀ p ∈ allCells config.size, cellD g2 p.1 p.2 ≠ 0 := by
  intro fuel
  induction fuel with
  | zero =>
    intro g d _ _ _ g2 h
    exact Option.noConfusion h
  | succ fuel ih =>
    intro g d hwf hcf hds g2 h
    unfold backtrackFill at h
    cases hs : selectUnassignedVariable g d config with
    | none =>
      rw [hs] at h
      obtain rfl := (Option.some.inj h).symm
      exact ⟨hwf, hcf, suv_none hs⟩
    | some p =>
      rw [hs] at h
      obtain ⟨row, col⟩ := p
      have hmem := suv_some hs
      have hrc := mem_allCells.1 hmem.1
      exact backtrackVals_inv hbh hbw hsz
        (fun g1 d1 h1 h2 h3 => ih g1 d1 h1 h2 h3)
        hwf hcf hds hrc.1 hrc.2 (shuffle (d row col))
        (fun w hw => hds row col w (hsh _ w hw)) g2 h

theorem cellD_createEmptyGrid (n r c : Nat) : cellD (createEmptyGrid n) r c = 0 := by
  unfold cellD createEmptyGrid
  rw [List.getD_eq_getElem?_getD (List.replicate n (List.replicate n (0 : Int))),
    List.getElem?_replicate]
  split_ifs with h1
  · show (List.replicate n (0 : Int)).getD c 0 = 0
    rw [List.getD_eq_getElem?_getD, List.getElem?_replicate]
    split_ifs with h2
    · rfl
    · rfl
  · rfl

theorem generateCompleteSolution_inv {config : GridConfig}
    (hbh : 0 < config.boxHeight) (hbw : 0 < config.boxWidth)
    (hsz : config.boxWidth * config.boxHeight = config.size)
    (pfuel bfuel : Nat) (shuffle : List Int → List Int)
    (hsh : ∀ l : List Int, ∀ v ∈ shuffle l, v ∈ l)
    (g2 : Grid) (h : generateCompleteSolution pfuel bfuel config shuffle = some g2) :
    wellFormed g2 config ∧ conflictFree g2 config ∧
      ∀ p ∈ allCells config.size, cellD g2 p.1 p.2 ≠ 0 := by
  unfold generateCompleteSolution at h
  dsimp only at h
  have hwf0 : wellFormed (createEmptyGrid config.size) config := by
    constructor
    · constructor
      · exact List.length_replicate _ _
      · intro row hrow
        rw [List.eq_of_mem_replicate hrow]
        exact List.length_replicate _ _
    · intro r hr c hc
      rw [cellD_createEmptyGrid]
      constructor
      · exact le_refl 0
      · exact Int.natCast_nonneg _
  have hcf0 : conflictFree (createEmptyGrid config.size) config := by
    intro p hp q hq hne hsh2 hnz
    exact absurd (cellD_createEmptyGrid config.size p.1 p.2) hnz
  have hprop := applyConstraintPropagation_inv hbh hbw hsz pfuel
    (createEmptyGrid config.size) (initializeDomains config) hwf0 hcf0
    (domainsSub_initial config)
  exact backtrackFill_inv hbh hbw hsz shuffle hsh bfuel _ _
    hprop.1 hprop.2.1 hprop.2.2 g2 h

/-! ### Each value exactly once per group on complete consistent grids -/

theorem group_values_nodup {g : Grid} {config : GridConfig}
    (hcf : conflictFree g config)
    (hcomplete : ∀ p ∈ allCells config.size, cellD g p.1 p.2 ≠ 0)
    {grp : List (Nat × Nat)} (hnd : grp.Nodup)
    (hsub : ∀ p ∈ grp, p ∈ allCells config.size)
    (hshare : ∀ p ∈ grp, ∀ q ∈ grp, p ≠ q → sharesGroup p q config) :
    (grp.map (fun p => cellD g p.1 p.2)).Nodup := by
  refine List.Nodup.map_on ?_ hnd
  intro x hx y hy heq
  by_contra hne
  exact hcf x (hsub x hx) y (hsub y hy) hne (hshare x hx y hy hne)
    (hcomplete x (hsub x hx)) heq

theorem group_count_one {g : Grid} {config : GridConfig}
    (hwf : wellFormed g config) (hcf : conflictFree g config)
    (hcomplete : ∀ p ∈ allCells config.size, cellD g p.1 p.2 ≠ 0)
    {grp : List (Nat × Nat)} (hlen : grp.length = config.size) (hnd : grp.Nodup)
    (hsub : ∀ p ∈ grp, p ∈ allCells config.size)
    (hshare : ∀ p ∈ grp, ∀ q ∈ grp, p ≠ q → sharesGroup p q config)
    (hmaxeq : config.maxValue = config.size) :
    ∀ v ∈ candidateValues config,
      (grp.map (fun p => cellD g p.1 p.2)).count v = 1 := by
  have hndl := group_values_nodup hcf hcomplete hnd hsub hshare
  have hbounds : ∀ x ∈ grp.map (fun p => cellD g p.1 p.2),
      1 ≤ x ∧ x ≤ (config.maxValue : Int) := by
    intro x hx
    rcases List.mem_map.1 hx with ⟨p, hp, rfl⟩
    have hb := mem_allCells.1 (hsub p hp)
    have h1 := hwf.2 p.1 hb.1 p.2 hb.2
    have h2 := hcomplete p (hsub p hp)
    omega
  have hlenl : (grp.map (fun p => cellD g p.1 p.2)).length = config.size := by
    rw [List.length_map, hlen]
  have hsubF : (grp.map (fun p => cellD g p.1 p.2)).toFinset ⊆
      Finset.Icc (1 : Int) (config.maxValue : Int) := by
    intro x hx
    exact Finset.mem_Icc.2 (hbounds x (List.mem_toFinset.1 hx))
  have hcard : (grp.map (fun p => cellD g p.1 p.2)).toFinset.card = config.size := by
    rw [List.toFinset_card_of_nodup hndl, hlenl]
  have hIccCard : (Finset.Icc (1 : Int) (config.maxValue : Int)).card
      = config.maxValue := by
    rw [Int.card_Icc]
    omega
  have heq : (grp.map (fun p => cellD g p.1 p.2)).toFinset =
      Finset.Icc (1 : Int) (config.maxValue : Int) :=
    Finset.eq_of_subset_of_card_le hsubF (by rw [hcard, hIccCard, hmaxeq])
  intro v hv
  have hvb := mem_candidateValues.1 hv
  have hvmem : v ∈ grp.map (fun p => cellD g p.1 p.2) := by
    rw [← List.mem_toFinset, heq]
    exact Finset.mem_Icc.2 hvb
  exact List.count_eq_one_of_mem hndl hvmem

theorem allGroups_props {config : GridConfig}
    (hbh : 0 < config.boxHeight) (hbw : 0 < config.boxWidth)
    (hsz : config.boxWidth * config.boxHeight = config.size) :
    ∀ grp ∈ allGroups config,
      grp.length = config.size ∧ grp.Nodup ∧
      (∀ p ∈ grp, p ∈ allCells config.size) ∧
      (∀ p ∈ grp, ∀ q ∈ grp, p ≠ q → sharesGroup p q config) := by
  intro grp hgrp
  unfold allGroups at hgrp
  rw [List.mem_append, List.mem_append] at hgrp
  rcases hgrp with (hgrp | hgrp) | hgrp
  · rcases List.mem_map.1 hgrp with ⟨r, hr, rfl⟩
    rw [List.mem_range] at hr
    refine ⟨by simp, ?_, ?_, ?_⟩
    · exact List.Nodup.map (fun a b h => (Prod.mk.injEq _ _ _ _ ▸ h).2)
        (List.nodup_range _)
    · intro p hp
      rcases List.mem_map.1 hp with ⟨c, hc, rfl⟩
      exact mem_allCells.2 ⟨hr, List.mem_range.1 hc⟩
    · intro p hp q hq _
      rcases List.mem_map.1 hp with ⟨c1, _, rfl⟩
      rcases List.mem_map.1 hq with ⟨c2, _, rfl⟩
      exact Or.inl rfl
  · rcases List.mem_map.1 hgrp with ⟨c, hc, rfl⟩
    rw [List.mem_range] at hc
    refine ⟨by simp, ?_, ?_, ?_⟩
    · exact List.Nodup.map (fun a b h => (Prod.mk.injEq _ _ _ _ ▸ h).1)
        (List.nodup_range _)
    · intro p hp
      rcases List.mem_map.1 hp with ⟨r, hr, rfl⟩
      exact mem_allCells.2 ⟨List.mem_range.1 hr, hc⟩
    · intro p hp q hq _
      rcases List.mem_map.1 hp with ⟨r1, _, rfl⟩
      rcases List.mem_map.1 hq with ⟨r2, _, rfl⟩
      exact Or.inr (Or.inl rfl)
  · rcases List.mem_map.1 hgrp with ⟨s, hs, rfl⟩
    unfold boxStarts at hs
    rw [List.mem_flatMap] at hs
    obtain ⟨i, hi, hs⟩ := hs
    rcases List.mem_map.1 hs with ⟨j, hj, rfl⟩
    rw [List.mem_range] at hi hj
    have hdivh : config.size / config.boxHeight = config.boxWidth := by
      rw [← hsz, Nat.mul_div_cancel _ hbh]
    have hdivw : config.size / config.boxWidth = config.boxHeight := by
      rw [← hsz, Nat.mul_comm, Nat.mul_div_cancel _ hbw]
    rw [hdivh] at hi
    rw [hdivw] at hj
    have hcell1 : ∀ a, a < config.boxHeight →
        i * config.boxHeight + a < config.size := by
      intro a ha
      have h1 : (i + 1) * config.boxHeight ≤ config.boxWidth * config.boxHeight :=
        Nat.mul_le_mul_right _ (by omega)
      rw [Nat.succ_mul] at h1
      omega
    have hcell2 : ∀ b, b < config.boxWidth →
        j * config.boxWidth + b < config.size := by
      intro b hb
      have h1 : (j + 1) * config.boxWidth ≤ config.boxHeight * config.boxWidth :=
        Nat.mul_le_mul_right _ (by omega)
      rw [Nat.succ_mul, Nat.mul_comm config.boxHeight config.boxWidth] at h1
      omega
    have hdiv1 : ∀ a, a < config.boxHeight →
        ((i * config.boxHeight, j * config.boxWidth).1 + a) / config.boxHeight = i := by
      intro a ha
      show (i * config.boxHeight + a) / config.boxHeight = i
      rw [Nat.mul_comm i config.boxHeight, Nat.mul_add_div hbh,
        Nat.div_eq_of_lt ha, Nat.add_zero]
    have hdiv2 : ∀ b, b < config.boxWidth →
        ((i * config.boxHeight, j * config.boxWidth).2 + b) / config.boxWidth = j := by
      intro b hb
      show (j * config.boxWidth + b) / config.boxWidth = j
      rw [Nat.mul_comm j config.boxWidth, Nat.mul_add_div hbw,
        Nat.div_eq_of_lt hb, Nat.add_zero]
    refine ⟨?_, ?_, ?_, ?_⟩
    · rw [List.length_flatMap]
      simp only [Function.comp_def, List.length_map, List.length_range,
        List.map_const', List.sum_replicate, smul_eq_mul]
      rw [Nat.mul_comm]
      exact hsz
    · rw [List.nodup_flatMap]
      constructor
      · intro a _
        refine List.Nodup.map ?_ (List.nodup_range _)
        intro b1 b2 hb
        have := (Prod.mk.injEq _ _ _ _ ▸ hb).2
        omega
      · refine List.Pairwise.imp ?_ (List.nodup_range _)
        intro a1 a2 hne x hx1 hx2
        rcases List.mem_map.1 hx1 with ⟨b1, _, rfl⟩
        rcases List.mem_map.1 hx2 with ⟨b2, _, he⟩
        have := (Prod.mk.injEq _ _ _ _ ▸ he).1
        exact hne (by omega)
    · intro p hp
      rw [List.mem_flatMap] at hp
      obtain ⟨a, ha, hp⟩ := hp
      rcases List.mem_map.1 hp with ⟨b, hb, rfl⟩
      rw [List.mem_range] at ha hb
      exact mem_allCells.2 ⟨hcell1 a ha, hcell2 b hb⟩
    · intro p hp q hq _
      rw [List.mem_flatMap] at hp hq
      obtain ⟨a1, ha1, hp⟩ := hp
      rcases List.mem_map.1 hp with ⟨b1, hb1, rfl⟩
      obtain ⟨a2, ha2, hq⟩ := hq
      rcases List.mem_map.1 hq with ⟨b2, hb2, rfl⟩
      rw [List.mem_range] at ha1 ha2 hb1 hb2
      refine Or.inr (Or.inr ⟨?_, ?_⟩)
      · show ((i * config.boxHeight, j * config.boxWidth).1 + a1) / config.boxHeight
          = ((i * config.boxHeight, j * config.boxWidth).1 + a2) / config.boxHeight
        rw [hdiv1 a1 ha1, hdiv1 a2 ha2]
      · show ((i * config.boxHeight, j * config.boxWidth).2 + b1) / config.boxWidth
          = ((i * config.boxHeight, j * config.boxWidth).2 + b2) / config.boxWidth
        rw [hdiv2 b1 hb1, hdiv2 b2 hb2]

theorem eachValueOnce_of_complete {g : Grid} {config : GridConfig}
    (hbh : 0 < config.boxHeight) (hbw : 0 < config.boxWidth)
    (hsz : config.boxWidth * config.boxHeight = config.size)
    (hmaxeq : config.maxValue = config.size)
    (hwf : wellFormed g config) (hcf : conflictFree g config)
    (hcomplete : ∀ p ∈ allCells config.size, cellD g p.1 p.2 ≠ 0) :
    eachValueOncePerGroup g config := by
  intro grp hgrp v hv
  obtain ⟨hlen, hnd, hsub, hshare⟩ := allGroups_props hbh hbw hsz grp hgrp
  exact group_count_one hwf hcf hcomplete hlen hnd hsub hshare hmaxeq v hv

/-! ### `validateSolution` on a complete consistent grid -/

theorem sum_lengths_const {n : Nat} :
    ∀ l : List (List Int), (∀ r ∈ l, r.length = n) →
      (l.map List.length).sum = l.length * n := by
  intro l
  induction l with
  | nil => intro _; simp
  | cons r rest ih =>
    intro h
    rw [List.map_cons, List.sum_cons, ih (fun x hx => h x (List.mem_cons_of_mem _ hx)),
      h r (List.mem_cons_self _ _), List.length_cons]
    ring

theorem calculateCompleteness_complete {g : Grid} {config : GridConfig}
    (hpos : 0 < config.size) (hd : gridDims g config.size)
    (hnz : ∀ row ∈ g, ∀ v ∈ row, v ≠ 0) :
    calculateCompletenessE g = .ok 1 := by
  unfold calculateCompletenessE
  have hlen0 : 0 < g.length := by rw [hd.1]; exact hpos
  cases hg : g[0]? with
  | none =>
    rw [List.getElem?_eq_none_iff] at hg
    omega
  | some row0 =>
    dsimp only
    have hfil : g.flatten.filter (· ≠ 0) = g.flatten := by
      rw [List.filter_eq_self]
      intro a ha
      rw [List.mem_flatten] at ha
      obtain ⟨row, hrow, ha⟩ := ha
      simpa using hnz row hrow a ha
    have hflat : g.flatten.length = config.size * config.size := by
      rw [List.length_flatten, sum_lengths_const g hd.2, hd.1]
    have hrow0 : row0.length = config.size := hd.2 row0 (List.getElem?_mem hg)
    rw [hfil, hflat, hrow0, hd.1]
    have hne : (((config.size * config.size : Nat)) : ℚ) ≠ 0 := by
      rw [Ne, Nat.cast_eq_zero]
      exact Nat.mul_ne_zero (by omega) (by omega)
    rw [div_self hne]

theorem isValidGroup_of_nodup {values : List (Option Int)}
    (hall : ∀ v ∈ values, v ≠ some 0) (hnd : values.Nodup) :
    isValidGroup values = true := by
  unfold isValidGroup
  rw [List.filter_eq_self.2 (fun a ha => by simpa using hall a ha)]
  rw [List.dedup_eq_self.2 hnd]
  simp

theorem row_eq_map_cellD {g : Grid} {n : Nat} (hd : gridDims g n)
    {row : Nat} {r : List Int} (hr : g[row]? = some r) :
    r = (List.range n).map (fun c => cellD g row c) := by
  apply List.ext_getElem
  · rw [hd.2 r (List.getElem?_mem hr)]
    simp
  · intro c h1 h2
    rw [List.getElem_map, List.getElem_range]
    rw [cellD_eq_of_getElem? hr, List.getD_eq_getElem r 0 h1]

theorem getColumn_eq {g : Grid} {n : Nat} (hd : gridDims g n)
    {col : Nat} (hc : col < n) :
    getColumn g col = (List.range n).map (fun r => some (cellD g r col)) := by
  unfold getColumn
  apply List.ext_getElem
  · simp [hd.1]
  · intro i h1 h2
    rw [List.getElem_map, List.getElem_map, List.getElem_range]
    have hilen : i < g.length := by rw [List.length_map] at h1; exact h1
    have hrowlen : col < g[i].length := by
      rw [hd.2 _ (List.getElem_mem hilen)]
      exact hc
    rw [List.getElem?_eq_getElem hrowlen]
    have hcc : cellD g i col = g[i][col] := by
      rw [cellD_eq_of_getElem? (List.getElem?_eq_getElem hilen),
        List.getD_eq_getElem _ 0 hrowlen]
    rw [hcc]

theorem rowGroup_mem_allGroups {config : GridConfig} {row : Nat}
    (hrow : row < config.size) :
    (List.range config.size).map (fun c => (row, c)) ∈ allGroups config := by
  unfold allGroups
  rw [List.mem_append, List.mem_append]
  exact Or.inl (Or.inl (List.mem_map.2 ⟨row, List.mem_range.2 hrow, rfl⟩))

theorem colGroup_mem_allGroups {config : GridConfig} {col : Nat}
    (hcol : col < config.size) :
    (List.range config.size).map (fun r => (r, col)) ∈ allGroups config := by
  unfold allGroups
  rw [List.mem_append, List.mem_append]
  exact Or.inl (Or.inr (List.mem_map.2 ⟨col, List.mem_range.2 hcol, rfl⟩))

theorem boxGroup_mem_allGroups {config : GridConfig} {br bc : Nat}
    (hs : (br, bc) ∈ boxStarts config) :
    ((List.range config.boxHeight).flatMap (fun i =>
      (List.range config.boxWidth).map (fun j => (br + i, bc + j))))
      ∈ allGroups config := by
  unfold allGroups
  rw [List.mem_append, List.mem_append]
  exact Or.inr (List.mem_map.2 ⟨(br, bc), hs, rfl⟩)

theorem rowValues_nodup {g : Grid} {config : GridConfig}
    (hbh : 0 < config.boxHeight) (hbw : 0 < config.boxWidth)
    (hsz : config.boxWidth * config.boxHeight = config.size)
    (hcf : conflictFree g config)
    (hcomplete : ∀ p ∈ allCells config.size, cellD g p.1 p.2 ≠ 0)
    {row : Nat} (hrow : row < config.size) :
    ((List.range config.size).map (fun c => cellD g row c)).Nodup := by
  obtain ⟨_, hnd, hsub, hshare⟩ :=
    allGroups_props hbh hbw hsz _ (rowGroup_mem_allGroups hrow)
  have h := group_values_nodup hcf hcomplete hnd hsub hshare
  rw [List.map_map] at h
  exact h

theorem colValues_nodup {g : Grid} {config : GridConfig}
    (hbh : 0 < config.boxHeight) (hbw : 0 < config.boxWidth)
    (hsz : config.boxWidth * config.boxHeight = config.size)
    (hcf : conflictFree g config)
    (hcomplete : ∀ p ∈ allCells config.size, cellD g p.1 p.2 ≠ 0)
    {col : Nat} (hcol : col < config.size) :
    ((List.range config.size).map (fun r => cellD g r col)).Nodup := by
  obtain ⟨_, hnd, hsub, hshare⟩ :=
    allGroups_props hbh hbw hsz _ (colGroup_mem_allGroups hcol)
  have h := group_values_nodup hcf hcomplete hnd hsub hshare
  rw [List.map_map] at h
  exact h

theorem mem_boxStarts {config : GridConfig}
    (hbh : 0 < config.boxHeight) (hbw : 0 < config.boxWidth)
    (hsz : config.boxWidth * config.boxHeight = config.size)
    {br bc : Nat} (hs : (br, bc) ∈ boxStarts config) :
    ∃ i j : Nat, i < config.boxWidth ∧ j < config.boxHeight ∧
      br = i * config.boxHeight ∧ bc = j * config.boxWidth := by
  unfold boxStarts at hs
  rw [List.mem_flatMap] at hs
  obtain ⟨i, hi, hs⟩ := hs
  rcases List.mem_map.1 hs with ⟨j, hj, he⟩
  rw [List.mem_range] at hi hj
  have hdivh : config.size / config.boxHeight = config.boxWidth := by
    rw [← hsz, Nat.mul_div_cancel _ hbh]
  have hdivw : config.size / config.boxWidth = config.boxHeight := by
    rw [← hsz, Nat.mul_comm, Nat.mul_div_cancel _ hbw]
  rw [hdivh] at hi
  rw [hdivw] at hj
  injection he with he1 he2
  exact ⟨i, j, hi, hj, he1.symm, he2.symm⟩

theorem boxStarts_cells_bounds {config : GridConfig}
    (hbh : 0 < config.boxHeight) (hbw : 0 < config.boxWidth)
    (hsz : config.boxWidth * config.boxHeight = config.size)
    {br bc : Nat} (hs : (br, bc) ∈ boxStarts config) :
    ∀ p ∈ ((List.range config.boxHeight).flatMap (fun i =>
      (List.range config.boxWidth).map (fun j => (br + i, bc + j)))),
      p.1 < config.size ∧ p.2 < config.size := by
  obtain ⟨i, j, hi, hj, rfl, rfl⟩ := mem_boxStarts hbh hbw hsz hs
  intro p hp
  rw [List.mem_flatMap] at hp
  obtain ⟨a, ha, hp⟩ := hp
  rcases List.mem_map.1 hp with ⟨b, hb, rfl⟩
  rw [List.mem_range] at ha hb
  constructor
  · show i * config.boxHeight + a < config.size
    have h1 : (i + 1) * config.boxHeight ≤ config.boxWidth * config.boxHeight :=
      Nat.mul_le_mul_right _ (by omega)
    rw [Nat.succ_mul] at h1
    omega
  · show j * config.boxWidth + b < config.size
    have h1 : (j + 1) * config.boxWidth ≤ config.boxHeight * config.boxWidth :=
      Nat.mul_le_mul_right _ (by omega)
    rw [Nat.succ_mul, Nat.mul_comm config.boxHeight config.boxWidth] at h1
    omega

theorem getBoxE_ok {g : Grid} {config : GridConfig} (hd : gridDims g config.size)
    {br bc : Nat}
    (hin : ∀ p ∈ ((List.range config.boxHeight).flatMap (fun i =>
      (List.range config.boxWidth).map (fun j => (br + i, bc + j)))),
      p.1 < config.size ∧ p.2 < config.size) :
    getBoxE g br bc config = .ok
      (((List.range config.boxHeight).flatMap (fun i =>
        (List.range config.boxWidth).map (fun j => (br + i, bc + j)))).map
          (fun p => some (cellD g p.1 p.2)),
       (List.range config.boxHeight).flatMap (fun i =>
        (List.range config.boxWidth).map (fun j => (br + i, bc + j)))) := by
  unfold getBoxE
  suffices H : ∀ cells : List (Nat × Nat),
      (∀ p ∈ cells, p.1 < config.size ∧ p.2 < config.size) →
      ∀ acc : List (Option Int) × List (Nat × Nat),
      (cells.foldlM (fun acc p => do
          let cv ← readCell g p.1 p.2
          pure (acc.1 ++ [cv], acc.2 ++ [p])) acc : Except String _)
        = .ok (acc.1 ++ cells.map (fun p => some (cellD g p.1 p.2)),
            acc.2 ++ cells) by
    have h := H _ hin ([], [])
    simpa using h
  intro cells
  induction cells with
  | nil =>
    intro _ acc
    simp only [List.foldlM_nil, List.map_nil, List.append_nil]
    rfl
  | cons p rest ih =>
    intro hin2 acc
    rw [List.foldlM_cons]
    have hp := hin2 p (List.mem_cons_self _ _)
    rw [readCell_of_dims hd hp.1 hp.2]
    rw [exbind_ok, pure_bind]
    rw [ih (fun q hq => hin2 q (List.mem_cons_of_mem _ hq))]
    simp

theorem boxValues_nodup {g : Grid} {config : GridConfig}
    (hbh : 0 < config.boxHeight) (hbw : 0 < config.boxWidth)
    (hsz : config.boxWidth * config.boxHeight = config.size)
    (hcf : conflictFree g config)
    (hcomplete : ∀ p ∈ allCells config.size, cellD g p.1 p.2 ≠ 0)
    {br bc : Nat} (hs : (br, bc) ∈ boxStarts config) :
    (((List.range config.boxHeight).flatMap (fun i =>
      (List.range config.boxWidth).map (fun j => (br + i, bc + j)))).map
        (fun p => cellD g p.1 p.2)).Nodup := by
  obtain ⟨_, hnd, hsub, hshare⟩ :=
    allGroups_props hbh hbw hsz _ (boxGroup_mem_allGroups hs)
  exact group_values_nodup hcf hcomplete hnd hsub hshare

theorem vacRows_clean {g : Grid} {config : GridConfig}
    (h : ∀ row, row < config.size → ∃ r, g[row]? = some r ∧
      isValidGroup (r.map some) = true) :
    ∀ rows : List Nat, (∀ row ∈ rows, row < config.size) →
      ∀ acc, vacRows g config rows acc = (acc, none) := by
  intro rows
  induction rows with
  | nil => intro _ acc; rfl
  | cons row rest ih =>
    intro hb acc
    obtain ⟨r, hr, hvg⟩ := h row (hb row (List.mem_cons_self _ _))
    unfold vacRows
    rw [hr]
    dsimp only
    rw [if_pos hvg]
    exact ih (fun x hx => hb x (List.mem_cons_of_mem _ hx)) acc

theorem vacCols_clean {g : Grid} {config : GridConfig}
    (h : ∀ col, col < config.size → isValidGroup (getColumn g col) = true) :
    ∀ cols : List Nat, (∀ col ∈ cols, col < config.size) →
      ∀ acc, vacCols g config cols acc = acc := by
  intro cols
  induction cols with
  | nil => intro _ acc; rfl
  | cons col rest ih =>
    intro hb acc
    unfold vacCols
    dsimp only
    rw [if_pos (h col (hb col (List.mem_cons_self _ _)))]
    exact ih (fun x hx => hb x (List.mem_cons_of_mem _ hx)) acc

theorem vacBoxes_clean {g : Grid} {config : GridConfig}
    (h : ∀ br bc : Nat, (br, bc) ∈ boxStarts config →
      ∃ vals poss, getBoxE g br bc config = .ok (vals, poss) ∧
        isValidGroup vals = true) :
    ∀ starts : List (Nat × Nat), (∀ s ∈ starts, s ∈ boxStarts config) →
      ∀ acc, vacBoxes g config starts acc = (acc, none) := by
  intro starts
  induction starts with
  | nil => intro _ acc; rfl
  | cons s rest ih =>
    intro hb acc
    obtain ⟨br, bc⟩ := s
    obtain ⟨vals, poss, hbox, hvg⟩ :=
      h br bc (hb (br, bc) (List.mem_cons_self _ _))
    unfold vacBoxes
    rw [hbox]
    dsimp only
    rw [if_pos hvg]
    exact ih (fun x hx => hb x (List.mem_cons_of_mem _ hx)) acc

theorem validateAllConstraints_complete {g : Grid} {config : GridConfig}
    (hbh : 0 < config.boxHeight) (hbw : 0 < config.boxWidth)
    (hsz : config.boxWidth * config.boxHeight = config.size)
    (hwf : wellFormed g config) (hcf : conflictFree g config)
    (hcomplete : ∀ p ∈ allCells config.size, cellD g p.1 p.2 ≠ 0) :
    validateAllConstraints g config = ⟨true, [], []⟩ := by
  have hd := hwf.1
  have hnzrows := no_zero_entries hd hcomplete
  have hrows : ∀ row, row < config.size → ∃ r, g[row]? = some r ∧
      isValidGroup (r.map some) = true := by
    intro row hrow
    have hlen : row < g.length := by rw [hd.1]; exact hrow
    refine ⟨g[row], List.getElem?_eq_getElem hlen, ?_⟩
    apply isValidGroup_of_nodup
    · intro v hv
      rcases List.mem_map.1 hv with ⟨x, hx, rfl⟩
      have h2 := hnzrows g[row] (List.getElem_mem hlen) x hx
      simpa using h2
    · refine List.Nodup.map (Option.some_injective _) ?_
      rw [row_eq_map_cellD hd (List.getElem?_eq_getElem hlen)]
      exact rowValues_nodup hbh hbw hsz hcf hcomplete hrow
  have hcols : ∀ col, col < config.size →
      isValidGroup (getColumn g col) = true := by
    intro col hcol
    rw [getColumn_eq hd hcol]
    apply isValidGroup_of_nodup
    · intro v hv
      rcases List.mem_map.1 hv with ⟨r2, hr2, rfl⟩
      rw [List.mem_range] at hr2
      have h2 := hcomplete (r2, col) (mem_allCells.2 ⟨hr2, hcol⟩)
      simpa using h2
    · have h := colValues_nodup hbh hbw hsz hcf hcomplete hcol
      have h2 := List.Nodup.map (Option.some_injective Int) h
      rw [List.map_map] at h2
      exact h2
  have hboxes : ∀ br bc : Nat, (br, bc) ∈ boxStarts config →
      ∃ vals poss, getBoxE g br bc config = .ok (vals, poss) ∧
        isValidGroup vals = true := by
    intro br bc hs
    have hbnd := boxStarts_cells_bounds hbh hbw hsz hs
    refine ⟨_, _, getBoxE_ok hd hbnd, ?_⟩
    apply isValidGroup_of_nodup
    · intro v hv
      rcases List.mem_map.1 hv with ⟨p, hp, rfl⟩
      have hb := hbnd p hp
      have h2 := hcomplete p (mem_allCells.2 hb)
      simpa using h2
    · have h := boxValues_nodup hbh hbw hsz hcf hcomplete hs
      have h2 := List.Nodup.map (Option.some_injective Int) h
      rw [List.map_map] at h2
      exact h2
  unfold validateAllConstraints
  rw [vacRows_clean hrows (List.range config.size)
    (fun row hrow => List.mem_range.1 hrow) []]
  dsimp only
  rw [vacCols_clean hcols (List.range config.size)
    (fun col hcol => List.mem_range.1 hcol) []]
  rw [vacBoxes_clean hboxes (boxStarts config) (fun s hs => hs) []]
  rfl

theorem validateSolution_complete {g : Grid} {size : Nat} {config : GridConfig}
    (hcfg : gridConfigs size = some config)
    (hwf : wellFormed g config) (hcf : conflictFree g config)
    (hcomplete : ∀ p ∈ allCells config.size, cellD g p.1 p.2 ≠ 0) :
    validateSolution g size = ⟨true, [], [], 1⟩ := by
  obtain ⟨hbh, hbw, hsz, hszeq, hmax⟩ := config_facts hcfg
  have hpos : 0 < config.size := by
    rw [← hsz]; exact Nat.mul_pos hbw hbh
  have hcc := calculateCompleteness_complete hpos hwf.1
    (no_zero_entries hwf.1 hcomplete)
  have hvgs : validateGridStructure g config = true :=
    validateGridStructure_iff.2 hwf
  have hvac := validateAllConstraints_complete hbh hbw hsz hwf hcf hcomplete
  unfold validateSolution validateSolutionE
  rw [hcfg]
  dsimp only
  rw [hcc, exbind_ok]
  rw [if_neg (not_not_intro hvgs)]
  rw [if_neg (lt_irrefl (1 : ℚ))]
  dsimp only
  rw [hvac]

/-- C6: every solution grid produced by `generateCompleteSolution` — for a
supported config, any propagation and backtracking fuel, and any
`orderDomainValues` shuffle that only reorders or drops candidate values —
contains each value `1..maxValue` exactly once in every row, column and box,
and `validateSolution` confirms it with `isValid = true`, no errors or
conflicts, and completeness `1`. -/
theorem generateCompleteSolution_valid :
    ∀ (size : Nat) (config : GridConfig), gridConfigs size = some config →
    ∀ (pfuel bfuel : Nat) (shuffle : List Int → List Int),
      (∀ l : List Int, ∀ v ∈ shuffle l, v ∈ l) →
      ∀ g : Grid, generateCompleteSolution pfuel bfuel config shuffle = some g →
        eachValueOncePerGroup g config ∧
        validateSolution g size = ⟨true, [], [], 1⟩ := by
  intro size config hcfg pfuel bfuel shuffle hsh g h
  obtain ⟨hbh, hbw, hsz, hszeq, hmax⟩ := config_facts hcfg
  obtain ⟨hwf, hcf, hcomplete⟩ :=
    generateCompleteSolution_inv hbh hbw hsz pfuel bfuel shuffle hsh g h
  exact ⟨eachValueOnce_of_complete hbh hbw hsz hmax hwf hcf hcomplete,
    validateSolution_complete hcfg hwf hcf hcomplete⟩

/-- Witness for C6: the 4×4 generation with the identity value order and
fuel 20 succeeds, and its output satisfies both conclusions. -/
theorem generateCompleteSolution_valid_witness :
    gridConfigs 4 = some config4 ∧
    (∀ l : List Int, ∀ v ∈ id l, v ∈ l) ∧
    generateCompleteSolution 20 20 config4 id =
      some [[1, 2, 3, 4], [3, 4, 1, 2], [2, 1, 4, 3], [4, 3, 2, 1]] ∧
    (eachValueOncePerGroup
        [[1, 2, 3, 4], [3, 4, 1, 2], [2, 1, 4, 3], [4, 3, 2, 1]] config4 ∧
      validateSolution
        [[1, 2, 3, 4], [3, 4, 1, 2], [2, 1, 4, 3], [4, 3, 2, 1]] 4 =
          ⟨true, [], [], 1⟩) :=
  ⟨rfl, fun l v h => h, by decide,
    generateCompleteSolution_valid 4 config4 rfl 20 20 id (fun l v h => h)
      [[1, 2, 3, 4], [3, 4, 1, 2], [2, 1, 4, 3], [4, 3, 2, 1]] (by decide)⟩
